import Mathlib

/-!
Verification development for the Adaptive-Pacemaker-HotStuff simulator.

This file gives a shallow embedding, in Lean 4, of the core of the
`hotstuff` Python package (the Basic-HotStuff path: domain models, safety
rules, vote collector, pacemakers, simulated network, replica state
machine, and the discrete-event simulation engine), and proves or refutes
the specification claims about it.

Modelling conventions:
* Python `int` is modelled by `Nat` where the source only ever holds
  non-negative values (ids, views, heights, times) and by `Int` where the
  source uses `-1` sentinels; Python `float` is modelled by `Rat`
  (the concrete constants involved, such as `0.5` and `1.5`, are dyadic,
  so the rational computation agrees exactly with IEEE doubles on the
  inputs used in the theorems below).
* `hashlib.sha256` content digests are modelled by an inductive type that
  carries exactly the hashed content, i.e. the digest function is taken
  to be injective (the simulator itself assumes hash injectivity).
* Python dictionaries are modelled by insertion-ordered association
  lists, Python `heapq` heaps by lists kept sorted in `(key, seq)` order
  (which reproduces the heap's pop order exactly), and iteration over the
  set of replica ids by ascending-id iteration, which is what CPython
  produces for the small consecutive ints the simulator stores.
* The two pseudo-random sources are inputs of the model: the network's
  own seeded PRNG (`random.Random(seed)`) is a stream indexed by a draw
  counter, and the process-global `random` module consulted by the
  RANDOM_DROP fault branch is a second, independent stream.  Message ids
  (`uuid.uuid4()`) are likewise drawn from an input stream.
* Python exceptions are modelled with `Except`: a raising call produces
  `.error e`, and a simulation step that raises has no successor state
  (the exception propagates out of `SimulationEngine.step`, and every
  host in the repository stops stepping the engine at that point).
-/

namespace HotStuff

/-- Enumeration of protocol message types (`domain/enumerations/message_type.py`). -/
inductive MessageType where
  | NEW_VIEW
  | PREPARE
  | PREPARE_VOTE
  | PRE_COMMIT
  | PRE_COMMIT_VOTE
  | COMMIT
  | COMMIT_VOTE
  | DECIDE
deriving DecidableEq, Repr

/-- Enumeration of replica phases (`domain/enumerations/phase_type.py`). -/
inductive PhaseType where
  | NEW_VIEW
  | PREPARE
  | PRE_COMMIT
  | COMMIT
  | DECIDE
deriving DecidableEq, Repr

/-- Enumeration of injectable fault kinds (`domain/enumerations/fault_type.py`). -/
inductive FaultType where
  | NONE
  | CRASH
  | SILENT
  | DOUBLE_VOTE
  | RANDOM_DROP
deriving DecidableEq, Repr

/-- Enumeration of pacemaker kinds (`domain/enumerations/pacemaker_type.py`). -/
inductive PacemakerType where
  | BASELINE
  | ADAPTIVE
deriving DecidableEq, Repr

/-- Block hashes.  In the source a block's hash is the truncated sha256
digest of the string `"{parent_hash}|{command}|{height}|{proposer_id}|{view_number}"`
(`domain/models/block.py`).  The digest is modelled as an injective
function of that content, so a hash value is represented by the content
itself. -/
inductive BHash where
  | root (command : String) (height : Nat) (proposer : Nat) (view : Nat)
  | child (parent : BHash) (command : String) (height : Nat)
      (proposer : Nat) (view : Nat)
deriving DecidableEq, Repr

/-- Block record (`domain/models/block.py`): optional parent hash, command
payload, height, proposer id and view of proposal.  The record is frozen
in the source. -/
structure Block where
  parent_hash : Option BHash
  command : String
  height : Nat
  proposer_id : Nat
  view_number : Nat
deriving DecidableEq, Repr

/-- Computed `block_hash` field of `Block` (`domain/models/block.py`). -/
def Block.block_hash (b : Block) : BHash :=
  match b.parent_hash with
  | none => .root b.command b.height b.proposer_id b.view_number
  | some p => .child p b.command b.height b.proposer_id b.view_number

/-- Partial threshold signature (`domain/models/partial_signature.py`):
the tuple `(replica_id, message_type, view_number, block_hash)`. -/
structure PartialSignature where
  replica_id : Nat
  message_type : MessageType
  view_number : Nat
  block_hash : BHash
deriving DecidableEq, Repr

/-- Quorum certificate (`domain/models/quorum_certificate.py`). -/
structure QuorumCertificate where
  qc_type : MessageType
  view_number : Nat
  block_hash : BHash
  signatures : List PartialSignature
deriving DecidableEq, Repr

/-- Number of distinct signers of a QC (`QuorumCertificate.signer_count`). -/
def QuorumCertificate.signer_count (qc : QuorumCertificate) : Nat :=
  (qc.signatures.map PartialSignature.replica_id).dedup.length

/-- Validity check of a QC (`QuorumCertificate.is_valid`): at least
`quorum_size` distinct signers. -/
def QuorumCertificate.is_valid (qc : QuorumCertificate) (quorum_size : Nat) : Bool :=
  decide (quorum_size ≤ qc.signer_count)

/-- Genesis block (`BlockFactory.create_genesis_block` with proposer 0,
using `GENESIS_VIEW_NUMBER = 0`). -/
def genesis_block : Block :=
  { parent_hash := none, command := "genesis", height := 0
    proposer_id := 0, view_number := 0 }

/-- Leaf creation (`BlockFactory.create_block`): extends the parent with
`height = parent.height + 1`. -/
def create_block (parent : Block) (command : String) (proposer_id view_number : Nat) :
    Block :=
  { parent_hash := some parent.block_hash, command := command
    height := parent.height + 1, proposer_id := proposer_id
    view_number := view_number }

/-- Truncation of a rational toward zero, the semantics of Python's
`int(x)` on a float. -/
def pyInt (q : ℚ) : Int :=
  if 0 ≤ q then q.floor else -((-q).floor)

/-- State of the EMA-based adaptive pacemaker
(`pacemaker/adaptive_pacemaker.py`).  Timeout durations are Python ints
(`int(...)` is applied on every update), `alpha` is a float, and
`timeout_time` uses the `-1` sentinel when the timer is inactive. -/
structure AdaptiveSt where
  base_timeout_ms : Int
  current_timeout_ms : Int
  alpha : ℚ
  min_timeout_ms : Int
  max_timeout_ms : Int
  current_view : Nat
  timeout_time : Int
  timer_active : Bool
  view_start_time : Int
  consecutive_timeouts : Nat
deriving DecidableEq, Repr

/-- Constructor of `AdaptivePacemaker`. -/
def AdaptiveSt.init (base_timeout_ms : Int) (alpha : ℚ)
    (min_timeout_ms max_timeout_ms : Int) : AdaptiveSt :=
  { base_timeout_ms := base_timeout_ms, current_timeout_ms := base_timeout_ms
    alpha := alpha, min_timeout_ms := min_timeout_ms
    max_timeout_ms := max_timeout_ms, current_view := 0, timeout_time := -1
    timer_active := false, view_start_time := 0, consecutive_timeouts := 0 }

/-- Adjustment of the timeout on a successful view
(`AdaptivePacemaker.on_view_success`): zero the consecutive-timeout
counter, compute the EMA `alpha * duration + (1 - alpha) * current`,
multiply by the 1.5 safety margin, clamp between the configured minimum
and maximum, and truncate with `int(...)`. -/
def AdaptiveSt.on_view_success (p : AdaptiveSt) (duration_ms : Int) : AdaptiveSt :=
  let ema_timeout : ℚ :=
    p.alpha * (duration_ms : ℚ) + (1 - p.alpha) * (p.current_timeout_ms : ℚ)
  let target_timeout : ℚ := ema_timeout * (3 / 2)
  { p with
    consecutive_timeouts := 0
    current_timeout_ms :=
      pyInt (max (p.min_timeout_ms : ℚ) (min target_timeout (p.max_timeout_ms : ℚ))) }

/-- Timeout handling with exponential backoff
(`AdaptivePacemaker.on_timeout`): bump the counter, multiply the timeout
by `min(2^count, 4)` capped at the maximum, deactivate the timer, and
return `current_view + 1`. -/
def AdaptiveSt.on_timeout (p : AdaptiveSt) : Nat × AdaptiveSt :=
  let c := p.consecutive_timeouts + 1
  let backoff_multiplier : Int := min (2 ^ c) 4
  let new_timeout : Int := min (p.current_timeout_ms * backoff_multiplier) p.max_timeout_ms
  (p.current_view + 1,
    { p with consecutive_timeouts := c, current_timeout_ms := new_timeout
             timer_active := false })

/-- Timer start (`AdaptivePacemaker.start_timer`): record the view and
start time and return the absolute expiration time. -/
def AdaptiveSt.start_timer (p : AdaptiveSt) (view_number : Nat) (current_time : Int) :
    Int × AdaptiveSt :=
  let t := current_time + p.current_timeout_ms
  (t, { p with current_view := view_number, view_start_time := current_time
               timeout_time := t, timer_active := true })

/-- Timer stop (`AdaptivePacemaker.stop_timer`). -/
def AdaptiveSt.stop_timer (p : AdaptiveSt) : AdaptiveSt :=
  { p with timer_active := false, timeout_time := -1 }

/-- State of the fixed-timeout baseline pacemaker
(`pacemaker/base_pacemaker.py`). -/
structure BaseSt where
  base_timeout_ms : Int
  current_view : Nat
  timeout_time : Int
  timer_active : Bool
deriving DecidableEq, Repr

/-- Constructor of `BasePacemaker`. -/
def BaseSt.init (base_timeout_ms : Int) : BaseSt :=
  { base_timeout_ms := base_timeout_ms, current_view := 0, timeout_time := -1
    timer_active := false }

/-- Per-replica pacemaker, either baseline or adaptive (the engine picks
by `settings.pacemaker_type`). -/
inductive Pacemaker where
  | base (st : BaseSt)
  | adaptive (st : AdaptiveSt)
deriving DecidableEq, Repr

/-- Dispatching `start_timer` over the two pacemaker kinds. -/
def Pacemaker.start_timer (p : Pacemaker) (view_number : Nat) (current_time : Int) :
    Int × Pacemaker :=
  match p with
  | .base st =>
      let t := current_time + st.base_timeout_ms
      (t, .base { st with current_view := view_number, timeout_time := t
                          timer_active := true })
  | .adaptive st =>
      let r := st.start_timer view_number current_time
      (r.1, .adaptive r.2)

/-- Dispatching `stop_timer`. -/
def Pacemaker.stop_timer (p : Pacemaker) : Pacemaker :=
  match p with
  | .base st => .base { st with timer_active := false, timeout_time := -1 }
  | .adaptive st => .adaptive st.stop_timer

/-- Dispatching `on_timeout`; returns the next view. -/
def Pacemaker.on_timeout (p : Pacemaker) : Nat × Pacemaker :=
  match p with
  | .base st => (st.current_view + 1, .base { st with timer_active := false })
  | .adaptive st =>
      let r := st.on_timeout
      (r.1, .adaptive r.2)

/-- Dispatching `on_view_success` (a no-op for the baseline pacemaker). -/
def Pacemaker.on_view_success (p : Pacemaker) (duration_ms : Int) : Pacemaker :=
  match p with
  | .base st => .base st
  | .adaptive st => .adaptive (st.on_view_success duration_ms)

/-- Input record for `Settings` (`config/settings.py`): one field per
pydantic field that carries a numeric or enumerated value.  `ui_host`,
`ui_debug` and `log_level` carry no constraint and are omitted from
validation but kept for completeness. -/
structure SettingsIn where
  num_replicas : Int
  num_faulty : Int
  base_timeout_ms : Int
  network_delay_min_ms : Int
  network_delay_max_ms : Int
  random_seed : Option Int
  pacemaker_type : PacemakerType
  simulation_speed : ℚ
  max_views : Int
  log_level : String
  adaptive_alpha : ℚ
  adaptive_min_timeout_ms : Int
  adaptive_max_timeout_ms : Int
  ui_host : String
  ui_port : Int
  ui_debug : Bool
deriving DecidableEq, Repr

/-- Construction-time validation of `Settings`: the conjunction of every
pydantic `Field` bound (`ge`/`le`/`gt`/`lt`) together with the
`validate_num_replicas` field validator.  `MIN_REPLICAS = 4` and
`MAX_REPLICAS = 100` come from `config/constants/limits.py`.
Construction succeeds exactly when this returns `true`. -/
def settings_validate (s : SettingsIn) : Bool :=
  decide (4 ≤ s.num_replicas) && decide (s.num_replicas ≤ 100) &&
  decide ((s.num_replicas - 1) % 3 = 0) &&
  decide (0 ≤ s.num_faulty) &&
  decide (0 < s.base_timeout_ms) &&
  decide (0 ≤ s.network_delay_min_ms) &&
  decide (0 < s.network_delay_max_ms) &&
  decide (0 < s.simulation_speed) && decide (s.simulation_speed ≤ 100) &&
  decide (0 < s.max_views) &&
  decide (0 < s.adaptive_alpha) && decide (s.adaptive_alpha < 1) &&
  decide (0 < s.adaptive_min_timeout_ms) &&
  decide (0 < s.adaptive_max_timeout_ms) &&
  decide (0 < s.ui_port) && decide (s.ui_port < 65536)

/-- Derived quorum size (`Settings.quorum_size`): `n - f`. -/
def SettingsIn.quorum_size (s : SettingsIn) : Int :=
  s.num_replicas - s.num_faulty

/-- Derived maximum tolerable faults (`Settings.max_faulty`):
`(n - 1) // 3` (the operands are non-negative on every validated input,
so truncating and flooring division agree). -/
def SettingsIn.max_faulty (s : SettingsIn) : Int :=
  (s.num_replicas - 1) / 3

/-- Separate fault-tolerance check (`Settings.validate_fault_tolerance`),
a plain method that is not invoked during construction. -/
def SettingsIn.validate_fault_tolerance (s : SettingsIn) : Bool :=
  decide (s.num_faulty ≤ s.max_faulty)

/-- Lookup in an insertion-ordered association list, the model of
Python's `dict.get`. -/
def alist_get {α β : Type} [DecidableEq α] (l : List (α × β)) (k : α) : Option β :=
  match l.find? (fun kv => kv.1 = k) with
  | some kv => some kv.2
  | none => none

/-- Update of an insertion-ordered association list, the model of
Python's `d[k] = v`: replace in place if the key exists, else append. -/
def alist_set {α β : Type} [DecidableEq α] (l : List (α × β)) (k : α) (v : β) :
    List (α × β) :=
  match l with
  | [] => [(k, v)]
  | kv :: rest =>
      if kv.1 = k then (k, v) :: rest else kv :: alist_set rest k v

/-- Python exceptions that the modelled code can raise. -/
inductive PyErr where
  | attributeError (msg : String)
  | valueError (msg : String)
deriving DecidableEq, Repr

/-- Block registry of `SafetyRules`: the `_block_registry` dict. -/
abbrev BlockRegistry := List (BHash × Block)

/-- Loop body of `SafetyRules._extends_from`: walk parent hashes from
`current`, guarding against hash cycles with the `visited` set; when the
walk ends without finding the ancestor, fall back to comparing the
original block's direct parent hash.  The Python loop needs no fuel; here
`fuel = registry.length + 1` suffices because every iteration that recurses
consumes a distinct registry key (see `extends_from_loop_fuel_stable`). -/
def extends_from_loop (reg : BlockRegistry) (ancestor_hash : BHash)
    (fallback : Bool) : Nat → Option BHash → List BHash → Bool
  | 0, _, _ => fallback
  | _ + 1, none, _ => fallback
  | fuel + 1, some h, visited =>
      if h ∈ visited then fallback
      else if h = ancestor_hash then true
      else
        match alist_get reg h with
        | none => fallback
        | some parent_block =>
            extends_from_loop reg ancestor_hash fallback fuel
              parent_block.parent_hash (h :: visited)

/-- Ancestry check `SafetyRules._extends_from(block, ancestor_hash)`. -/
def extends_from (reg : BlockRegistry) (block : Block) (ancestor_hash : BHash) :
    Bool :=
  extends_from_loop reg ancestor_hash
    (decide (block.parent_hash = some ancestor_hash))
    (reg.length + 1) block.parent_hash []

/-- Safe-node predicate `SafetyRules.is_safe_node(block, justify_qc, locked_qc)`:
safe when there is no locked QC, or the block extends the locked block, or
the justify QC is present with a view strictly above the locked view. -/
def is_safe_node (reg : BlockRegistry) (block : Block)
    (justify_qc locked_qc : Option QuorumCertificate) : Bool :=
  match locked_qc with
  | none => true
  | some lqc =>
      if extends_from reg block lqc.block_hash then true
      else
        match justify_qc with
        | some jqc => decide (jqc.view_number > lqc.view_number)
        | none => false

/-- Vote message (`domain/models/messages/base_vote_message.py` and its
concrete subclasses): envelope fields plus the voted block hash and the
partial signature. -/
structure VoteMsg where
  message_id : Nat
  message_type : MessageType
  sender_id : Nat
  view_number : Nat
  timestamp : Int
  target_id : Option Nat
  block_hash : BHash
  partial_signature : PartialSignature
deriving DecidableEq, Repr

/-- Factory for the three vote kinds (`PrepareVote.create`,
`PreCommitVote.create`, `CommitVote.create`): the partial signature is
built from the same `(sender, type, view, hash)` tuple as the envelope.
`message_id` models the `uuid.uuid4()` draw. -/
def VoteMsg.create (message_id : Nat) (message_type : MessageType)
    (sender_id view_number : Nat) (block_hash : BHash) (target_id : Nat)
    (timestamp : Int) : VoteMsg :=
  { message_id := message_id, message_type := message_type
    sender_id := sender_id, view_number := view_number
    timestamp := timestamp, target_id := some target_id
    block_hash := block_hash
    partial_signature :=
      { replica_id := sender_id, message_type := message_type
        view_number := view_number, block_hash := block_hash } }

/-- Key of the vote collector: `(view, block_hash, vote_type)`. -/
abbrev VoteKey := Nat × BHash × MessageType

/-- State of `VoteCollector`: quorum size, per-key collected votes, and
per-key formed QCs. -/
structure CollectorSt where
  quorum_size : Nat
  votes : List (VoteKey × List VoteMsg)
  formed_qcs : List (VoteKey × QuorumCertificate)
deriving DecidableEq, Repr

/-- Fresh vote collector (`VoteCollector.__init__`). -/
def CollectorSt.init (quorum_size : Nat) : CollectorSt :=
  { quorum_size := quorum_size, votes := [], formed_qcs := [] }

/-- QC construction from votes
(`QuorumCertificateFactory.create_qc`): raises `ValueError` on an empty
or inconsistent vote list, otherwise aggregates every vote's partial
signature under the first vote's `(view, block_hash)`. -/
def create_qc (votes : List VoteMsg) (qc_type : MessageType) :
    Except PyErr QuorumCertificate :=
  match votes with
  | [] => .error (.valueError "Cannot create QC from empty votes list")
  | first_vote :: _ =>
      if votes.all (fun v => v.block_hash = first_vote.block_hash) then
        if votes.all (fun v => v.view_number = first_vote.view_number) then
          .ok { qc_type := qc_type, view_number := first_vote.view_number
                block_hash := first_vote.block_hash
                signatures := votes.map VoteMsg.partial_signature }
        else .error (.valueError "All votes must be from the same view")
      else .error (.valueError "All votes must be for the same block")

/-- Vote key of a vote (`(vote.view_number, vote.block_hash, vote.message_type)`). -/
def VoteMsg.key (v : VoteMsg) : VoteKey :=
  (v.view_number, v.block_hash, v.message_type)

/-- Vote insertion (`VoteCollector.add_vote`): return `none` when a QC was
already formed for the vote's key or the signer already voted; otherwise
append the vote and, when the vote count reaches the quorum, form the QC,
record it, and return it. -/
def CollectorSt.add_vote (s : CollectorSt) (vote : VoteMsg) :
    Except PyErr (Option QuorumCertificate × CollectorSt) :=
  let key := vote.key
  match alist_get s.formed_qcs key with
  | some _ => .ok (none, s)
  | none =>
      let existing := (alist_get s.votes key).getD []
      if vote.sender_id ∈ existing.map VoteMsg.sender_id then
        .ok (none, { s with votes := alist_set s.votes key existing })
      else
        let new_list := existing ++ [vote]
        let s1 : CollectorSt := { s with votes := alist_set s.votes key new_list }
        if s.quorum_size ≤ new_list.length then
          match create_qc new_list vote.message_type with
          | .ok qc =>
              .ok (some qc,
                { s1 with formed_qcs := alist_set s1.formed_qcs key qc })
          | .error e => .error e
        else
          .ok (none, s1)

/-- Payload of a protocol message, one variant per concrete message class
(`domain/models/messages/`). -/
inductive MsgBody where
  | newView (justify_qc : Option QuorumCertificate)
  | prepare (block : Block) (high_qc : Option QuorumCertificate)
  | prepareVote (block_hash : BHash) (psig : PartialSignature)
  | preCommit (prepare_qc : QuorumCertificate)
  | preCommitVote (block_hash : BHash) (psig : PartialSignature)
  | commitMsg (precommit_qc : QuorumCertificate)
  | commitVote (block_hash : BHash) (psig : PartialSignature)
  | decide (commit_qc : QuorumCertificate)
deriving DecidableEq, Repr

/-- Value of the `message_type` field fixed by each message class. -/
def MsgBody.msg_type : MsgBody → MessageType
  | .newView _ => .NEW_VIEW
  | .prepare _ _ => .PREPARE
  | .prepareVote _ _ => .PREPARE_VOTE
  | .preCommit _ => .PRE_COMMIT
  | .preCommitVote _ _ => .PRE_COMMIT_VOTE
  | .commitMsg _ => .COMMIT
  | .commitVote _ _ => .COMMIT_VOTE
  | .decide _ => .DECIDE

/-- Protocol message envelope (`domain/models/messages/base_message.py`):
`message_id` models the `uuid.uuid4()` draw, `target_id = none` means
broadcast. -/
structure Msg where
  message_id : Nat
  sender_id : Nat
  view_number : Nat
  timestamp : Int
  target_id : Option Nat
  body : MsgBody
deriving DecidableEq, Repr

/-- Message type of a message, `msg.message_type`. -/
def Msg.message_type (m : Msg) : MessageType := m.body.msg_type

/-- View of a vote message as the collector's `BaseVoteMessage`. -/
def Msg.toVote (m : Msg) (block_hash : BHash) (psig : PartialSignature) : VoteMsg :=
  { message_id := m.message_id, message_type := m.message_type
    sender_id := m.sender_id, view_number := m.view_number
    timestamp := m.timestamp, target_id := m.target_id
    block_hash := block_hash, partial_signature := psig }

/-- View of a collector vote as a network message. -/
def VoteMsg.toMsg (v : VoteMsg) : Msg :=
  { message_id := v.message_id, sender_id := v.sender_id
    view_number := v.view_number, timestamp := v.timestamp
    target_id := v.target_id
    body :=
      match v.message_type with
      | .PRE_COMMIT_VOTE => .preCommitVote v.block_hash v.partial_signature
      | .COMMIT_VOTE => .commitVote v.block_hash v.partial_signature
      | _ => .prepareVote v.block_hash v.partial_signature }

/-- Simulation event, one variant per event dict the source appends to
the engine history (`simulation/engine.py`, `protocol/replica.py`,
`protocol/basic/handler.py`). -/
inductive Event where
  | VIEW_CHANGE (replica_id : Nat) (new_view : Nat) (timestamp : Int)
  | PROPOSAL (replica_id : Nat) (block_hash : BHash) (view : Nat) (timestamp : Int)
  | VOTE_SEND (replica_id : Nat) (vote_type : String) (block_hash : BHash)
      (timestamp : Int)
  | QC_FORMATION (replica_id : Nat) (qc_type : String) (view : Nat) (timestamp : Int)
  | LOCK_UPDATE (replica_id : Nat) (locked_view : Nat) (timestamp : Int)
  | COMMIT (replica_id : Nat) (block_hash : BHash) (height : Nat) (timestamp : Int)
  | TIMEOUT (timestamp : Int) (replica_id : Nat) (view : Nat) (next_view : Nat)
  | MESSAGE_RECEIVE (timestamp : Int) (recipient_id : Nat) (sender_id : Nat)
      (message_type : MessageType) (message_id : Nat)
  | BYZANTINE_ACTION (replica_id : Nat) (action : String) (view : Nat)
      (timestamp : Int)
deriving DecidableEq, Repr

/-- Entry of a per-replica delivery heap: `(delivery_time, seq, message)`. -/
abbrev HeapEntry := Int × Nat × Msg

/-- Ordered insertion into a delivery heap kept sorted by
`(delivery_time, seq)`; reproduces `heapq` pop order (seq values are
distinct, so the message itself is never compared). -/
def heap_insert (l : List HeapEntry) (e : HeapEntry) : List HeapEntry :=
  match l with
  | [] => [e]
  | x :: rest =>
      if e.1 < x.1 ∨ (e.1 = x.1 ∧ e.2.1 < x.2.1) then e :: x :: rest
      else x :: heap_insert rest e

/-- State of `MessageQueue` (`network/message_queue.py`): per-target
delivery heaps, the in-flight list and the monotone message counter. -/
structure MQSt where
  queues : List (Nat × List HeapEntry)
  in_flight : List (Msg × Nat × Nat × Int)
  message_counter : Nat
deriving DecidableEq, Repr

/-- Empty message queue. -/
def MQSt.init : MQSt := { queues := [], in_flight := [], message_counter := 0 }

/-- Enqueue (`MessageQueue.enqueue`): bump the counter, push into the
target's heap, append to the in-flight list. -/
def MQSt.enqueue (q : MQSt) (message : Msg) (sender_id target_id : Nat)
    (delivery_time : Int) : MQSt :=
  let ctr := q.message_counter + 1
  let heap := (alist_get q.queues target_id).getD []
  { queues := alist_set q.queues target_id
      (heap_insert heap (delivery_time, ctr, message))
    in_flight := q.in_flight ++ [(message, sender_id, target_id, delivery_time)]
    message_counter := ctr }

/-- Removal from the in-flight list
(`MessageQueue._remove_from_in_flight`): drop entries matching the
delivered message's id, target and delivery time. -/
def MQSt.remove_in_flight (fl : List (Msg × Nat × Nat × Int)) (message : Msg)
    (target_id : Nat) (delivery_time : Int) : List (Msg × Nat × Nat × Int) :=
  fl.filter (fun ent =>
    ¬(ent.1.message_id = message.message_id ∧ ent.2.2.1 = target_id ∧
      ent.2.2.2 = delivery_time))

/-- Pop loop of `MessageQueue.get_delivered_messages`: repeatedly pop the
head of the heap while its delivery time is at most `current_time`. -/
def MQSt.pop_ready (heap : List HeapEntry) (current_time : Int)
    (fl : List (Msg × Nat × Nat × Int)) (replica_id : Nat) :
    List Msg × List HeapEntry × List (Msg × Nat × Nat × Int) :=
  match heap with
  | [] => ([], [], fl)
  | (t, _, m) :: rest =>
      if t ≤ current_time then
        let r := MQSt.pop_ready rest current_time
          (MQSt.remove_in_flight fl m replica_id t) replica_id
        (m :: r.1, r.2.1, r.2.2)
      else ([], heap, fl)

/-- Drain of all ready messages for a replica
(`MessageQueue.get_delivered_messages`). -/
def MQSt.get_delivered (q : MQSt) (replica_id : Nat) (current_time : Int) :
    List Msg × MQSt :=
  let heap := (alist_get q.queues replica_id).getD []
  let r := MQSt.pop_ready heap current_time q.in_flight replica_id
  (r.1, { q with queues := alist_set q.queues replica_id r.2.1
                 in_flight := r.2.2 })

/-- Head delivery time for a replica
(`MessageQueue.peek_next_delivery_time`), `-1` when empty. -/
def MQSt.peek_next (q : MQSt) (replica_id : Nat) : Int :=
  match (alist_get q.queues replica_id).getD [] with
  | [] => -1
  | (t, _, _) :: _ => t

/-- State of `SimulatedNetwork` (`network/simulated_network.py`): the
delay bounds, the draw counter of the network's own seeded PRNG, the
message queue, and the registered and blocked id sets.  Registered ids
are the consecutive ints `0 .. n-1`; iteration over the CPython set of
those ids is in ascending order, which is how `registered` is kept. -/
structure NetworkSt where
  delay_min_ms : Int
  delay_max_ms : Int
  rng_ctr : Nat
  mq : MQSt
  registered : List Nat
  blocked : List Nat
deriving DecidableEq, Repr

/-- Fresh network (`SimulatedNetwork.__init__`). -/
def NetworkSt.init (delay_min_ms delay_max_ms : Int) : NetworkSt :=
  { delay_min_ms := delay_min_ms, delay_max_ms := delay_max_ms, rng_ctr := 0
    mq := MQSt.init, registered := [], blocked := [] }

/-- Replica registration (`SimulatedNetwork.register_replica`); the
engine registers ids in ascending order, so appending keeps the ascending
iteration order of the CPython set. -/
def NetworkSt.register (n : NetworkSt) (replica_id : Nat) : NetworkSt :=
  if replica_id ∈ n.registered then n
  else { n with registered := n.registered ++ [replica_id] }

/-- Point-to-point send (`SimulatedNetwork.send`): drop with result `-1`
when the target is blocked; otherwise draw
`delay = randint(delay_min, delay_max)` from the seeded stream and
enqueue at `now + delay`.  `randint` raises `ValueError` when
`delay_min > delay_max`. -/
def NetworkSt.send (netRand : Nat → Nat) (n : NetworkSt) (message : Msg)
    (target_id : Nat) (current_time : Int) : Except PyErr (Int × NetworkSt) :=
  if target_id ∈ n.blocked then .ok (-1, n)
  else
    let span := n.delay_max_ms - n.delay_min_ms + 1
    if span ≤ 0 then .error (.valueError "empty range for randrange()")
    else
      let delay := n.delay_min_ms + ((netRand n.rng_ctr : Int) % span)
      let delivery_time := current_time + delay
      .ok (delivery_time,
        { n with rng_ctr := n.rng_ctr + 1
                 mq := n.mq.enqueue message message.sender_id target_id
                   delivery_time })

/-- Broadcast loop (`SimulatedNetwork.broadcast` without
`include_sender`): iterate the registered ids in ascending order,
skipping the sender. -/
def NetworkSt.broadcast_loop (netRand : Nat → Nat) (message : Msg)
    (sender_id : Nat) (current_time : Int) :
    List Nat → NetworkSt → Except PyErr NetworkSt
  | [], n => .ok n
  | rid :: rest, n =>
      if rid = sender_id then NetworkSt.broadcast_loop netRand message sender_id
        current_time rest n
      else
        match n.send netRand message rid current_time with
        | .ok r => NetworkSt.broadcast_loop netRand message sender_id
            current_time rest r.2
        | .error e => .error e

/-- Broadcast (`SimulatedNetwork.broadcast`). -/
def NetworkSt.broadcast (netRand : Nat → Nat) (n : NetworkSt) (message : Msg)
    (sender_id : Nat) (current_time : Int) : Except PyErr NetworkSt :=
  NetworkSt.broadcast_loop netRand message sender_id current_time n.registered n

/-- Ready-message drain (`SimulatedNetwork.get_pending_messages`):
blocked replicas receive nothing. -/
def NetworkSt.get_pending (n : NetworkSt) (replica_id : Nat)
    (current_time : Int) : List Msg × NetworkSt :=
  if replica_id ∈ n.blocked then ([], n)
  else
    let r := n.mq.get_delivered replica_id current_time
    (r.1, { n with mq := r.2 })

/-- Earliest delivery time over non-blocked replicas
(`SimulatedNetwork.get_next_delivery_time`), `-1` when none. -/
def NetworkSt.next_delivery_time (n : NetworkSt) : Int :=
  n.registered.foldl
    (fun min_time rid =>
      if rid ∈ n.blocked then min_time
      else
        let next_time := n.mq.peek_next rid
        if 0 ≤ next_time ∧ (min_time < 0 ∨ next_time < min_time) then next_time
        else min_time)
    (-1)

/-- Block a replica (`SimulatedNetwork.block_replica`). -/
def NetworkSt.block (n : NetworkSt) (replica_id : Nat) : NetworkSt :=
  if replica_id ∈ n.blocked then n
  else { n with blocked := n.blocked ++ [replica_id] }

/-- Unblock a replica (`SimulatedNetwork.unblock_replica`). -/
def NetworkSt.unblock (n : NetworkSt) (replica_id : Nat) : NetworkSt :=
  { n with blocked := n.blocked.filter (fun b => b ≠ replica_id) }

/-- Round-robin leader election (`protocol/leader_scheduler.py`):
`leader(view) = view mod n`. -/
def leader_of (num_replicas view_number : Nat) : Nat :=
  view_number % num_replicas

/-- Input streams of the model: the network's seeded PRNG draws
(`random.Random(seed).randint`, indexed by draw counter), the
`uuid.uuid4()` message-id draws, and the process-global `random.random()`
draws consumed by the RANDOM_DROP fault branch (`True` models a draw
below `0.5`). -/
structure Streams where
  netRand : Nat → Nat
  uuid : Nat → Nat
  gRand : Nat → Bool

/-- Mutable context threaded through replica code: the shared network and
the two draw counters that are not part of any component's state. -/
structure Ctx where
  net : NetworkSt
  uuid_ctr : Nat
  g_ctr : Nat
deriving DecidableEq, Repr

/-- Draw of a fresh `uuid.uuid4()` message id. -/
def Ctx.draw_uuid (S : Streams) (c : Ctx) : Nat × Ctx :=
  (S.uuid c.uuid_ctr, { c with uuid_ctr := c.uuid_ctr + 1 })

/-- Draw of the process-global `random.random() < 0.5` test. -/
def Ctx.draw_drop (S : Streams) (c : Ctx) : Bool × Ctx :=
  (S.gRand c.g_ctr, { c with g_ctr := c.g_ctr + 1 })

/-- State of `BasicHotStuffHandler` that is not shared with the replica:
the collected new-view messages, the per-leader command counter and the
last view a proposal was issued in. -/
structure HandlerSt where
  new_view_messages : List Msg
  command_counter : Nat
  last_proposed_view : Nat
deriving DecidableEq, Repr

/-- Per-replica protocol state (`protocol/replica.py` together with the
pieces of `BasicHotStuffHandler` it owns). -/
structure ReplicaSt where
  replica_id : Nat
  num_replicas : Nat
  quorum_size : Nat
  current_view : Nat
  current_phase : PhaseType
  locked_qc : Option QuorumCertificate
  prepare_qc : Option QuorumCertificate
  pending_block : Option Block
  committed_blocks : List Block
  committed_block_hashes : List BHash
  last_voted_view : Option Nat
  is_faulty : Bool
  fault_type : FaultType
  block_store : List (BHash × Block)
  safety_registry : BlockRegistry
  collector : CollectorSt
  handler : HandlerSt
deriving DecidableEq, Repr

/-- Fresh replica (`Replica.__init__`): view 1, phase NEW_VIEW, the
genesis block stored and registered. -/
def ReplicaSt.init (replica_id num_replicas quorum_size : Nat) : ReplicaSt :=
  { replica_id := replica_id, num_replicas := num_replicas
    quorum_size := quorum_size, current_view := 1
    current_phase := .NEW_VIEW, locked_qc := none, prepare_qc := none
    pending_block := none, committed_blocks := [], committed_block_hashes := []
    last_voted_view := none, is_faulty := false, fault_type := .NONE
    block_store := [(genesis_block.block_hash, genesis_block)]
    safety_registry := [(genesis_block.block_hash, genesis_block)]
    collector := CollectorSt.init quorum_size
    handler := { new_view_messages := [], command_counter := 0
                 last_proposed_view := 0 } }

/-- Leadership test for the current view (`Replica.is_leader`). -/
def ReplicaSt.is_leader (r : ReplicaSt) : Bool :=
  decide (leader_of r.num_replicas r.current_view = r.replica_id)

/-- Selection of the highest justify QC among collected new-view messages
(`BasicHotStuffHandler._select_high_qc`); the running maximum starts at
`ViewNumber(-1)`. -/
def select_high_qc (msgs : List Msg) : Option QuorumCertificate :=
  (msgs.foldl
    (fun acc m =>
      match m.body with
      | .newView (some qc) =>
          if (qc.view_number : Int) > acc.1 then ((qc.view_number : Int), some qc)
          else acc
      | _ => acc)
    ((-1 : Int), (none : Option QuorumCertificate))).2

/-- Branch walk of `BasicHotStuffHandler._execute_branch`: collect the
certified block and its ancestors until genesis (height 0) or an already
committed hash, stopping also when a parent is missing from the store.
The Python loop has no fuel; in every state the engine produces, parent
hashes are structurally decreasing (a block's hash contains its parent's
hash), so the chain is cycle-free and at most `store.length + 1` long. -/
def execute_branch_walk (store : List (BHash × Block))
    (committed_block_hashes : List BHash) : Nat → Option Block → List Block
  | 0, _ => []
  | _ + 1, none => []
  | fuel + 1, some current_block =>
      if current_block.block_hash ∈ committed_block_hashes then []
      else if current_block.height = 0 then []
      else
        current_block ::
          execute_branch_walk store committed_block_hashes fuel
            (match current_block.parent_hash with
             | none => none
             | some h => alist_get store h)

/-- Commit step `BasicHotStuffHandler._execute_branch`: walk the branch,
reverse it to ascending height order, and emit one COMMIT event per
block. -/
def execute_branch (store : List (BHash × Block))
    (committed_block_hashes : List BHash) (replica_id : Nat) (block : Block)
    (current_time : Int) : List Event × List Block :=
  let to_commit :=
    (execute_branch_walk store committed_block_hashes (store.length + 1)
      (some block)).reverse
  (to_commit.map (fun b =>
      Event.COMMIT replica_id b.block_hash b.height current_time),
    to_commit)

/-- Proposal step `BasicHotStuffHandler._propose_block`: select the high
QC, find the parent (defaulting to the first stored block, the genesis),
mint the next command string, create and store the leaf, broadcast
PREPARE, self-vote, and emit a PROPOSAL event. -/
def handler_propose_block (S : Streams) (r : ReplicaSt) (current_view : Nat)
    (current_time : Int) (c : Ctx) :
    Except PyErr (ReplicaSt × Ctx × List Event × Option Block × Option PhaseType) :=
  let high_qc := select_high_qc r.handler.new_view_messages
  match r.block_store with
  | [] => .error (.attributeError "NoneType object has no attribute block_hash")
  | (_, genesis) :: _ =>
      let parent_block :=
        match high_qc with
        | some qc => (alist_get r.block_store qc.block_hash).getD genesis
        | none => genesis
      let ctr := r.handler.command_counter + 1
      let command := "cmd_" ++ toString current_view ++ "_" ++ toString ctr
      let new_block := create_block parent_block command r.replica_id current_view
      let r1 := { r with
        block_store := alist_set r.block_store new_block.block_hash new_block
        safety_registry := alist_set r.safety_registry new_block.block_hash new_block
        handler := { r.handler with command_counter := ctr } }
      let u1 := c.draw_uuid S
      let prepare_msg : Msg :=
        { message_id := u1.1, sender_id := r.replica_id
          view_number := current_view, timestamp := current_time
          target_id := none, body := .prepare new_block high_qc }
      match u1.2.net.broadcast S.netRand prepare_msg r.replica_id current_time with
      | .error e => .error e
      | .ok net1 =>
          let c1 : Ctx := { u1.2 with net := net1 }
          let u2 := c1.draw_uuid S
          let my_vote := VoteMsg.create u2.1 .PREPARE_VOTE r.replica_id
            current_view new_block.block_hash r.replica_id current_time
          match r1.collector.add_vote my_vote with
          | .error e => .error e
          | .ok av =>
              let r2 := { r1 with collector := av.2 }
              .ok (r2, u2.2,
                [Event.PROPOSAL r.replica_id new_block.block_hash current_view
                  current_time],
                some new_block, some PhaseType.PREPARE)

/-- Leader handling of NEW_VIEW (`BasicHotStuffHandler.handle_new_view`):
collect the message and propose once the quorum of new-view messages is
reached in a view not yet proposed in. -/
def handler_handle_new_view (S : Streams) (r : ReplicaSt) (message : Msg)
    (current_view : Nat) (is_leader : Bool) (current_time : Int) (c : Ctx) :
    Except PyErr (ReplicaSt × Ctx × List Event × Option Block × Option PhaseType) :=
  if ¬is_leader then .ok (r, c, [], none, none)
  else
    let r1 := { r with handler :=
      { r.handler with new_view_messages := r.handler.new_view_messages ++ [message] } }
    if current_view ≤ r1.handler.last_proposed_view then .ok (r1, c, [], none, none)
    else if r1.quorum_size ≤ r1.handler.new_view_messages.length then
      let r2 := { r1 with handler :=
        { r1.handler with last_proposed_view := current_view } }
      handler_propose_block S r2 current_view current_time c
    else .ok (r1, c, [], none, none)

/-- Replica handling of PREPARE (`BasicHotStuffHandler.handle_prepare`):
store and register the block, evaluate the safe-node predicate, and vote
when safe and not yet voted in this view. -/
def handler_handle_prepare (S : Streams) (r : ReplicaSt)
    (block : Block) (high_qc : Option QuorumCertificate) (current_view : Nat)
    (locked_qc : Option QuorumCertificate) (last_voted_view : Option Nat)
    (current_time : Int) (c : Ctx) :
    Except PyErr (ReplicaSt × Ctx × List Event × Block × Option Nat × PhaseType) :=
  let r1 := { r with
    block_store := alist_set r.block_store block.block_hash block
    safety_registry := alist_set r.safety_registry block.block_hash block }
  if ¬is_safe_node r1.safety_registry block high_qc locked_qc then
    .ok (r1, c, [], block, last_voted_view, .PREPARE)
  else if (match last_voted_view with
           | some lv => decide (current_view ≤ lv)
           | none => false) then
    .ok (r1, c, [], block, last_voted_view, .PREPARE)
  else
    let leader_id := leader_of r.num_replicas current_view
    let u := c.draw_uuid S
    let vote := VoteMsg.create u.1 .PREPARE_VOTE r.replica_id current_view
      block.block_hash leader_id current_time
    match u.2.net.send S.netRand vote.toMsg leader_id current_time with
    | .error e => .error e
    | .ok sr =>
        .ok (r1, { u.2 with net := sr.2 },
          [Event.VOTE_SEND r.replica_id "PREPARE" block.block_hash current_time],
          block, some current_view, .PREPARE)

/-- Leader handling of PREPARE_VOTE
(`BasicHotStuffHandler.handle_prepare_vote`): feed the collector; on QC
formation broadcast PRE_COMMIT, self-vote, and emit QC_FORMATION. -/
def handler_handle_prepare_vote (S : Streams) (r : ReplicaSt) (vote : VoteMsg)
    (current_view : Nat) (is_leader : Bool) (current_time : Int) (c : Ctx) :
    Except PyErr (ReplicaSt × Ctx × List Event × Option QuorumCertificate ×
      Option PhaseType) :=
  if ¬is_leader then .ok (r, c, [], none, none)
  else
    match r.collector.add_vote vote with
    | .error e => .error e
    | .ok (none, col) => .ok ({ r with collector := col }, c, [], none, none)
    | .ok (some qc, col) =>
        let r1 := { r with collector := col }
        let u1 := c.draw_uuid S
        let precommit_msg : Msg :=
          { message_id := u1.1, sender_id := r.replica_id
            view_number := current_view, timestamp := current_time
            target_id := none, body := .preCommit qc }
        match u1.2.net.broadcast S.netRand precommit_msg r.replica_id current_time with
        | .error e => .error e
        | .ok net1 =>
            let c1 : Ctx := { u1.2 with net := net1 }
            let u2 := c1.draw_uuid S
            let my_vote := VoteMsg.create u2.1 .PRE_COMMIT_VOTE r.replica_id
              current_view qc.block_hash r.replica_id current_time
            match r1.collector.add_vote my_vote with
            | .error e => .error e
            | .ok av =>
                .ok ({ r1 with collector := av.2 }, u2.2,
                  [Event.QC_FORMATION r.replica_id "PREPARE" current_view
                    current_time],
                  some qc, some .PRE_COMMIT)

/-- Replica handling of PRE_COMMIT (`BasicHotStuffHandler.handle_precommit`):
vote PRE_COMMIT to the leader and adopt the carried prepare QC. -/
def handler_handle_precommit (S : Streams) (r : ReplicaSt)
    (prepare_qc : QuorumCertificate) (current_view : Nat) (current_time : Int)
    (c : Ctx) :
    Except PyErr (ReplicaSt × Ctx × List Event × QuorumCertificate × PhaseType) :=
  let leader_id := leader_of r.num_replicas current_view
  let u := c.draw_uuid S
  let vote := VoteMsg.create u.1 .PRE_COMMIT_VOTE r.replica_id current_view
    prepare_qc.block_hash leader_id current_time
  match u.2.net.send S.netRand vote.toMsg leader_id current_time with
  | .error e => .error e
  | .ok sr =>
      .ok (r, { u.2 with net := sr.2 },
        [Event.VOTE_SEND r.replica_id "PRE_COMMIT" prepare_qc.block_hash
          current_time],
        prepare_qc, .PRE_COMMIT)

/-- Leader handling of PRE_COMMIT_VOTE
(`BasicHotStuffHandler.handle_precommit_vote`): feed the collector; on QC
formation broadcast COMMIT, self-vote, and emit QC_FORMATION and
LOCK_UPDATE. -/
def handler_handle_precommit_vote (S : Streams) (r : ReplicaSt) (vote : VoteMsg)
    (current_view : Nat) (is_leader : Bool) (current_time : Int) (c : Ctx) :
    Except PyErr (ReplicaSt × Ctx × List Event × Option QuorumCertificate ×
      Option PhaseType) :=
  if ¬is_leader then .ok (r, c, [], none, none)
  else
    match r.collector.add_vote vote with
    | .error e => .error e
    | .ok (none, col) => .ok ({ r with collector := col }, c, [], none, none)
    | .ok (some qc, col) =>
        let r1 := { r with collector := col }
        let u1 := c.draw_uuid S
        let commit_msg : Msg :=
          { message_id := u1.1, sender_id := r.replica_id
            view_number := current_view, timestamp := current_time
            target_id := none, body := .commitMsg qc }
        match u1.2.net.broadcast S.netRand commit_msg r.replica_id current_time with
        | .error e => .error e
        | .ok net1 =>
            let c1 : Ctx := { u1.2 with net := net1 }
            let u2 := c1.draw_uuid S
            let my_vote := VoteMsg.create u2.1 .COMMIT_VOTE r.replica_id
              current_view qc.block_hash r.replica_id current_time
            match r1.collector.add_vote my_vote with
            | .error e => .error e
            | .ok av =>
                .ok ({ r1 with collector := av.2 }, u2.2,
                  [Event.QC_FORMATION r.replica_id "PRE_COMMIT" current_view
                    current_time,
                   Event.LOCK_UPDATE r.replica_id qc.view_number current_time],
                  some qc, some .COMMIT)

/-- Replica handling of COMMIT (`BasicHotStuffHandler.handle_commit`):
vote COMMIT to the leader and adopt the carried precommit QC as the new
lock. -/
def handler_handle_commit (S : Streams) (r : ReplicaSt)
    (precommit_qc : QuorumCertificate) (current_view : Nat) (current_time : Int)
    (c : Ctx) :
    Except PyErr (ReplicaSt × Ctx × List Event × QuorumCertificate × PhaseType) :=
  let leader_id := leader_of r.num_replicas current_view
  let u := c.draw_uuid S
  let vote := VoteMsg.create u.1 .COMMIT_VOTE r.replica_id current_view
    precommit_qc.block_hash leader_id current_time
  match u.2.net.send S.netRand vote.toMsg leader_id current_time with
  | .error e => .error e
  | .ok sr =>
      .ok (r, { u.2 with net := sr.2 },
        [Event.LOCK_UPDATE r.replica_id precommit_qc.view_number current_time,
         Event.VOTE_SEND r.replica_id "COMMIT" precommit_qc.block_hash
           current_time],
        precommit_qc, .COMMIT)

/-- Leader handling of COMMIT_VOTE
(`BasicHotStuffHandler.handle_commit_vote`): feed the collector; on QC
formation broadcast DECIDE and execute the branch; the QC_FORMATION event
is prepended to the commit events, and everything is discarded when the
branch walk commits nothing. -/
def handler_handle_commit_vote (S : Streams) (r : ReplicaSt) (vote : VoteMsg)
    (current_view : Nat) (is_leader : Bool)
    (committed_block_hashes : List BHash) (current_time : Int) (c : Ctx) :
    Except PyErr (ReplicaSt × Ctx × List Event × List Block × Option PhaseType) :=
  if ¬is_leader then .ok (r, c, [], [], none)
  else
    match r.collector.add_vote vote with
    | .error e => .error e
    | .ok (none, col) => .ok ({ r with collector := col }, c, [], [], none)
    | .ok (some qc, col) =>
        let r1 := { r with collector := col }
        let u1 := c.draw_uuid S
        let decide_msg : Msg :=
          { message_id := u1.1, sender_id := r.replica_id
            view_number := current_view, timestamp := current_time
            target_id := none, body := .decide qc }
        match u1.2.net.broadcast S.netRand decide_msg r.replica_id current_time with
        | .error e => .error e
        | .ok net1 =>
            let c1 : Ctx := { u1.2 with net := net1 }
            match alist_get r1.block_store qc.block_hash with
            | none => .ok (r1, c1, [], [], none)
            | some block =>
                let eb := execute_branch r1.block_store committed_block_hashes
                  r.replica_id block current_time
                if eb.2.isEmpty then .ok (r1, c1, [], [], none)
                else
                  .ok (r1, c1,
                    Event.QC_FORMATION r.replica_id "COMMIT" current_view
                      current_time :: eb.1,
                    eb.2, some .DECIDE)

/-- Replica handling of DECIDE (`BasicHotStuffHandler.handle_decide`):
execute the branch of the certified block when it is in the store. -/
def handler_handle_decide (r : ReplicaSt) (commit_qc : QuorumCertificate)
    (committed_block_hashes : List BHash) (current_time : Int) :
    List Event × List Block × Option PhaseType :=
  match alist_get r.block_store commit_qc.block_hash with
  | none => ([], [], none)
  | some block =>
      let eb := execute_branch r.block_store committed_block_hashes
        r.replica_id block current_time
      if eb.2.isEmpty then ([], [], none)
      else (eb.1, eb.2, some .DECIDE)

/-- Python `MessageType.name` strings. -/
def MessageType.name : MessageType → String
  | .NEW_VIEW => "NEW_VIEW"
  | .PREPARE => "PREPARE"
  | .PREPARE_VOTE => "PREPARE_VOTE"
  | .PRE_COMMIT => "PRE_COMMIT"
  | .PRE_COMMIT_VOTE => "PRE_COMMIT_VOTE"
  | .COMMIT => "COMMIT"
  | .COMMIT_VOTE => "COMMIT_VOTE"
  | .DECIDE => "DECIDE"

/-- Fall-through body of `Replica.start_view`: update the view and phase,
clear the collected new-view messages, send a NEW_VIEW message to the new
leader, and self-collect it when this replica is that leader. -/
def replica_start_view_normal (S : Streams) (r : ReplicaSt) (view_number : Nat)
    (current_time : Int) (c : Ctx) :
    Except PyErr (ReplicaSt × Ctx × List Event) :=
  let r1 := { r with current_view := view_number
                     current_phase := PhaseType.NEW_VIEW
                     handler := { r.handler with new_view_messages := [] } }
  let next_leader := leader_of r.num_replicas view_number
  let u := c.draw_uuid S
  let new_view_msg : Msg :=
    { message_id := u.1, sender_id := r.replica_id
      view_number := view_number, timestamp := current_time
      target_id := some next_leader, body := .newView r.prepare_qc }
  match u.2.net.send S.netRand new_view_msg next_leader current_time with
  | .error e => .error e
  | .ok sr =>
      let c2 : Ctx := { u.2 with net := sr.2 }
      let r2 :=
        if r.replica_id = next_leader then
          { r1 with handler := { r1.handler with
              new_view_messages := r1.handler.new_view_messages ++
                [new_view_msg] } }
        else r1
      .ok (r2, c2,
        [Event.VIEW_CHANGE r.replica_id view_number current_time])

/-- View start (`Replica.start_view`): the CRASH, SILENT and RANDOM_DROP
fault short-circuits, falling through to the normal body (RANDOM_DROP
falls through on a high draw). -/
def replica_start_view (S : Streams) (r : ReplicaSt) (view_number : Nat)
    (current_time : Int) (c : Ctx) :
    Except PyErr (ReplicaSt × Ctx × List Event) :=
  if r.is_faulty ∧ r.fault_type = .CRASH then .ok (r, c, [])
  else if r.is_faulty ∧ r.fault_type = .SILENT then
    .ok ({ r with current_view := view_number, current_phase := .NEW_VIEW
                  handler := { r.handler with new_view_messages := [] } },
      c,
      [Event.BYZANTINE_ACTION r.replica_id "SILENT_NO_NEW_VIEW" view_number
        current_time])
  else if r.is_faulty ∧ r.fault_type = .RANDOM_DROP then
    let d := c.draw_drop S
    if d.1 then
      .ok ({ r with current_view := view_number, current_phase := .NEW_VIEW
                    handler := { r.handler with new_view_messages := [] } },
        d.2,
        [Event.BYZANTINE_ACTION r.replica_id "DROPPED_NEW_VIEW" view_number
          current_time])
    else replica_start_view_normal S r view_number current_time d.2
  else replica_start_view_normal S r view_number current_time c

/-- Dispatch body of `Replica.handle_message` (the old-view filter, the
routing table and the `_handle_*` wrappers): route by message type and
fold the handler outputs into the replica state.  The COMMIT_VOTE and
DECIDE wrappers faithfully reproduce the source slip: the handler returns
a `List[Block]`, the wrapper treats it as a single block, and the
attribute access `committed_block.block_hash` on a list raises
`AttributeError` unconditionally. -/
def replica_dispatch_message (S : Streams) (r : ReplicaSt) (message : Msg)
    (current_time : Int) (c1 : Ctx) :
    Except PyErr (ReplicaSt × Ctx × List Event) :=
  if message.view_number < r.current_view then .ok (r, c1, [])
  else
    match message.body with
    | .newView _ =>
        match handler_handle_new_view S r message r.current_view
          r.is_leader current_time c1 with
        | .error e => .error e
        | .ok (r1, c2, events, pending_block, new_phase) =>
            let r2 :=
              match pending_block with
              | some pb => { r1 with pending_block := some pb
                                     last_voted_view := some r.current_view }
              | none => r1
            let r3 :=
              match new_phase with
              | some ph => { r2 with current_phase := ph }
              | none => r2
            .ok (r3, c2, events)
    | .prepare block high_qc =>
        match handler_handle_prepare S r block high_qc r.current_view
          r.locked_qc r.last_voted_view current_time c1 with
        | .error e => .error e
        | .ok (r1, c2, events, pending_block, new_last_voted, new_phase) =>
            let r2 := { r1 with pending_block := some pending_block }
            let r3 :=
              match new_last_voted with
              | some lv => { r2 with last_voted_view := some lv }
              | none => r2
            .ok ({ r3 with current_phase := new_phase }, c2, events)
    | .prepareVote bh psig =>
        match handler_handle_prepare_vote S r (message.toVote bh psig)
          r.current_view r.is_leader current_time c1 with
        | .error e => .error e
        | .ok (r1, c2, events, new_prepare_qc, new_phase) =>
            let r2 :=
              match new_prepare_qc with
              | some qc => { r1 with prepare_qc := some qc }
              | none => r1
            let r3 :=
              match new_phase with
              | some ph => { r2 with current_phase := ph }
              | none => r2
            .ok (r3, c2, events)
    | .preCommit prepare_qc =>
        match handler_handle_precommit S r prepare_qc r.current_view
          current_time c1 with
        | .error e => .error e
        | .ok (r1, c2, events, qc, new_phase) =>
            .ok ({ r1 with prepare_qc := some qc
                           current_phase := new_phase }, c2, events)
    | .preCommitVote bh psig =>
        match handler_handle_precommit_vote S r (message.toVote bh psig)
          r.current_view r.is_leader current_time c1 with
        | .error e => .error e
        | .ok (r1, c2, events, new_locked_qc, new_phase) =>
            let r2 :=
              match new_locked_qc with
              | some qc => { r1 with locked_qc := some qc }
              | none => r1
            let r3 :=
              match new_phase with
              | some ph => { r2 with current_phase := ph }
              | none => r2
            .ok (r3, c2, events)
    | .commitMsg precommit_qc =>
        match handler_handle_commit S r precommit_qc r.current_view
          current_time c1 with
        | .error e => .error e
        | .ok (r1, c2, events, qc, new_phase) =>
            .ok ({ r1 with locked_qc := some qc
                           current_phase := new_phase }, c2, events)
    | .commitVote bh psig =>
        match handler_handle_commit_vote S r (message.toVote bh psig)
          r.current_view r.is_leader r.committed_block_hashes
          current_time c1 with
        | .error e => .error e
        | .ok _ =>
            .error (.attributeError
              "list object has no attribute block_hash")
    | .decide commit_qc =>
        let _ := handler_handle_decide r commit_qc
          r.committed_block_hashes current_time
        .error (.attributeError
          "list object has no attribute block_hash")

/-- Message handling (`Replica.handle_message`): the CRASH, SILENT and
RANDOM_DROP fault short-circuits, falling through to the dispatch body
(RANDOM_DROP falls through on a high draw). -/
def replica_handle_message (S : Streams) (r : ReplicaSt) (message : Msg)
    (current_time : Int) (c : Ctx) :
    Except PyErr (ReplicaSt × Ctx × List Event) :=
  if r.is_faulty ∧ r.fault_type = .CRASH then .ok (r, c, [])
  else if r.is_faulty ∧ r.fault_type = .SILENT then
    if message.view_number < r.current_view then .ok (r, c, [])
    else
      .ok (r, c,
        [Event.BYZANTINE_ACTION r.replica_id
          ("SILENT_NO_VOTE_" ++ message.message_type.name)
          message.view_number current_time])
  else if r.is_faulty ∧ r.fault_type = .RANDOM_DROP then
    let d := c.draw_drop S
    if d.1 then
      .ok (r, d.2,
        [Event.BYZANTINE_ACTION r.replica_id
          ("DROPPED_" ++ message.message_type.name)
          message.view_number current_time])
    else replica_dispatch_message S r message current_time d.2
  else replica_dispatch_message S r message current_time c

/-- Payload of a scheduled TIMEOUT event
(`SimulationEngine._start_view` / `_handle_timeout` dicts). -/
structure SchedEv where
  replica_id : Nat
  view : Nat
  timeout_time : Int
deriving DecidableEq, Repr

/-- Ordered insertion into the scheduler's priority queue, sorted by
`(timestamp, seq)`; reproduces the `heapq` pop order of
`DiscreteEventScheduler` (seq values are distinct). -/
def pq_insert (l : List (Int × Nat × SchedEv)) (e : Int × Nat × SchedEv) :
    List (Int × Nat × SchedEv) :=
  match l with
  | [] => [e]
  | x :: rest =>
      if e.1 < x.1 ∨ (e.1 = x.1 ∧ e.2.1 < x.2.1) then e :: x :: rest
      else x :: pq_insert rest e

/-- Engine-level configuration: the fields of `Settings` the engine
constructor reads, plus `fault_type`.  (`Settings` does not declare
`fault_type`; the engine reads `settings.fault_type`, which its callers
pass as an extra keyword argument.  The attribute is modelled as present,
which is what every call site intends.) -/
structure EngineConfig where
  num_replicas : Nat
  num_faulty : Nat
  base_timeout_ms : Int
  network_delay_min_ms : Int
  network_delay_max_ms : Int
  pacemaker_type : PacemakerType
  adaptive_alpha : ℚ
  adaptive_min_timeout_ms : Int
  adaptive_max_timeout_ms : Int
  fault_type : FaultType
deriving DecidableEq, Repr

/-- Quorum size the engine hands to replicas (`settings.quorum_size`,
that is `n - f`; `Nat` truncation at zero agrees with the Python
comparison `count >= quorum` for every count when `f > n`). -/
def EngineConfig.quorum_size (cfg : EngineConfig) : Nat :=
  cfg.num_replicas - cfg.num_faulty

/-- Full state of `SimulationEngine`. -/
structure EngineSt where
  cfg : EngineConfig
  clock : Int
  sched_queue : List (Int × Nat × SchedEv)
  sched_ctr : Nat
  network : NetworkSt
  pacemakers : List Pacemaker
  replicas : List ReplicaSt
  current_view : Nat
  is_running : Bool
  is_paused : Bool
  event_history : List Event
  view_start_times : List (Nat × Int)
  uuid_ctr : Nat
  g_ctr : Nat
deriving DecidableEq, Repr

/-- Scheduling of an event (`DiscreteEventScheduler.schedule`). -/
def EngineSt.schedule (s : EngineSt) (ev : SchedEv) (timestamp : Int) : EngineSt :=
  { s with sched_ctr := s.sched_ctr + 1
           sched_queue := pq_insert s.sched_queue (timestamp, s.sched_ctr + 1, ev) }

/-- Next scheduled timestamp (`DiscreteEventScheduler.peek_time`). -/
def EngineSt.peek_time (s : EngineSt) : Option Int :=
  match s.sched_queue with
  | [] => none
  | (t, _, _) :: _ => some t

/-- Replica accessor; ids are list positions `0 .. n-1`. -/
def EngineSt.replica (s : EngineSt) (rid : Nat) : ReplicaSt :=
  s.replicas.getD rid (ReplicaSt.init 0 0 0)

/-- Pacemaker accessor. -/
def EngineSt.pacemaker (s : EngineSt) (rid : Nat) : Pacemaker :=
  s.pacemakers.getD rid (.base (BaseSt.init 0))

/-- Context view of the engine state handed to replica code. -/
def EngineSt.ctx (s : EngineSt) : Ctx :=
  { net := s.network, uuid_ctr := s.uuid_ctr, g_ctr := s.g_ctr }

/-- Write-back of a context produced by replica code. -/
def EngineSt.with_ctx (s : EngineSt) (c : Ctx) : EngineSt :=
  { s with network := c.net, uuid_ctr := c.uuid_ctr, g_ctr := c.g_ctr }

/-- Per-replica construction loop of `SimulationEngine.__init__`:
register with the network, build the configured pacemaker kind, build
the replica. -/
def engine_init_replicas (cfg : EngineConfig) (n0 : NetworkSt) :
    NetworkSt × List Pacemaker × List ReplicaSt :=
  (List.range cfg.num_replicas).foldl
    (fun acc i =>
      let net := acc.1.register i
      let pm : Pacemaker :=
        match cfg.pacemaker_type with
        | .ADAPTIVE => .adaptive (AdaptiveSt.init cfg.base_timeout_ms
            cfg.adaptive_alpha cfg.adaptive_min_timeout_ms
            cfg.adaptive_max_timeout_ms)
        | .BASELINE => .base (BaseSt.init cfg.base_timeout_ms)
      (net, acc.2.1 ++ [pm],
        acc.2.2 ++ [ReplicaSt.init i cfg.num_replicas cfg.quorum_size]))
    (n0, [], [])

/-- Fault marking loop of `SimulationEngine.__init__`: ids
`n - f .. n - 1` receive the configured fault kind; CRASH replicas are
additionally blocked in the network. -/
def engine_mark_faulty (cfg : EngineConfig) (net : NetworkSt)
    (replicas : List ReplicaSt) : NetworkSt × List ReplicaSt :=
  (List.range cfg.num_replicas).foldl
    (fun acc i =>
      if cfg.num_replicas - cfg.num_faulty ≤ i then
        let r := acc.2.getD i (ReplicaSt.init 0 0 0)
        let rs := acc.2.set i { r with is_faulty := true
                                       fault_type := cfg.fault_type }
        (if cfg.fault_type = .CRASH then acc.1.block i else acc.1, rs)
      else acc)
    (net, replicas)

/-- Engine construction (`SimulationEngine.__init__`).  The source's
fault-marking loop evaluates `settings.fault_type`, an attribute the
pydantic `Settings` (`extra: "ignore"`) never defines, so the real
constructor raises `AttributeError` whenever `num_faulty ≥ 1`; this
model keeps construction total and marks the high ids with the
configured kind, agreeing with the source exactly when the loop is
empty (`num_faulty = 0`). -/
def engine_init (cfg : EngineConfig) : EngineSt :=
  let n0 := NetworkSt.init cfg.network_delay_min_ms cfg.network_delay_max_ms
  let built := engine_init_replicas cfg n0
  let marked := engine_mark_faulty cfg built.1 built.2.2
  { cfg := cfg, clock := 0, sched_queue := [], sched_ctr := 0
    network := marked.1, pacemakers := built.2.1, replicas := marked.2
    current_view := 1, is_running := false, is_paused := false
    event_history := [], view_start_times := [], uuid_ctr := 0, g_ctr := 0 }

/-- Per-replica body of `SimulationEngine._start_view`: start the view on
the replica, start its timer and schedule the TIMEOUT. -/
def engine_start_view_one (S : Streams) (view_number : Nat) (rid : Nat)
    (acc : EngineSt × List Event) : Except PyErr (EngineSt × List Event) :=
  let s := acc.1
  match replica_start_view S (s.replica rid) view_number s.clock s.ctx with
  | .error e => .error e
  | .ok (r1, c1, replica_events) =>
      let s1 := { s.with_ctx c1 with replicas := s.replicas.set rid r1 }
      let tr := (s1.pacemaker rid).start_timer view_number s1.clock
      let s2 := { s1 with pacemakers := s1.pacemakers.set rid tr.2 }
      let s3 := s2.schedule
        { replica_id := rid, view := view_number, timeout_time := tr.1 } tr.1
      .ok (s3, acc.2 ++ replica_events)

/-- View start for all replicas (`SimulationEngine._start_view`). -/
def engine_start_view (S : Streams) (s : EngineSt) (view_number : Nat) :
    Except PyErr (List Event × EngineSt) :=
  let s0 := { s with current_view := view_number
                     view_start_times :=
                       alist_set s.view_start_times view_number s.clock }
  match (List.range s0.cfg.num_replicas).foldlM
      (fun acc rid => engine_start_view_one S view_number rid acc) (s0, []) with
  | .error e => .error e
  | .ok (s1, events) =>
      .ok (events, { s1 with event_history := s1.event_history ++ events })

/-- Simulation start (`SimulationEngine.start`). -/
def engine_start (S : Streams) (s : EngineSt) :
    Except PyErr (List Event × EngineSt) :=
  engine_start_view S { s with is_running := true, is_paused := false } 1

/-- Post-commit view advance (`SimulationEngine._on_block_committed`):
skipped entirely when the committing replica's view is behind the
engine-wide `current_view` high-water mark; otherwise notify the
pacemaker (when the view has a recorded start time), bump the high-water
mark when passed, restart the replica in the next view and schedule a new
timeout. -/
def engine_on_block_committed (S : Streams) (s : EngineSt) (rid : Nat) :
    Except PyErr EngineSt :=
  let view := (s.replica rid).current_view
  if view < s.current_view then .ok s
  else
    let s1 :=
      match alist_get s.view_start_times view with
      | some started =>
          let duration := s.clock - started
          let pm := ((s.pacemaker rid).on_view_success duration).stop_timer
          { s with pacemakers := s.pacemakers.set rid pm }
      | none => s
    let next_view := view + 1
    let s2 :=
      if s1.current_view < next_view then
        { s1 with current_view := next_view
                  view_start_times :=
                    alist_set s1.view_start_times next_view s1.clock }
      else s1
    match replica_start_view S (s2.replica rid) next_view s2.clock s2.ctx with
    | .error e => .error e
    | .ok (r1, c1, view_events) =>
        let s3 := { s2.with_ctx c1 with
          replicas := s2.replicas.set rid r1
          event_history := s2.event_history ++ view_events }
        let tr := (s3.pacemaker rid).start_timer next_view s3.clock
        let s4 := { s3 with pacemakers := s3.pacemakers.set rid tr.2 }
        .ok (s4.schedule
          { replica_id := rid, view := next_view, timeout_time := tr.1 } tr.1)

/-- Handling of one delivered message inside
`SimulationEngine._process_message_delivery`: run the replica, append the
synthesized MESSAGE_RECEIVE event and the replica's events, and invoke
the post-commit advance on every COMMIT event.  `engine_commit_step` is
the per-event body: record the event and, on COMMIT, advance the
replica's view. -/
def engine_commit_step (S : Streams) (rid : Nat) (st : EngineSt)
    (ev : Event) : Except PyErr EngineSt :=
  let st1 : EngineSt :=
    { st with event_history := st.event_history ++ [ev] }
  match ev with
  | .COMMIT _ _ _ _ => engine_on_block_committed S st1 rid
  | _ => .ok st1

def engine_deliver_one (S : Streams) (rid : Nat) (message : Msg)
    (acc : EngineSt × Option Event) : Except PyErr (EngineSt × Option Event) :=
  let s := acc.1
  match replica_handle_message S (s.replica rid) message s.clock s.ctx with
  | .error e => .error e
  | .ok (r1, c1, message_events) =>
      let recv := Event.MESSAGE_RECEIVE s.clock rid message.sender_id
        message.message_type message.message_id
      let s1 := { s.with_ctx c1 with
        replicas := s.replicas.set rid r1
        event_history := s.event_history ++ [recv] }
      match message_events.foldlM (engine_commit_step S rid) s1 with
      | .error e => .error e
      | .ok s2 => .ok (s2, some recv)

/-- Per-replica drain inside `SimulationEngine._process_message_delivery`. -/
def engine_deliver_replica (S : Streams) (rid : Nat)
    (acc : EngineSt × Option Event) : Except PyErr (EngineSt × Option Event) :=
  let s := acc.1
  let pr := s.network.get_pending rid s.clock
  let s1 := { s with network := pr.2 }
  pr.1.foldlM (fun a m => engine_deliver_one S rid m a) (s1, acc.2)

/-- Message-delivery step (`SimulationEngine._process_message_delivery`):
advance the clock (backward motion raises), then drain every replica's
ready messages in ascending id order; the returned event is the last
MESSAGE_RECEIVE synthesized, if any. -/
def engine_process_message_delivery (S : Streams) (s : EngineSt)
    (delivery_time : Int) : Except PyErr (Option Event × EngineSt) :=
  if delivery_time < s.clock then
    .error (.valueError "Cannot advance clock backwards")
  else
    let s0 := { s with clock := delivery_time }
    match (List.range s0.cfg.num_replicas).foldlM
        (fun acc rid => engine_deliver_replica S rid acc)
        (s0, (none : Option Event)) with
    | .error e => .error e
    | .ok (s1, ev) => .ok (ev, s1)

/-- Timeout handling (`SimulationEngine._handle_timeout`): stale timeouts
(the replica moved on) are dropped; live ones advance the pacemaker and
restart the replica in the next view. -/
def engine_handle_timeout (S : Streams) (s : EngineSt) (ev : SchedEv) :
    Except PyErr (Option Event × EngineSt) :=
  if (s.replica ev.replica_id).current_view ≠ ev.view then .ok (none, s)
  else
    let ot := (s.pacemaker ev.replica_id).on_timeout
    let next_view := ot.1
    let s1 := { s with pacemakers := s.pacemakers.set ev.replica_id ot.2 }
    let tev := Event.TIMEOUT s1.clock ev.replica_id ev.view next_view
    let s2 := { s1 with event_history := s1.event_history ++ [tev] }
    match replica_start_view S (s2.replica ev.replica_id) next_view s2.clock
        s2.ctx with
    | .error e => .error e
    | .ok (r1, c1, view_events) =>
        let s3 := { s2.with_ctx c1 with
          replicas := s2.replicas.set ev.replica_id r1
          event_history := s2.event_history ++ view_events }
        let tr := (s3.pacemaker ev.replica_id).start_timer next_view s3.clock
        let s4 := { s3 with pacemakers := s3.pacemakers.set ev.replica_id tr.2 }
        .ok (some tev, s4.schedule
          { replica_id := ev.replica_id, view := next_view
            timeout_time := tr.1 } tr.1)

/-- Scheduled-event step (`SimulationEngine._process_scheduled_event`):
pop the earliest scheduled event, advance the clock, and process the
timeout. -/
def engine_process_scheduled (S : Streams) (s : EngineSt) :
    Except PyErr (Option Event × EngineSt) :=
  match s.sched_queue with
  | [] => .ok (none, s)
  | (timestamp, _, ev) :: rest =>
      if timestamp < s.clock then
        .error (.valueError "Cannot advance clock backwards")
      else
        engine_handle_timeout S { s with sched_queue := rest
                                         clock := timestamp } ev

/-- Iteration body of `SimulationEngine.step` (the `max_iterations = 100`
loop): pick the earlier of the next network delivery and the next
scheduled event (ties favour the network), process it, and loop when it
produced no reportable event. -/
def engine_step_loop (S : Streams) : Nat → EngineSt →
    Except PyErr (Option Event × EngineSt)
  | 0, s => .ok (none, s)
  | fuel + 1, s =>
      let next_delivery_time := s.network.next_delivery_time
      let next_scheduled_time := s.peek_time
      if next_delivery_time < 0 ∧ next_scheduled_time = none then .ok (none, s)
      else if 0 ≤ next_delivery_time ∧
          (next_scheduled_time = none ∨
            (∃ t, next_scheduled_time = some t ∧ next_delivery_time ≤ t)) then
        match engine_process_message_delivery S s next_delivery_time with
        | .error e => .error e
        | .ok (some ev, s1) => .ok (some ev, s1)
        | .ok (none, s1) => engine_step_loop S fuel s1
      else
        match next_scheduled_time with
        | some _ =>
            match engine_process_scheduled S s with
            | .error e => .error e
            | .ok (some ev, s1) => .ok (some ev, s1)
            | .ok (none, s1) => engine_step_loop S fuel s1
        | none => .ok (none, s)

/-- Simulation step (`SimulationEngine.step`): `None` without touching
anything when the engine is not running, otherwise up to 100 iterations
of the event loop. -/
def engine_step (S : Streams) (s : EngineSt) :
    Except PyErr (Option Event × EngineSt) :=
  if ¬s.is_running then .ok (none, s)
  else engine_step_loop S 100 s

/-- Fault injection API (`SimulationEngine.inject_fault`). -/
def engine_inject_fault (s : EngineSt) (rid : Nat) (fault_type : FaultType) :
    EngineSt :=
  if rid < s.replicas.length then
    let r := s.replica rid
    let r1 := { r with is_faulty := true, fault_type := fault_type }
    let s1 := { s with replicas := s.replicas.set rid r1 }
    if fault_type = .CRASH then { s1 with network := s1.network.block rid }
    else s1
  else s

/-- Fault clearing API (`SimulationEngine.clear_fault`). -/
def engine_clear_fault (s : EngineSt) (rid : Nat) : EngineSt :=
  if rid < s.replicas.length then
    let r := s.replica rid
    let r1 := { r with is_faulty := false, fault_type := .NONE }
    { s with replicas := s.replicas.set rid r1
             network := s.network.unblock rid }
  else s

/-- Pause API (`SimulationEngine.pause`). -/
def engine_pause (s : EngineSt) : EngineSt := { s with is_paused := true }

/-- Resume API (`SimulationEngine.resume`). -/
def engine_resume (s : EngineSt) : EngineSt := { s with is_paused := false }

/-- States of the simulation reachable through the engine's public API
under fixed input streams: construction, `start`, successful `step`s,
fault injection and clearing, pause and resume.  A step that raises has
no successor (the exception propagates out of `step` and every host in
the repository stops driving the engine). -/
inductive EngineReachable (S : Streams) (cfg : EngineConfig) : EngineSt → Prop
  | init : EngineReachable S cfg (engine_init cfg)
  | start (s : EngineSt) (evs : List Event) (s1 : EngineSt) :
      EngineReachable S cfg s → engine_start S s = .ok (evs, s1) →
      EngineReachable S cfg s1
  | step (s : EngineSt) (ev : Option Event) (s1 : EngineSt) :
      EngineReachable S cfg s → engine_step S s = .ok (ev, s1) →
      EngineReachable S cfg s1
  | inject (s : EngineSt) (rid : Nat) (k : FaultType) :
      EngineReachable S cfg s →
      EngineReachable S cfg (engine_inject_fault s rid k)
  | clear (s : EngineSt) (rid : Nat) :
      EngineReachable S cfg s → EngineReachable S cfg (engine_clear_fault s rid)
  | pause (s : EngineSt) :
      EngineReachable S cfg s → EngineReachable S cfg (engine_pause s)
  | resume (s : EngineSt) :
      EngineReachable S cfg s → EngineReachable S cfg (engine_resume s)

/-- Replica `rid` has committed block `b` at height `h`. -/
def committed_at (s : EngineSt) (rid h : Nat) (b : Block) : Prop :=
  b ∈ (s.replica rid).committed_blocks ∧ b.height = h

/-- Agreement on the committed prefix: any two blocks committed at the
same height by any two replicas have equal hash. -/
def engine_agreement (s : EngineSt) : Prop :=
  ∀ rid rid2 h b b2, committed_at s rid h b → committed_at s rid2 h b2 →
    b.block_hash = b2.block_hash

/-- Iterated `step` (the host loop driving the engine). -/
def engine_step_n (S : Streams) : Nat → EngineSt → Except PyErr EngineSt
  | 0, s => .ok s
  | k + 1, s =>
      match engine_step S s with
      | .error e => .error e
      | .ok (_, s1) => engine_step_n S k s1

/-- Complete run: construct the engine from the configuration, `start`
it, and step `k` times. -/
def engine_run (S : Streams) (cfg : EngineConfig) (k : Nat) :
    Except PyErr EngineSt :=
  match engine_start S (engine_init cfg) with
  | .error e => .error e
  | .ok (_, s) => engine_step_n S k s

/-- Event history of a complete run. -/
def engine_run_history (S : Streams) (cfg : EngineConfig) (k : Nat) :
    Except PyErr (List Event) :=
  (engine_run S cfg k).map EngineSt.event_history

/-- Well-formed vote: the partial signature carries the same
`(sender, type, view, hash)` tuple as the envelope, which is how every
vote factory in the source builds votes. -/
def wf_vote (v : VoteMsg) : Prop :=
  v.partial_signature =
    { replica_id := v.sender_id, message_type := v.message_type
      view_number := v.view_number, block_hash := v.block_hash }

/-- Invariant of collector states produced by `add_vote` from a fresh
collector: positive quorum, stored votes filed under their own key and
well formed, distinct signers per key, and strictly fewer votes than the
quorum for every key without a formed QC. -/
def collector_inv (s : CollectorSt) : Prop :=
  1 ≤ s.quorum_size ∧
  (∀ kv ∈ s.votes, ∀ v ∈ kv.2, VoteMsg.key v = kv.1 ∧ wf_vote v) ∧
  (∀ kv ∈ s.votes, (kv.2.map VoteMsg.sender_id).Nodup) ∧
  (∀ kv ∈ s.votes, alist_get s.formed_qcs kv.1 = none →
    kv.2.length < s.quorum_size)

/-- Number of QCs emitted for a given key along a sequence of
`add_vote` calls (an erroring call ends the count). -/
def emit_count (k : VoteKey) : CollectorSt → List VoteMsg → Nat
  | _, [] => 0
  | s, v :: rest =>
      match s.add_vote v with
      | .ok (some _, s1) =>
          (if v.key = k then 1 else 0) + emit_count k s1 rest
      | .ok (none, s1) => emit_count k s1 rest
      | .error _ => 0

/-- Rounding to the nearest integer (ties upward), the reading of
"round" in the specification sentence about the adaptive pacemaker. -/
def round_nearest (q : ℚ) : Int := ⌊q + 1 / 2⌋

/-- Timeout update formula exactly as the specification claim words it:
`clamp(round(1.5 * ema), min, max)` with `ema = alpha * duration +
(1 - alpha) * current_timeout` and `round` rounding to the nearest
integer. -/
def claimed_success_timeout (alpha : ℚ) (current_timeout min_timeout max_timeout
    duration : Int) : Int :=
  let ema : ℚ := alpha * (duration : ℚ) + (1 - alpha) * (current_timeout : ℚ)
  max min_timeout (min (round_nearest ((3 / 2) * ema)) max_timeout)

/-- Validation constraints exactly as the specification claim lists them:
`num_replicas ∈ [4, 100]` with `(num_replicas - 1)` divisible by 3,
`0 ≤ num_faulty ≤ (num_replicas - 1) / 3`, positive base timeout,
`0 < adaptive_alpha < 1`, and
`adaptive_min_timeout_ms ≤ adaptive_max_timeout_ms`. -/
def claimed_settings_valid (s : SettingsIn) : Bool :=
  decide (4 ≤ s.num_replicas) && decide (s.num_replicas ≤ 100) &&
  decide ((s.num_replicas - 1) % 3 = 0) &&
  decide (0 ≤ s.num_faulty) &&
  decide (s.num_faulty ≤ (s.num_replicas - 1) / 3) &&
  decide (0 < s.base_timeout_ms) &&
  decide (0 < s.adaptive_alpha) && decide (s.adaptive_alpha < 1) &&
  decide (s.adaptive_min_timeout_ms ≤ s.adaptive_max_timeout_ms)

/-- View of an optional locked QC, 0 when absent (matching the
`locked_views_by_replica` baseline of the repository's own monotonicity
test). -/
def locked_view : Option QuorumCertificate → Nat
  | none => 0
  | some qc => qc.view_number

/-- Four-replica baseline configuration used by concrete witnesses (the
defaults of `Settings`: one faulty replica of kind NONE, 1000 ms base
timeout, delays 10..100 ms). -/
def cfg_basic : EngineConfig :=
  { num_replicas := 4, num_faulty := 1, base_timeout_ms := 1000
    network_delay_min_ms := 10, network_delay_max_ms := 100
    pacemaker_type := .BASELINE, adaptive_alpha := 1 / 2
    adaptive_min_timeout_ms := 500, adaptive_max_timeout_ms := 5000
    fault_type := .NONE }

/-- Same configuration with no faulty replica: the only kind whose real
construction succeeds (the fault-marking loop is empty, so the missing
`settings.fault_type` attribute is never read). -/
def cfg_nf0 : EngineConfig := { cfg_basic with num_faulty := 0 }

/-- Deterministic input streams: constant network draws, identity
message ids, global draws all at least 0.5. -/
def streams_lo : Streams :=
  { netRand := fun _ => 0, uuid := fun n => n, gRand := fun _ => false }

/-- Same streams but with every global `random.random()` draw below 0.5
(so every RANDOM_DROP test fires). -/
def streams_hi : Streams :=
  { netRand := fun _ => 0, uuid := fun n => n, gRand := fun _ => true }

/-- Same streams as `streams_lo` except for the `uuid.uuid4()` draws,
modelling a second engine instance whose process entropy differs. -/
def streams_uu : Streams :=
  { netRand := fun _ => 0, uuid := fun n => n + 1, gRand := fun _ => false }

/-- No replica of the state is RANDOM_DROP-faulty, so the process-global
`random.random()` is never consulted. -/
def no_random_drop (s : EngineSt) : Prop :=
  ∀ i, ¬((s.replica i).is_faulty = true ∧
    (s.replica i).fault_type = FaultType.RANDOM_DROP)

/-- Concrete height-1 block extending genesis, as proposed by the leader
of view 1 in a four-replica run. -/
def block_a : Block := create_block genesis_block "cmd_1_1" 1 1

/-- QC fixture certifying a hash at a given view. -/
def qc_fix (t : MessageType) (view : Nat) (h : BHash) : QuorumCertificate :=
  { qc_type := t, view_number := view, block_hash := h, signatures := [] }

/-- Fresh four-replica network fixture. -/
def net_fix : NetworkSt :=
  (((((NetworkSt.init 10 100).register 0).register 1).register 2).register 3)

/-- Context fixture over `net_fix`. -/
def ctx_fix : Ctx := { net := net_fix, uuid_ctr := 0, g_ctr := 0 }

/-- Replica 0 of a four-replica system with the height-1 block stored:
the state of a backup replica about to handle the DECIDE message of
view 1. -/
def replica_c2 : ReplicaSt :=
  let r := ReplicaSt.init 0 4 3
  { r with block_store := alist_set r.block_store block_a.block_hash block_a
           safety_registry :=
             alist_set r.safety_registry block_a.block_hash block_a }

/-- DECIDE message of view 1 certifying the height-1 block. -/
def decide_msg_c2 : Msg :=
  { message_id := 7, sender_id := 1, view_number := 1, timestamp := 60
    target_id := none, body := .decide (qc_fix .COMMIT_VOTE 1 block_a.block_hash) }

/-- Replica 0 locked at view 5 (fixture for the lock-monotonicity
counterexample). -/
def replica_c7 : ReplicaSt :=
  let r := ReplicaSt.init 0 4 3
  { r with locked_qc := some (qc_fix .PRE_COMMIT_VOTE 5 genesis_block.block_hash) }

/-- COMMIT message of view 1 carrying a precommit QC of view 0. -/
def commit_msg_c7 : Msg :=
  { message_id := 9, sender_id := 1, view_number := 1, timestamp := 10
    target_id := none
    body := .commitMsg (qc_fix .PRE_COMMIT_VOTE 0 genesis_block.block_hash) }

/-- COMMIT message of view 1 carrying a precommit QC of view 6 (above the
view-5 lock of `replica_c7`). -/
def commit_msg_c7b : Msg :=
  { message_id := 9, sender_id := 1, view_number := 1, timestamp := 10
    target_id := none
    body := .commitMsg (qc_fix .PRE_COMMIT_VOTE 6 genesis_block.block_hash) }

/-- PREPARE_VOTE of view 1 on the genesis hash from replica 0. -/
def vote_w1 : VoteMsg :=
  VoteMsg.create 21 .PREPARE_VOTE 0 1 genesis_block.block_hash 0 0

/-- PREPARE_VOTE of view 1 on the genesis hash from replica 1 (same key
as `vote_w1`, distinct signer). -/
def vote_w2 : VoteMsg :=
  VoteMsg.create 22 .PREPARE_VOTE 1 1 genesis_block.block_hash 0 0

/-- Quorum-2 collector holding `vote_w1`: one more matching vote forms a
QC. -/
def colw : CollectorSt :=
  { quorum_size := 2
    votes := [(VoteMsg.key vote_w1, [vote_w1])]
    formed_qcs := [] }

/-- Engine state whose aggregate `current_view` high-water mark (2) is
ahead of replica 0 (still in view 1): the state after some other replica
advanced the aggregate. -/
def engine_c6 : EngineSt :=
  { engine_init cfg_basic with current_view := 2, is_running := true
                               view_start_times := [(1, 0), (2, 0)] }

/-- A freshly started four-replica engine whose view 1 began at time 0:
here replica 0's view equals the aggregate, so a commit by replica 0 does
advance it. -/
def engine_c6b : EngineSt :=
  { engine_init cfg_basic with is_running := true
                               view_start_times := [(1, 0)] }

/-- Settings input with `num_faulty = 3` for `num_replicas = 4` (three
times the tolerable bound `(n - 1) / 3 = 1`); every other field holds its
default value. -/
def settings_f3 : SettingsIn :=
  { num_replicas := 4, num_faulty := 3, base_timeout_ms := 1000
    network_delay_min_ms := 10, network_delay_max_ms := 100
    random_seed := none, pacemaker_type := .BASELINE, simulation_speed := 1
    max_views := 100, log_level := "INFO", adaptive_alpha := 1 / 2
    adaptive_min_timeout_ms := 500, adaptive_max_timeout_ms := 5000
    ui_host := "127.0.0.1", ui_port := 5000, ui_debug := true }

/-- Every replica's list of committed blocks is empty. -/
def replicas_committed_empty (s : EngineSt) : Prop :=
  ∀ i, (s.replica i).committed_blocks = []

/-! Helper lemmas shared by several claim theorems. -/

/-- Reading an updated index back out of a list. -/
theorem getD_set_self {α : Type} (l : List α) (i : Nat) (x d : α)
    (h : i < l.length) : (l.set i x).getD i d = x := by
  rw [List.getD_eq_getElem?_getD, List.getElem?_set_self h]
  rfl

/-- Reading an untouched index out of an updated list. -/
theorem getD_set_ne {α : Type} (l : List α) (i j : Nat) (x d : α)
    (h : i ≠ j) : (l.set i x).getD j d = l.getD j d := by
  rw [List.getD_eq_getElem?_getD, List.getElem?_set_ne h,
    ← List.getD_eq_getElem?_getD]

/-- Invariant preservation through a monadic fold over `Except`. -/
theorem foldlM_except_inv {β α : Type} {f : β → α → Except PyErr β}
    {Q : β → Prop} (hf : ∀ b a b1, Q b → f b a = .ok b1 → Q b1) :
    ∀ (l : List α) (b b1 : β), Q b → l.foldlM f b = .ok b1 → Q b1 := by
  intro l
  induction l with
  | nil =>
      intro b b1 hq h
      exact (Except.ok.inj h) ▸ hq
  | cons a rest ih =>
      intro b b1 hq h
      rw [List.foldlM_cons] at h
      cases hfa : f b a with
      | error e =>
          rw [hfa] at h
          exact absurd h (by simp [Bind.bind, Except.bind])
      | ok b2 =>
          rw [hfa] at h
          simp only [Bind.bind, Except.bind] at h
          exact ih b2 b1 (hf b a b2 hq hfa) h

/-- Projections invariant under out-of-place list updates. -/
theorem getD_set_proj {β α : Type} (f : β → α) (l : List β) (i : Nat)
    (x d : β) (hx : f x = f (l.getD i d)) :
    ∀ j, f ((l.set i x).getD j d) = f (l.getD j d) := by
  intro j
  by_cases hij : i = j
  · subst hij
    by_cases hlen : i < l.length
    · rw [getD_set_self _ _ _ _ hlen, hx]
    · rw [List.set_eq_of_length_le (le_of_not_lt hlen)]
  · rw [getD_set_ne _ _ _ _ _ hij]

/-- Bridge from `Rat.floor` to the floor-ring floor. -/
theorem rat_floor_eq_floor (q : ℚ) : q.floor = ⌊q⌋ := rfl

/-- Truncation toward zero agrees with the identity on integers. -/
theorem pyInt_intCast (n : Int) : pyInt (n : ℚ) = n := by
  unfold pyInt
  rcases le_or_lt 0 (n : ℚ) with h | h
  · rw [if_pos h, rat_floor_eq_floor, Int.floor_intCast]
  · rw [if_neg (not_le.mpr h), rat_floor_eq_floor]
    rw [show (-(n : ℚ)) = ((-n : Int) : ℚ) by push_cast; ring, Int.floor_intCast]
    ring

/-- Truncation toward zero is monotone. -/
theorem pyInt_mono {a b : ℚ} (h : a ≤ b) : pyInt a ≤ pyInt b := by
  unfold pyInt
  rcases le_or_lt 0 a with ha | ha
  · rw [if_pos ha, if_pos (le_trans ha h), rat_floor_eq_floor,
      rat_floor_eq_floor]
    exact Int.floor_le_floor h
  · rw [if_neg (not_le.mpr ha)]
    rcases le_or_lt 0 b with hb | hb
    · rw [if_pos hb, rat_floor_eq_floor, rat_floor_eq_floor]
      have h1 : (0 : Int) ≤ ⌊b⌋ := Int.floor_nonneg.mpr hb
      have h2 : (0 : Int) ≤ ⌊-a⌋ := Int.floor_nonneg.mpr (by linarith)
      omega
    · rw [if_neg (not_le.mpr hb), rat_floor_eq_floor, rat_floor_eq_floor]
      have := Int.floor_le_floor (neg_le_neg h)
      omega

/-- Truncation toward zero distributes over `max`. -/
theorem pyInt_max (a b : ℚ) : pyInt (max a b) = max (pyInt a) (pyInt b) := by
  rcases max_cases a b with ⟨he, hle⟩ | ⟨he, hlt⟩
  · rw [he, max_eq_left (pyInt_mono hle)]
  · rw [he, max_eq_right (pyInt_mono (le_of_lt hlt))]

/-- Truncation toward zero distributes over `min`. -/
theorem pyInt_min (a b : ℚ) : pyInt (min a b) = min (pyInt a) (pyInt b) := by
  rcases min_cases a b with ⟨he, hle⟩ | ⟨he, hlt⟩
  · rw [he, min_eq_left (pyInt_mono hle)]
  · rw [he, min_eq_right (pyInt_mono (le_of_lt hlt))]

/-- The inserted entry is a member of the priority queue. -/
theorem pq_insert_mem (l : List (Int × Nat × SchedEv)) (e : Int × Nat × SchedEv) :
    e ∈ pq_insert l e := by
  induction l with
  | nil => simp [pq_insert]
  | cons x rest ih =>
      by_cases h : e.1 < x.1 ∨ (e.1 = x.1 ∧ e.2.1 < x.2.1)
      · simp [pq_insert, h]
      · simp only [pq_insert, if_neg h, List.mem_cons]
        exact Or.inr ih

/-- Frame facts about the fall-through body of `Replica.start_view`:
the commit bookkeeping, the fault marking and the lock are untouched and
the view is set to the started view. -/
theorem replica_start_view_normal_spec (S : Streams) (r : ReplicaSt) (v : Nat)
    (t : Int) (c : Ctx) (r1 : ReplicaSt) (c1 : Ctx) (evs : List Event)
    (h : replica_start_view_normal S r v t c = .ok (r1, c1, evs)) :
    r1.committed_blocks = r.committed_blocks ∧
    r1.committed_block_hashes = r.committed_block_hashes ∧
    r1.is_faulty = r.is_faulty ∧
    r1.fault_type = r.fault_type ∧
    r1.locked_qc = r.locked_qc ∧
    r1.current_view = v := by
  unfold replica_start_view_normal at h
  dsimp only at h
  split at h
  · exact absurd h (by simp)
  · simp only [Except.ok.injEq, Prod.mk.injEq] at h
    obtain ⟨hr, -, -⟩ := h
    subst hr
    split <;> simp

/-- Frame facts about `Replica.start_view` on a successful call: the
commit bookkeeping, the fault marking and the lock are untouched; a
CRASH-faulted replica is returned unchanged, and every other replica has
its view set to the started view. -/
theorem replica_start_view_spec (S : Streams) (r : ReplicaSt) (v : Nat)
    (t : Int) (c : Ctx) (r1 : ReplicaSt) (c1 : Ctx) (evs : List Event)
    (h : replica_start_view S r v t c = .ok (r1, c1, evs)) :
    r1.committed_blocks = r.committed_blocks ∧
    r1.committed_block_hashes = r.committed_block_hashes ∧
    r1.is_faulty = r.is_faulty ∧
    r1.fault_type = r.fault_type ∧
    r1.locked_qc = r.locked_qc ∧
    (r.is_faulty ∧ r.fault_type = .CRASH → r1 = r) ∧
    (¬(r.is_faulty ∧ r.fault_type = .CRASH) → r1.current_view = v) := by
  unfold replica_start_view at h
  by_cases h1 : r.is_faulty ∧ r.fault_type = FaultType.CRASH
  · rw [if_pos h1] at h
    simp only [Except.ok.injEq, Prod.mk.injEq] at h
    obtain ⟨hr, -, -⟩ := h
    subst hr
    simp [h1]
  · rw [if_neg h1] at h
    by_cases h2 : r.is_faulty ∧ r.fault_type = FaultType.SILENT
    · rw [if_pos h2] at h
      simp only [Except.ok.injEq, Prod.mk.injEq] at h
      obtain ⟨hr, -, -⟩ := h
      subst hr
      simp [h1]
    · rw [if_neg h2] at h
      by_cases h3 : r.is_faulty ∧ r.fault_type = FaultType.RANDOM_DROP
      · rw [if_pos h3] at h
        by_cases hd : (Ctx.draw_drop S c).1 = true
        · simp only [hd, if_true, Except.ok.injEq, Prod.mk.injEq] at h
          obtain ⟨hr, -, -⟩ := h
          subst hr
          simp [h1, h3]
        · simp only [hd, if_false, Bool.false_eq_true] at h
          have hs := replica_start_view_normal_spec S r v t _ r1 c1 evs h
          exact ⟨hs.1, hs.2.1, hs.2.2.1, hs.2.2.2.1, hs.2.2.2.2.1,
            fun hc => absurd hc h1, fun _ => hs.2.2.2.2.2⟩
      · rw [if_neg h3] at h
        have hs := replica_start_view_normal_spec S r v t _ r1 c1 evs h
        exact ⟨hs.1, hs.2.1, hs.2.2.1, hs.2.2.2.1, hs.2.2.2.2.1,
          fun hc => absurd hc h1, fun _ => hs.2.2.2.2.2⟩

/-- Frame facts about the proposal step: commit bookkeeping, fault
marking and lock are untouched. -/
theorem handler_propose_block_frame (S : Streams) (r : ReplicaSt) (v : Nat)
    (t : Int) (c : Ctx) (r1 : ReplicaSt) (c1 : Ctx) (evs : List Event)
    (pb : Option Block) (ph : Option PhaseType)
    (h : handler_propose_block S r v t c = .ok (r1, c1, evs, pb, ph)) :
    r1.committed_blocks = r.committed_blocks ∧
    r1.committed_block_hashes = r.committed_block_hashes ∧
    r1.is_faulty = r.is_faulty ∧
    r1.fault_type = r.fault_type ∧
    r1.locked_qc = r.locked_qc := by
  unfold handler_propose_block at h
  split at h
  · exact absurd h (by simp)
  · dsimp only at h
    split at h
    · exact absurd h (by simp)
    · split at h
      · exact absurd h (by simp)
      · simp only [Except.ok.injEq, Prod.mk.injEq] at h
        obtain ⟨hr, -⟩ := h
        subst hr
        simp

/-- Frame facts about the NEW_VIEW handler. -/
theorem handler_handle_new_view_frame (S : Streams) (r : ReplicaSt) (m : Msg)
    (v : Nat) (lead : Bool) (t : Int) (c : Ctx) (r1 : ReplicaSt) (c1 : Ctx)
    (evs : List Event) (pb : Option Block) (ph : Option PhaseType)
    (h : handler_handle_new_view S r m v lead t c = .ok (r1, c1, evs, pb, ph)) :
    r1.committed_blocks = r.committed_blocks ∧
    r1.committed_block_hashes = r.committed_block_hashes ∧
    r1.is_faulty = r.is_faulty ∧
    r1.fault_type = r.fault_type ∧
    r1.locked_qc = r.locked_qc := by
  unfold handler_handle_new_view at h
  split at h
  · simp only [Except.ok.injEq, Prod.mk.injEq] at h
    obtain ⟨hr, -⟩ := h
    subst hr
    simp
  · dsimp only at h
    split at h
    · simp only [Except.ok.injEq, Prod.mk.injEq] at h
      obtain ⟨hr, -⟩ := h
      subst hr
      simp
    · split at h
      · have hp := handler_propose_block_frame S _ v t c r1 c1 evs pb ph h
        exact hp
      · simp only [Except.ok.injEq, Prod.mk.injEq] at h
        obtain ⟨hr, -⟩ := h
        subst hr
        simp

/-- Frame facts about the PREPARE handler. -/
theorem handler_handle_prepare_frame (S : Streams) (r : ReplicaSt) (b : Block)
    (hq : Option QuorumCertificate) (v : Nat) (lq : Option QuorumCertificate)
    (lv : Option Nat) (t : Int) (c : Ctx) (r1 : ReplicaSt) (c1 : Ctx)
    (evs : List Event) (b1 : Block) (lv1 : Option Nat) (ph : PhaseType)
    (h : handler_handle_prepare S r b hq v lq lv t c =
      .ok (r1, c1, evs, b1, lv1, ph)) :
    r1.committed_blocks = r.committed_blocks ∧
    r1.committed_block_hashes = r.committed_block_hashes ∧
    r1.is_faulty = r.is_faulty ∧
    r1.fault_type = r.fault_type ∧
    r1.locked_qc = r.locked_qc := by
  unfold handler_handle_prepare at h
  dsimp only at h
  split at h
  · simp only [Except.ok.injEq, Prod.mk.injEq] at h
    obtain ⟨hr, -⟩ := h
    subst hr
    simp
  · split at h
    · simp only [Except.ok.injEq, Prod.mk.injEq] at h
      obtain ⟨hr, -⟩ := h
      subst hr
      simp
    · split at h
      · exact absurd h (by simp)
      · simp only [Except.ok.injEq, Prod.mk.injEq] at h
        obtain ⟨hr, -⟩ := h
        subst hr
        simp

/-- Frame facts about the PREPARE_VOTE handler. -/
theorem handler_handle_prepare_vote_frame (S : Streams) (r : ReplicaSt)
    (vt : VoteMsg) (v : Nat) (lead : Bool) (t : Int) (c : Ctx) (r1 : ReplicaSt)
    (c1 : Ctx) (evs : List Event) (q : Option QuorumCertificate)
    (ph : Option PhaseType)
    (h : handler_handle_prepare_vote S r vt v lead t c =
      .ok (r1, c1, evs, q, ph)) :
    r1.committed_blocks = r.committed_blocks ∧
    r1.committed_block_hashes = r.committed_block_hashes ∧
    r1.is_faulty = r.is_faulty ∧
    r1.fault_type = r.fault_type ∧
    r1.locked_qc = r.locked_qc := by
  unfold handler_handle_prepare_vote at h
  split at h
  · simp only [Except.ok.injEq, Prod.mk.injEq] at h
    obtain ⟨hr, -⟩ := h
    subst hr
    simp
  · split at h
    · exact absurd h (by simp)
    · simp only [Except.ok.injEq, Prod.mk.injEq] at h
      obtain ⟨hr, -⟩ := h
      subst hr
      simp
    · dsimp only at h
      split at h
      · exact absurd h (by simp)
      · split at h
        · exact absurd h (by simp)
        · simp only [Except.ok.injEq, Prod.mk.injEq] at h
          obtain ⟨hr, -⟩ := h
          subst hr
          simp

/-- Frame facts about the PRE_COMMIT handler. -/
theorem handler_handle_precommit_frame (S : Streams) (r : ReplicaSt)
    (pq : QuorumCertificate) (v : Nat) (t : Int) (c : Ctx) (r1 : ReplicaSt)
    (c1 : Ctx) (evs : List Event) (q : QuorumCertificate) (ph : PhaseType)
    (h : handler_handle_precommit S r pq v t c = .ok (r1, c1, evs, q, ph)) :
    r1 = r := by
  unfold handler_handle_precommit at h
  dsimp only at h
  split at h
  · exact absurd h (by simp)
  · simp only [Except.ok.injEq, Prod.mk.injEq] at h
    exact h.1.symm

/-- Frame facts about the PRE_COMMIT_VOTE handler. -/
theorem handler_handle_precommit_vote_frame (S : Streams) (r : ReplicaSt)
    (vt : VoteMsg) (v : Nat) (lead : Bool) (t : Int) (c : Ctx) (r1 : ReplicaSt)
    (c1 : Ctx) (evs : List Event) (q : Option QuorumCertificate)
    (ph : Option PhaseType)
    (h : handler_handle_precommit_vote S r vt v lead t c =
      .ok (r1, c1, evs, q, ph)) :
    r1.committed_blocks = r.committed_blocks ∧
    r1.committed_block_hashes = r.committed_block_hashes ∧
    r1.is_faulty = r.is_faulty ∧
    r1.fault_type = r.fault_type ∧
    r1.locked_qc = r.locked_qc := by
  unfold handler_handle_precommit_vote at h
  split at h
  · simp only [Except.ok.injEq, Prod.mk.injEq] at h
    obtain ⟨hr, -⟩ := h
    subst hr
    simp
  · split at h
    · exact absurd h (by simp)
    · simp only [Except.ok.injEq, Prod.mk.injEq] at h
      obtain ⟨hr, -⟩ := h
      subst hr
      simp
    · dsimp only at h
      split at h
      · exact absurd h (by simp)
      · split at h
        · exact absurd h (by simp)
        · simp only [Except.ok.injEq, Prod.mk.injEq] at h
          obtain ⟨hr, -⟩ := h
          subst hr
          simp

/-- Frame facts about the COMMIT handler: the replica record is returned
untouched (the lock update happens in the wrapper). -/
theorem handler_handle_commit_frame (S : Streams) (r : ReplicaSt)
    (pq : QuorumCertificate) (v : Nat) (t : Int) (c : Ctx) (r1 : ReplicaSt)
    (c1 : Ctx) (evs : List Event) (q : QuorumCertificate) (ph : PhaseType)
    (h : handler_handle_commit S r pq v t c = .ok (r1, c1, evs, q, ph)) :
    r1 = r ∧ q = pq := by
  unfold handler_handle_commit at h
  dsimp only at h
  split at h
  · exact absurd h (by simp)
  · simp only [Except.ok.injEq, Prod.mk.injEq] at h
    exact ⟨h.1.symm, h.2.2.2.1.symm⟩

/-- Frame facts about the dispatch body of `Replica.handle_message` on a
successful call: the commit bookkeeping and the fault marking are
untouched (the only two sites writing the commit bookkeeping always
raise). -/
theorem replica_dispatch_message_frame (S : Streams) (r : ReplicaSt) (m : Msg)
    (t : Int) (c : Ctx) (r1 : ReplicaSt) (c1 : Ctx) (evs : List Event)
    (h : replica_dispatch_message S r m t c = .ok (r1, c1, evs)) :
    r1.committed_blocks = r.committed_blocks ∧
    r1.committed_block_hashes = r.committed_block_hashes ∧
    r1.is_faulty = r.is_faulty ∧
    r1.fault_type = r.fault_type := by
  unfold replica_dispatch_message at h
  split at h
  · simp only [Except.ok.injEq, Prod.mk.injEq] at h
    obtain ⟨hr, -⟩ := h
    subst hr
    simp
  · split at h
    · rename_i heq
      split at h
      · exact absurd h (by simp)
      · rename_i hh
        have hf := handler_handle_new_view_frame S r m r.current_view
          r.is_leader t c _ _ _ _ _ hh
        split at h <;> split at h <;>
          (simp only [Except.ok.injEq, Prod.mk.injEq] at h
           obtain ⟨hr, -⟩ := h
           subst hr
           simp [hf.1, hf.2.1, hf.2.2.1, hf.2.2.2.1])
    · split at h
      · exact absurd h (by simp)
      · rename_i hh
        have hf := handler_handle_prepare_frame S r _ _ r.current_view
          r.locked_qc r.last_voted_view t c _ _ _ _ _ _ hh
        split at h <;>
          (simp only [Except.ok.injEq, Prod.mk.injEq] at h
           obtain ⟨hr, -⟩ := h
           subst hr
           simp [hf.1, hf.2.1, hf.2.2.1, hf.2.2.2.1])
    · split at h
      · exact absurd h (by simp)
      · rename_i hh
        have hf := handler_handle_prepare_vote_frame S r _ r.current_view
          r.is_leader t c _ _ _ _ _ hh
        split at h <;> split at h <;>
          (simp only [Except.ok.injEq, Prod.mk.injEq] at h
           obtain ⟨hr, -⟩ := h
           subst hr
           simp [hf.1, hf.2.1, hf.2.2.1, hf.2.2.2.1])
    · split at h
      · exact absurd h (by simp)
      · rename_i hh
        have hf := handler_handle_precommit_frame S r _ r.current_view t c
          _ _ _ _ _ hh
        simp only [Except.ok.injEq, Prod.mk.injEq] at h
        obtain ⟨hr, -⟩ := h
        subst hr
        simp [hf]
    · split at h
      · exact absurd h (by simp)
      · rename_i hh
        have hf := handler_handle_precommit_vote_frame S r _ r.current_view
          r.is_leader t c _ _ _ _ _ hh
        split at h <;> split at h <;>
          (simp only [Except.ok.injEq, Prod.mk.injEq] at h
           obtain ⟨hr, -⟩ := h
           subst hr
           simp [hf.1, hf.2.1, hf.2.2.1, hf.2.2.2.1])
    · split at h
      · exact absurd h (by simp)
      · rename_i hh
        have hf := handler_handle_commit_frame S r _ r.current_view t c
          _ _ _ _ _ hh
        simp only [Except.ok.injEq, Prod.mk.injEq] at h
        obtain ⟨hr, -⟩ := h
        subst hr
        simp [hf.1]
    · split at h
      · exact absurd h (by simp)
      · exact absurd h (by simp)
    · exact absurd h (by simp)

/-- Frame facts about `Replica.handle_message` on a successful call: the
commit bookkeeping and the fault marking are untouched. -/
theorem replica_handle_message_frame (S : Streams) (r : ReplicaSt) (m : Msg)
    (t : Int) (c : Ctx) (r1 : ReplicaSt) (c1 : Ctx) (evs : List Event)
    (h : replica_handle_message S r m t c = .ok (r1, c1, evs)) :
    r1.committed_blocks = r.committed_blocks ∧
    r1.committed_block_hashes = r.committed_block_hashes ∧
    r1.is_faulty = r.is_faulty ∧
    r1.fault_type = r.fault_type := by
  unfold replica_handle_message at h
  split at h
  · simp only [Except.ok.injEq, Prod.mk.injEq] at h
    obtain ⟨hr, -⟩ := h
    subst hr
    simp
  · split at h
    · split at h <;>
        (simp only [Except.ok.injEq, Prod.mk.injEq] at h
         obtain ⟨hr, -⟩ := h
         subst hr
         simp)
    · split at h
      · dsimp only at h
        split at h
        · simp only [Except.ok.injEq, Prod.mk.injEq] at h
          obtain ⟨hr, -⟩ := h
          subst hr
          simp
        · exact replica_dispatch_message_frame S r m t _ r1 c1 evs h
      · exact replica_dispatch_message_frame S r m t c r1 c1 evs h

/-- Invariant preservation through a plain fold. -/
theorem foldl_inv {σ α : Type} (f : σ → α → σ) (Q : σ → Prop)
    (hf : ∀ s a, Q s → Q (f s a)) :
    ∀ (l : List α) (s : σ), Q s → Q (l.foldl f s) := by
  intro l
  induction l with
  | nil => intro s hs; exact hs
  | cons a rest ih => intro s hs; exact ih (f s a) (hf s a hs)

/-- Default-aware membership property of `getD`. -/
theorem getD_prop {β : Type} (P : β → Prop) (l : List β) (i : Nat) (d : β)
    (hl : ∀ x ∈ l, P x) (hd : P d) : P (l.getD i d) := by
  by_cases h : i < l.length
  · rw [List.getD_eq_getElem?_getD, List.getElem?_eq_getElem h]
    exact hl _ (List.getElem_mem h)
  · rw [List.getD_eq_getElem?_getD, List.getElem?_eq_none (le_of_not_lt h)]
    exact hd

/-- Transport of the committed-empty invariant across a single replica
update that preserves the committed list. -/
theorem committed_empty_set (s s1 : EngineSt) (rid : Nat) (r1 : ReplicaSt)
    (hr : s1.replicas = s.replicas.set rid r1)
    (hc : r1.committed_blocks = (s.replica rid).committed_blocks)
    (hP : replicas_committed_empty s) : replicas_committed_empty s1 := by
  intro i
  show ((s1.replicas).getD i _).committed_blocks = []
  rw [hr, getD_set_proj ReplicaSt.committed_blocks s.replicas rid r1 _ hc i]
  exact hP i

/-- Pointwise form of the committed-empty transport, convenient when
the updated replica is a large record literal. -/
theorem committed_empty_set_pointwise (l : List ReplicaSt) (rid : Nat)
    (hP : ∀ i, (l.getD i (ReplicaSt.init 0 0 0)).committed_blocks = [])
    (x : ReplicaSt)
    (hx : x.committed_blocks = (l.getD rid (ReplicaSt.init 0 0 0)).committed_blocks) :
    ∀ i, ((l.set rid x).getD i (ReplicaSt.init 0 0 0)).committed_blocks = [] := by
  intro i
  rw [getD_set_proj ReplicaSt.committed_blocks l rid x (ReplicaSt.init 0 0 0) hx i]
  exact hP i

/-- Construction produces replicas with empty committed lists. -/
theorem engine_init_committed_empty (cfg : EngineConfig) :
    replicas_committed_empty (engine_init cfg) := by
  have h1 : ∀ r ∈ (engine_init_replicas cfg
      (NetworkSt.init cfg.network_delay_min_ms cfg.network_delay_max_ms)).2.2,
      r.committed_blocks = [] := by
    unfold engine_init_replicas
    refine foldl_inv _
      (fun (acc : NetworkSt × List Pacemaker × List ReplicaSt) =>
        ∀ r ∈ acc.2.2, r.committed_blocks = []) ?_ _ _ ?_
    · intro acc a hacc r hm
      simp only [List.mem_append, List.mem_singleton] at hm
      rcases hm with hm | hm
      · exact hacc r hm
      · rw [hm]; rfl
    · intro r hm; simp at hm
  have h2 : ∀ r ∈ (engine_mark_faulty cfg
      (engine_init_replicas cfg
        (NetworkSt.init cfg.network_delay_min_ms cfg.network_delay_max_ms)).1
      (engine_init_replicas cfg
        (NetworkSt.init cfg.network_delay_min_ms cfg.network_delay_max_ms)).2.2).2,
      r.committed_blocks = [] := by
    unfold engine_mark_faulty
    refine foldl_inv _
      (fun (acc : NetworkSt × List ReplicaSt) =>
        ∀ r ∈ acc.2, r.committed_blocks = []) ?_ _ _ ?_
    · intro acc a hacc r hm
      by_cases hc : cfg.num_replicas - cfg.num_faulty ≤ a
      · simp only [if_pos hc] at hm
        have hm2 := List.mem_or_eq_of_mem_set hm
        rcases hm2 with hm2 | hm2
        · exact hacc r hm2
        · rw [hm2]
          show (acc.2.getD a (ReplicaSt.init 0 0 0)).committed_blocks = []
          exact getD_prop (fun (x : ReplicaSt) => x.committed_blocks = [])
            acc.2 a (ReplicaSt.init 0 0 0) hacc rfl
      · simp only [if_neg hc] at hm
        exact hacc r hm
    · exact h1
  intro i
  show (((engine_init cfg).replicas).getD i (ReplicaSt.init 0 0 0)).committed_blocks = []
  exact getD_prop (fun (x : ReplicaSt) => x.committed_blocks = [])
    ((engine_init cfg).replicas) i (ReplicaSt.init 0 0 0) h2 rfl

/-- Per-replica view start preserves the committed-empty invariant. -/
theorem engine_start_view_one_ce (S : Streams) (v rid : Nat)
    (acc acc1 : EngineSt × List Event)
    (h : engine_start_view_one S v rid acc = .ok acc1)
    (hP : replicas_committed_empty acc.1) : replicas_committed_empty acc1.1 := by
  unfold engine_start_view_one at h
  dsimp only at h
  split at h
  · exact absurd h (by simp)
  · rename_i r1 c1 evs heq
    simp only [Except.ok.injEq] at h
    have hf := replica_start_view_spec S _ v _ _ _ _ _ heq
    have hce : replicas_committed_empty
        { (acc.1.with_ctx c1) with replicas := acc.1.replicas.set rid r1 } :=
      committed_empty_set acc.1 _ rid r1 rfl hf.1 hP
    rw [← h]
    intro i
    exact hce i

/-- Engine-wide view start preserves the committed-empty invariant. -/
theorem engine_start_view_ce (S : Streams) (s : EngineSt) (v : Nat)
    (evs : List Event) (s1 : EngineSt)
    (h : engine_start_view S s v = .ok (evs, s1))
    (hP : replicas_committed_empty s) : replicas_committed_empty s1 := by
  unfold engine_start_view at h
  dsimp only at h
  split at h
  · exact absurd h (by simp)
  · rename_i s2 events heq
    simp only [Except.ok.injEq, Prod.mk.injEq] at h
    have hfold : replicas_committed_empty s2 := by
      refine foldlM_except_inv
        (Q := fun (a : EngineSt × List Event) => replicas_committed_empty a.1)
        ?_ _ _ _ ?_ heq
      · intro b a b1 hq hf
        exact engine_start_view_one_ce S v a b b1 hf hq
      · intro i; exact hP i
    rw [← h.2]
    intro i
    exact hfold i

/-- Simulation start preserves the committed-empty invariant. -/
theorem engine_start_ce (S : Streams) (s : EngineSt) (evs : List Event)
    (s1 : EngineSt) (h : engine_start S s = .ok (evs, s1))
    (hP : replicas_committed_empty s) : replicas_committed_empty s1 := by
  unfold engine_start at h
  exact engine_start_view_ce S _ 1 evs s1 h (fun i => hP i)

/-- Post-commit advance preserves the committed-empty invariant. -/
theorem engine_on_block_committed_ce (S : Streams) (s : EngineSt) (rid : Nat)
    (s4 : EngineSt) (h : engine_on_block_committed S s rid = .ok s4)
    (hP : replicas_committed_empty s) : replicas_committed_empty s4 := by
  unfold engine_on_block_committed at h
  dsimp only at h
  split at h
  · simp only [Except.ok.injEq] at h
    rw [← h]
    exact hP
  · cases halist : alist_get s.view_start_times (s.replica rid).current_view with
    | none =>
        rw [halist] at h
        dsimp only at h
        by_cases hv : s.current_view < (s.replica rid).current_view + 1
        · simp only [if_pos hv] at h
          split at h
          · exact absurd h (by simp)
          · rename_i r1 c1 evs heq
            simp only [Except.ok.injEq] at h
            have hf := replica_start_view_spec S _ _ _ _ _ _ _ heq
            rw [← h]
            intro i
            have hr1c : r1.committed_blocks =
                (s.replica rid).committed_blocks := hf.1
            show ((s.replicas.set rid r1).getD i
              (ReplicaSt.init 0 0 0)).committed_blocks = []
            rw [getD_set_proj ReplicaSt.committed_blocks s.replicas rid r1
              (ReplicaSt.init 0 0 0) hr1c i]
            exact hP i
        · simp only [if_neg hv] at h
          split at h
          · exact absurd h (by simp)
          · rename_i r1 c1 evs heq
            simp only [Except.ok.injEq] at h
            have hf := replica_start_view_spec S _ _ _ _ _ _ _ heq
            rw [← h]
            intro i
            have hr1c : r1.committed_blocks =
                (s.replica rid).committed_blocks := hf.1
            show ((s.replicas.set rid r1).getD i
              (ReplicaSt.init 0 0 0)).committed_blocks = []
            rw [getD_set_proj ReplicaSt.committed_blocks s.replicas rid r1
              (ReplicaSt.init 0 0 0) hr1c i]
            exact hP i
    | some started =>
        rw [halist] at h
        dsimp only at h
        by_cases hv : s.current_view < (s.replica rid).current_view + 1
        · simp only [if_pos hv] at h
          split at h
          · exact absurd h (by simp)
          · rename_i r1 c1 evs heq
            simp only [Except.ok.injEq] at h
            have hf := replica_start_view_spec S _ _ _ _ _ _ _ heq
            rw [← h]
            intro i
            have hr1c : r1.committed_blocks =
                (s.replica rid).committed_blocks := hf.1
            show ((s.replicas.set rid r1).getD i
              (ReplicaSt.init 0 0 0)).committed_blocks = []
            rw [getD_set_proj ReplicaSt.committed_blocks s.replicas rid r1
              (ReplicaSt.init 0 0 0) hr1c i]
            exact hP i
        · simp only [if_neg hv] at h
          split at h
          · exact absurd h (by simp)
          · rename_i r1 c1 evs heq
            simp only [Except.ok.injEq] at h
            have hf := replica_start_view_spec S _ _ _ _ _ _ _ heq
            rw [← h]
            intro i
            have hr1c : r1.committed_blocks =
                (s.replica rid).committed_blocks := hf.1
            show ((s.replicas.set rid r1).getD i
              (ReplicaSt.init 0 0 0)).committed_blocks = []
            rw [getD_set_proj ReplicaSt.committed_blocks s.replicas rid r1
              (ReplicaSt.init 0 0 0) hr1c i]
            exact hP i

/-- Delivery of a single message preserves the committed-empty
invariant. -/
theorem engine_deliver_one_ce (S : Streams) (rid : Nat) (m : Msg)
    (acc acc1 : EngineSt × Option Event)
    (h : engine_deliver_one S rid m acc = .ok acc1)
    (hP : replicas_committed_empty acc.1) : replicas_committed_empty acc1.1 := by
  unfold engine_deliver_one at h
  dsimp only at h
  split at h
  · exact absurd h (by simp)
  · rename_i r1 c1 mevs heq
    have hf := replica_handle_message_frame S _ m _ _ _ _ _ heq
    split at h
    · exact absurd h (by simp)
    · rename_i s2 heq2
      simp only [Except.ok.injEq] at h
      have h1 : replicas_committed_empty
          { (acc.1.with_ctx c1) with
            replicas := acc.1.replicas.set rid r1
            event_history := acc.1.event_history ++
              [Event.MESSAGE_RECEIVE acc.1.clock rid m.sender_id
                m.message_type m.message_id] } :=
        committed_empty_set acc.1 _ rid r1 rfl hf.1 hP
      have h2 : replicas_committed_empty s2 := by
        refine foldlM_except_inv
          (Q := fun (st : EngineSt) => replicas_committed_empty st) ?_ _ _ _
          h1 heq2
        intro b a b1 hq hfa
        unfold engine_commit_step at hfa
        dsimp only at hfa
        split at hfa
        · exact engine_on_block_committed_ce S _ rid b1 hfa (fun j => hq j)
        · simp only [Except.ok.injEq] at hfa
          rw [← hfa]
          exact hq
      rw [← h]
      exact h2

/-- Per-replica drain preserves the committed-empty invariant. -/
theorem engine_deliver_replica_ce (S : Streams) (rid : Nat)
    (acc acc1 : EngineSt × Option Event)
    (h : engine_deliver_replica S rid acc = .ok acc1)
    (hP : replicas_committed_empty acc.1) : replicas_committed_empty acc1.1 := by
  unfold engine_deliver_replica at h
  dsimp only at h
  refine foldlM_except_inv
    (Q := fun (a : EngineSt × Option Event) => replicas_committed_empty a.1)
    ?_ _ _ _ ?_ h
  · intro b a b1 hq hf
    exact engine_deliver_one_ce S rid a b b1 hf hq
  · intro i
    exact hP i

/-- The message-delivery step preserves the committed-empty invariant. -/
theorem engine_process_message_delivery_ce (S : Streams) (s : EngineSt)
    (t : Int) (ev : Option Event) (s1 : EngineSt)
    (h : engine_process_message_delivery S s t = .ok (ev, s1))
    (hP : replicas_committed_empty s) : replicas_committed_empty s1 := by
  unfold engine_process_message_delivery at h
  dsimp only at h
  split at h
  · exact absurd h (by simp)
  · split at h
    · exact absurd h (by simp)
    · rename_i s2 ev2 heq
      simp only [Except.ok.injEq, Prod.mk.injEq] at h
      have hfold : replicas_committed_empty s2 := by
        refine foldlM_except_inv
          (Q := fun (a : EngineSt × Option Event) =>
            replicas_committed_empty a.1) ?_ _ _ _ ?_ heq
        · intro b a b1 hq hf
          exact engine_deliver_replica_ce S a b b1 hf hq
        · intro i
          exact hP i
      rw [← h.2]
      exact hfold

/-- Timeout handling preserves the committed-empty invariant. -/
theorem engine_handle_timeout_ce (S : Streams) (s : EngineSt) (ev : SchedEv)
    (oe : Option Event) (s1 : EngineSt)
    (h : engine_handle_timeout S s ev = .ok (oe, s1))
    (hP : replicas_committed_empty s) : replicas_committed_empty s1 := by
  unfold engine_handle_timeout at h
  dsimp only at h
  split at h
  · simp only [Except.ok.injEq, Prod.mk.injEq] at h
    rw [← h.2]
    exact hP
  · split at h
    · exact absurd h (by simp)
    · rename_i r1 c1 evs heq
      simp only [Except.ok.injEq, Prod.mk.injEq] at h
      have hf := replica_start_view_spec S _ _ _ _ _ _ _ heq
      rw [← h.2]
      intro i
      exact committed_empty_set _ _ ev.replica_id r1 rfl hf.1
        (fun j => hP j) i

/-- The scheduled-event step preserves the committed-empty invariant. -/
theorem engine_process_scheduled_ce (S : Streams) (s : EngineSt)
    (oe : Option Event) (s1 : EngineSt)
    (h : engine_process_scheduled S s = .ok (oe, s1))
    (hP : replicas_committed_empty s) : replicas_committed_empty s1 := by
  unfold engine_process_scheduled at h
  split at h
  · simp only [Except.ok.injEq, Prod.mk.injEq] at h
    rw [← h.2]
    exact hP
  · split at h
    · exact absurd h (by simp)
    · exact engine_handle_timeout_ce S _ _ oe s1 h (fun i => hP i)

/-- The step loop preserves the committed-empty invariant. -/
theorem engine_step_loop_ce (S : Streams) :
    ∀ (fuel : Nat) (s : EngineSt) (oe : Option Event) (s1 : EngineSt),
    engine_step_loop S fuel s = .ok (oe, s1) →
    replicas_committed_empty s → replicas_committed_empty s1 := by
  intro fuel
  induction fuel with
  | zero =>
      intro s oe s1 h hP
      simp only [engine_step_loop, Except.ok.injEq, Prod.mk.injEq] at h
      rw [← h.2]
      exact hP
  | succ n ih =>
      intro s oe s1 h hP
      unfold engine_step_loop at h
      by_cases h1 : s.network.next_delivery_time < 0 ∧ s.peek_time = none
      · rw [if_pos h1] at h
        simp only [Except.ok.injEq, Prod.mk.injEq] at h
        rw [← h.2]
        exact hP
      · rw [if_neg h1] at h
        by_cases h2 : 0 ≤ s.network.next_delivery_time ∧
            (s.peek_time = none ∨
              ∃ t, s.peek_time = some t ∧ s.network.next_delivery_time ≤ t)
        · rw [if_pos h2] at h
          cases hm : engine_process_message_delivery S s
              s.network.next_delivery_time with
          | error e => rw [hm] at h; exact absurd h (by simp)
          | ok p =>
              obtain ⟨pe, ps⟩ := p
              rw [hm] at h
              cases pe with
              | some ev0 =>
                  simp only [Except.ok.injEq, Prod.mk.injEq] at h
                  have hps := engine_process_message_delivery_ce S s _ _ _ hm hP
                  rw [← h.2]
                  exact hps
              | none =>
                  have hps := engine_process_message_delivery_ce S s _ _ _ hm hP
                  exact ih ps oe s1 h hps
        · rw [if_neg h2] at h
          cases hp : s.peek_time with
          | none =>
              rw [hp] at h
              simp only [Except.ok.injEq, Prod.mk.injEq] at h
              rw [← h.2]
              exact hP
          | some tv =>
              rw [hp] at h
              cases hs : engine_process_scheduled S s with
              | error e => rw [hs] at h; exact absurd h (by simp)
              | ok p =>
                  obtain ⟨pe, ps⟩ := p
                  rw [hs] at h
                  cases pe with
                  | some ev0 =>
                      simp only [Except.ok.injEq, Prod.mk.injEq] at h
                      have hps := engine_process_scheduled_ce S s _ _ hs hP
                      rw [← h.2]
                      exact hps
                  | none =>
                      have hps := engine_process_scheduled_ce S s _ _ hs hP
                      exact ih ps oe s1 h hps

/-- A successful `step` preserves the committed-empty invariant. -/
theorem engine_step_ce (S : Streams) (s : EngineSt) (oe : Option Event)
    (s1 : EngineSt) (h : engine_step S s = .ok (oe, s1))
    (hP : replicas_committed_empty s) : replicas_committed_empty s1 := by
  unfold engine_step at h
  split at h
  · simp only [Except.ok.injEq, Prod.mk.injEq] at h
    rw [← h.2]
    exact hP
  · exact engine_step_loop_ce S 100 s oe s1 h hP

/-- Every reachable engine state has every committed list empty: the only
two code paths that extend a replica's committed bookkeeping
(`_handle_commit_vote` and `_handle_decide`) unconditionally raise
`AttributeError` before completing, so no step that would commit ever
returns. -/
theorem reachable_committed_empty (S : Streams) (cfg : EngineConfig)
    (s : EngineSt) (h : EngineReachable S cfg s) :
    replicas_committed_empty s := by
  induction h with
  | init => exact engine_init_committed_empty cfg
  | start s evs s1 _ hstep ih => exact engine_start_ce S s evs s1 hstep ih
  | step s ev s1 _ hstep ih => exact engine_step_ce S s ev s1 hstep ih
  | inject s rid k _ ih =>
      intro i
      unfold engine_inject_fault
      split
      · dsimp only
        split
        · exact committed_empty_set_pointwise s.replicas rid
            (fun j => ih j) _ (by rfl) i
        · exact committed_empty_set_pointwise s.replicas rid
            (fun j => ih j) _ (by rfl) i
      · exact ih i
  | clear s rid _ ih =>
      intro i
      unfold engine_clear_fault
      split
      · exact committed_empty_set_pointwise s.replicas rid
          (fun j => ih j) _ (by rfl) i
      · exact ih i
  | pause s _ ih => intro i; exact ih i
  | resume s _ ih => intro i; exact ih i

/-! Claim theorems. -/

/-- C1: agreement on the committed prefix — in every reachable state of
the simulation (any configuration, any sequence of API calls including
fault injection of Byzantine kinds, under arbitrary network-delay,
message-id and drop-coin streams), any two blocks committed by any two
replicas at the same height have equal hash.  The invariant behind the
proof is that every reachable state has every committed list empty: both
code paths that append to a replica's committed bookkeeping raise
`AttributeError` (see the C2 theorem), so no commit is ever recorded. -/
theorem agreement_committed_prefix (S : Streams) (cfg : EngineConfig)
    (s : EngineSt) (h : EngineReachable S cfg s) : engine_agreement s := by
  intro rid rid2 hgt b b2 hb _
  have hP := reachable_committed_empty S cfg s h
  have hmem := hb.1
  rw [hP rid] at hmem
  exact absurd hmem (by simp)

/-- C1 witness: the freshly constructed four-replica engine is reachable
and satisfies agreement. -/
theorem agreement_committed_prefix_witness :
    EngineReachable streams_lo cfg_basic (engine_init cfg_basic) ∧
    engine_agreement (engine_init cfg_basic) :=
  ⟨.init, agreement_committed_prefix streams_lo cfg_basic _ .init⟩

/-- C8 counterexample: with `alpha = 1/2`, `current_timeout = 1000 ms`,
bounds `[500, 5000]` and a successful view of 1 ms, the EMA target is
`750.75 ms`; the code's `int(...)` truncates to 750 while the claimed
round-to-nearest gives 751, so `on_view_success` does not implement
`clamp(round(1.5 * ema), min, max)`. -/
theorem adaptive_success_round_counterexample :
    ((AdaptiveSt.init 1000 (1 / 2) 500 5000).on_view_success 1).current_timeout_ms
      = 750 ∧
    claimed_success_timeout (1 / 2) 1000 500 5000 1 = 751 := by
  constructor
  · unfold AdaptiveSt.on_view_success AdaptiveSt.init pyInt
    norm_num [rat_floor_eq_floor, max_def, min_def]
  · unfold claimed_success_timeout round_nearest
    norm_num [max_def, min_def]

/-- C8 as amended: `on_view_success(v, d)` zeroes `consecutive_timeouts`
and sets `current_timeout` to `clamp(trunc(1.5 * ema), min, max)` where
`ema = alpha * d + (1 - alpha) * current_timeout` and `trunc` is Python
`int(...)` truncation toward zero (the code clamps before truncating,
which is the same because the bounds are integers); the view, timer and
start-time fields are untouched. -/
theorem adaptive_success_truncation (p : AdaptiveSt) (duration_ms : Int) :
    (p.on_view_success duration_ms).consecutive_timeouts = 0 ∧
    (p.on_view_success duration_ms).current_timeout_ms =
      max p.min_timeout_ms
        (min
          (pyInt ((3 / 2) *
            (p.alpha * (duration_ms : ℚ) +
              (1 - p.alpha) * (p.current_timeout_ms : ℚ))))
          p.max_timeout_ms) ∧
    (p.on_view_success duration_ms).current_view = p.current_view ∧
    (p.on_view_success duration_ms).timer_active = p.timer_active ∧
    (p.on_view_success duration_ms).timeout_time = p.timeout_time ∧
    (p.on_view_success duration_ms).view_start_time = p.view_start_time := by
  refine ⟨rfl, ?_, rfl, rfl, rfl, rfl⟩
  show pyInt (max (p.min_timeout_ms : ℚ)
      (min ((p.alpha * (duration_ms : ℚ) +
        (1 - p.alpha) * (p.current_timeout_ms : ℚ)) * (3 / 2))
        (p.max_timeout_ms : ℚ))) = _
  rw [pyInt_max, pyInt_min, pyInt_intCast, pyInt_intCast]
  ring_nf

/-- C9 counterexample: `Settings(num_replicas := 4, num_faulty := 3)`
(all other fields at their defaults) violates the claimed constraint
`num_faulty ≤ (num_replicas - 1) / 3` yet passes construction:
the fault-tolerance bound is only checked by the separate
`validate_fault_tolerance` method, never at construction. -/
theorem settings_validation_counterexample :
    settings_validate settings_f3 = true ∧
    claimed_settings_valid settings_f3 = false ∧
    settings_f3.validate_fault_tolerance = false := by
  refine ⟨?_, ?_, ?_⟩
  · norm_num [settings_validate, settings_f3, Bool.and_eq_true,
      decide_eq_true_eq]
  · have h : decide (settings_f3.num_faulty ≤
        (settings_f3.num_replicas - 1) / 3) = false := by decide
    simp [claimed_settings_valid, h]
  · decide

/-- C9 as amended: construction accepts exactly the configurations with
`num_replicas ∈ [4, 100]`, `(num_replicas - 1)` divisible by 3,
`num_faulty ≥ 0`, positive `base_timeout_ms`, non-negative minimum and
positive maximum network delay, `simulation_speed ∈ (0, 100]`, positive
`max_views`, `adaptive_alpha ∈ (0, 1)`, positive adaptive bounds and a
valid UI port; neither `num_faulty ≤ (num_replicas - 1) / 3` nor
`adaptive_min_timeout_ms ≤ adaptive_max_timeout_ms` is enforced. -/
theorem settings_validation_characterization (s : SettingsIn) :
    settings_validate s = true ↔
      (4 ≤ s.num_replicas ∧ s.num_replicas ≤ 100 ∧
       (s.num_replicas - 1) % 3 = 0 ∧
       0 ≤ s.num_faulty ∧
       0 < s.base_timeout_ms ∧
       0 ≤ s.network_delay_min_ms ∧ 0 < s.network_delay_max_ms ∧
       0 < s.simulation_speed ∧ s.simulation_speed ≤ 100 ∧
       0 < s.max_views ∧
       0 < s.adaptive_alpha ∧ s.adaptive_alpha < 1 ∧
       0 < s.adaptive_min_timeout_ms ∧ 0 < s.adaptive_max_timeout_ms ∧
       0 < s.ui_port ∧ s.ui_port < 65536) := by
  simp [settings_validate, Bool.and_eq_true, decide_eq_true_eq, and_assoc]

/-- C3: the safe-node predicate returns safe exactly when there is no
locked QC, or the block extends the locked block (the parent walk with
its visited-set cycle guard), or a justify QC is present with view
strictly above the locked view; in every other case it is unsafe. -/
theorem safe_node_characterization (reg : BlockRegistry) (block : Block)
    (justify_qc locked_qc : Option QuorumCertificate) :
    is_safe_node reg block justify_qc locked_qc = true ↔
      (locked_qc = none ∨
       ∃ lqc, locked_qc = some lqc ∧
         (extends_from reg block lqc.block_hash = true ∨
          ∃ jqc, justify_qc = some jqc ∧ lqc.view_number < jqc.view_number)) := by
  cases locked_qc with
  | none => simp [is_safe_node]
  | some lqc =>
      cases justify_qc with
      | none =>
          by_cases hx : extends_from reg block lqc.block_hash <;>
            simp [is_safe_node, hx]
      | some jqc =>
          by_cases hx : extends_from reg block lqc.block_hash <;>
            simp [is_safe_node, hx, Nat.lt_iff_add_one_le]

/-- C3 witness: concrete instances of both directions — a fresh replica
(no lock) accepts any block, and with a lock at view 5 a non-extending
block justified at view 0 is rejected. -/
theorem safe_node_characterization_witness :
    is_safe_node [(genesis_block.block_hash, genesis_block)] block_a none none
        = true ∧
    is_safe_node [] block_a (some (qc_fix .PREPARE_VOTE 0 block_a.block_hash))
        (some (qc_fix .PRE_COMMIT_VOTE 5 block_a.block_hash)) = false := by
  constructor
  · exact (safe_node_characterization _ _ _ _).mpr (Or.inl rfl)
  · have h := safe_node_characterization []
      block_a (some (qc_fix .PREPARE_VOTE 0 block_a.block_hash))
      (some (qc_fix .PRE_COMMIT_VOTE 5 block_a.block_hash))
    revert h
    decide

/-- C10: a `step()` on an engine that has not been started returns `None`
and leaves the whole engine state (clock, scheduler, network, replicas,
history) untouched. -/
theorem step_not_running_noop (S : Streams) (s : EngineSt)
    (h : s.is_running = false) : engine_step S s = .ok (none, s) := by
  unfold engine_step
  rw [h]
  simp

/-- C10 witness: a freshly constructed engine has `is_running = false`
and stepping it is a no-op. -/
theorem step_not_running_noop_witness :
    (engine_init cfg_basic).is_running = false ∧
    engine_step streams_lo (engine_init cfg_basic) =
      .ok (none, engine_init cfg_basic) :=
  ⟨rfl, step_not_running_noop streams_lo (engine_init cfg_basic) rfl⟩

/-- C2 (code bug): the branch walk `_execute_branch` itself commits the
height-1 block with its COMMIT event, but the wrapper
`Replica._handle_decide` binds the returned `List[Block]` to a variable
treated as one block and `committed_block.block_hash` raises
`AttributeError` on the list, so handling any DECIDE message aborts the
step instead of appending the blocks in ascending height order. -/
theorem decide_commit_append_raises :
    execute_branch replica_c2.block_store [] 0 block_a 60 =
      ([Event.COMMIT 0 block_a.block_hash 1 60], [block_a]) ∧
    replica_handle_message streams_lo replica_c2 decide_msg_c2 60 ctx_fix =
      .error (.attributeError "list object has no attribute block_hash") := by
  constructor
  · decide
  · rfl

/-- C6 counterexample: in a state where replica 0 is still in view 1
while the aggregate `current_view` high-water mark is 2,
`_on_block_committed` returns immediately — no `on_view_success`, no
timer stop, no `start_view`, no new timeout — so the per-replica
post-commit advance is gated by the aggregate view. -/
theorem post_commit_gate_counterexample :
    (engine_c6.replica 0).current_view = 1 ∧
    engine_c6.current_view = 2 ∧
    engine_on_block_committed streams_lo engine_c6 0 = .ok engine_c6 := by
  refine ⟨by decide, by decide, ?_⟩
  rfl

/-- C6 as amended: `_on_block_committed` skips everything when the
committing replica's view `v` is below the engine aggregate
`current_view`; when `v` is at least the aggregate and `v` has a recorded
start time, the engine notifies that replica's pacemaker with
`on_view_success(now - view_start_times[v])` and stops its timer, starts
view `v + 1` on the replica (its view becomes `v + 1` unless it is
CRASH-faulted), and schedules a new timeout at the restarted timer's
deadline. -/
theorem post_commit_advance_characterization (S : Streams) (s : EngineSt)
    (rid : Nat) (s4 : EngineSt)
    (hok : engine_on_block_committed S s rid = .ok s4) :
    ((s.replica rid).current_view < s.current_view → s4 = s) ∧
    (∀ started, s.current_view ≤ (s.replica rid).current_view →
      alist_get s.view_start_times (s.replica rid).current_view =
        some started →
      rid < s.pacemakers.length → rid < s.replicas.length →
      (s4.pacemaker rid =
        ((((s.pacemaker rid).on_view_success
          (s.clock - started)).stop_timer).start_timer
            ((s.replica rid).current_view + 1) s.clock).2 ∧
       (¬((s.replica rid).is_faulty ∧ (s.replica rid).fault_type = .CRASH) →
         (s4.replica rid).current_view = (s.replica rid).current_view + 1) ∧
       (∃ seq,
         (((((s.pacemaker rid).on_view_success
             (s.clock - started)).stop_timer).start_timer
               ((s.replica rid).current_view + 1) s.clock).1, seq,
          ({ replica_id := rid, view := (s.replica rid).current_view + 1
             timeout_time :=
               ((((s.pacemaker rid).on_view_success
                 (s.clock - started)).stop_timer).start_timer
                   ((s.replica rid).current_view + 1) s.clock).1 } : SchedEv))
           ∈ s4.sched_queue))) := by
  constructor
  · intro hlt
    unfold engine_on_block_committed at hok
    dsimp only at hok
    rw [if_pos hlt] at hok
    exact (Except.ok.inj hok).symm
  · intro started hge halist hplen hrlen
    unfold engine_on_block_committed at hok
    dsimp only at hok
    rw [if_neg (not_lt.mpr hge), halist] at hok
    dsimp only at hok
    rw [if_pos (lt_of_le_of_lt hge (Nat.lt_succ_self _))] at hok
    split at hok
    · exact absurd hok (by simp)
    · rename_i r1 c1 evs heq
      simp only [Except.ok.injEq] at hok
      have hf := replica_start_view_spec S _ _ _ _ _ _ _ heq
      have hp1 : ((s.pacemakers.set rid
          (((s.pacemaker rid).on_view_success
            (s.clock - started)).stop_timer)).getD rid
          (Pacemaker.base (BaseSt.init 0))) =
          (((s.pacemaker rid).on_view_success
            (s.clock - started)).stop_timer) :=
        getD_set_self _ _ _ _ hplen
      subst hok
      dsimp only [EngineSt.pacemaker, EngineSt.replica, EngineSt.with_ctx,
        EngineSt.schedule]
      dsimp only [EngineSt.pacemaker] at hp1
      rw [hp1]
      refine ⟨?_, ?_, ?_⟩
      · exact getD_set_self _ _ _ _
          (by rw [List.length_set]; exact hplen)
      · intro hnc
        rw [getD_set_self _ _ _ _ hrlen]
        exact hf.2.2.2.2.2.2 hnc
      · exact ⟨_, pq_insert_mem _ _⟩

theorem post_commit_advance_characterization_witness :
    ∃ s4, engine_on_block_committed streams_lo engine_c6b 0 = .ok s4 ∧
      (s4.replica 0).current_view = 2 := by
  obtain ⟨s4, hok⟩ : ∃ s4,
      engine_on_block_committed streams_lo engine_c6b 0 = .ok s4 := ⟨_, rfl⟩
  have h := (post_commit_advance_characterization streams_lo engine_c6b 0 s4
      hok).2 0 (by decide) (by decide) (by decide) (by decide)
  exact ⟨s4, hok, by rw [h.2.1 (by decide)]; decide⟩

/-- Provenance of the QC returned by the PRE_COMMIT_VOTE handler: it is
exactly the QC formed by feeding the vote to the collector. -/
theorem handler_handle_precommit_vote_qc (S : Streams) (r : ReplicaSt)
    (vt : VoteMsg) (v : Nat) (lead : Bool) (t : Int) (c : Ctx) (r1 : ReplicaSt)
    (c1 : Ctx) (evs : List Event) (q : QuorumCertificate)
    (ph : Option PhaseType)
    (h : handler_handle_precommit_vote S r vt v lead t c =
      .ok (r1, c1, evs, some q, ph)) :
    ∃ col, r.collector.add_vote vt = .ok (some q, col) := by
  unfold handler_handle_precommit_vote at h
  split at h
  · exact absurd h (by simp)
  · split at h
    · exact absurd h (by simp)
    · exact absurd h (by simp)
    · rename_i qc col heq
      dsimp only at h
      split at h
      · exact absurd h (by simp)
      · split at h
        · exact absurd h (by simp)
        · simp only [Except.ok.injEq, Prod.mk.injEq] at h
          obtain ⟨-, -, -, hq, -⟩ := h
          rw [Option.some.inj hq] at heq
          exact ⟨col, heq⟩

/-- Conditional lock monotonicity across the dispatch body of
`Replica.handle_message`: the locked view does not decrease provided a
COMMIT message carries a QC of at least the locked view and a QC formed
from the dispatched PRE_COMMIT_VOTE has at least the locked view. -/
theorem replica_dispatch_locked_mono (S : Streams) (r : ReplicaSt) (m : Msg)
    (t : Int) (c : Ctx) (r1 : ReplicaSt) (c1 : Ctx) (evs : List Event)
    (h : replica_dispatch_message S r m t c = .ok (r1, c1, evs))
    (hcommit : ∀ qc, m.body = .commitMsg qc →
      locked_view r.locked_qc ≤ qc.view_number)
    (hpcv : ∀ bh psig q col, m.body = .preCommitVote bh psig →
      r.collector.add_vote (m.toVote bh psig) = .ok (some q, col) →
      locked_view r.locked_qc ≤ q.view_number) :
    locked_view r.locked_qc ≤ locked_view r1.locked_qc := by
  unfold replica_dispatch_message at h
  split at h
  · simp only [Except.ok.injEq, Prod.mk.injEq] at h
    obtain ⟨hr, -⟩ := h
    subst hr
    exact le_refl _
  · split at h
    · split at h
      · exact absurd h (by simp)
      · rename_i hh
        have hf := handler_handle_new_view_frame S r m r.current_view
          r.is_leader t c _ _ _ _ _ hh
        split at h <;> split at h <;>
          (simp only [Except.ok.injEq, Prod.mk.injEq] at h
           obtain ⟨hr, -⟩ := h
           subst hr
           simp [hf.2.2.2.2])
    · split at h
      · exact absurd h (by simp)
      · rename_i hh
        have hf := handler_handle_prepare_frame S r _ _ r.current_view
          r.locked_qc r.last_voted_view t c _ _ _ _ _ _ hh
        split at h <;>
          (simp only [Except.ok.injEq, Prod.mk.injEq] at h
           obtain ⟨hr, -⟩ := h
           subst hr
           simp [hf.2.2.2.2])
    · split at h
      · exact absurd h (by simp)
      · rename_i hh
        have hf := handler_handle_prepare_vote_frame S r _ r.current_view
          r.is_leader t c _ _ _ _ _ hh
        split at h <;> split at h <;>
          (simp only [Except.ok.injEq, Prod.mk.injEq] at h
           obtain ⟨hr, -⟩ := h
           subst hr
           simp [hf.2.2.2.2])
    · split at h
      · exact absurd h (by simp)
      · rename_i hh
        have hf := handler_handle_precommit_frame S r _ r.current_view t c
          _ _ _ _ _ hh
        simp only [Except.ok.injEq, Prod.mk.injEq] at h
        obtain ⟨hr, -⟩ := h
        subst hr
        simp [hf]
    · rename_i bh psig hbody
      split at h
      · exact absurd h (by simp)
      · rename_i hh
        split at h <;> split at h <;>
          (simp only [Except.ok.injEq, Prod.mk.injEq] at h
           obtain ⟨hr, -⟩ := h
           subst hr
           first
           | (obtain ⟨col, hadd⟩ := handler_handle_precommit_vote_qc S r _
                r.current_view r.is_leader t c _ _ _ _ _ hh
              simpa [locked_view] using hpcv bh psig _ col hbody hadd)
           | (have hf := handler_handle_precommit_vote_frame S r _
                r.current_view r.is_leader t c _ _ _ _ _ hh
              simp [hf.2.2.2.2]))
    · rename_i pq hbody
      split at h
      · exact absurd h (by simp)
      · rename_i hh
        have hf := handler_handle_commit_frame S r _ r.current_view t c
          _ _ _ _ _ hh
        simp only [Except.ok.injEq, Prod.mk.injEq] at h
        obtain ⟨hr, -⟩ := h
        subst hr
        have hle := hcommit pq hbody
        simpa [locked_view, hf.2] using hle
    · split at h
      · exact absurd h (by simp)
      · exact absurd h (by simp)
    · exact absurd h (by simp)

/-- C7 as amended: the handlers overwrite the lock unconditionally, so
monotonicity is conditional.  Across one handled message the locked view
does not decrease provided every COMMIT message carries a precommit QC of
view at least the locked view and every QC the collector forms from a
PRE_COMMIT_VOTE has view at least the locked view; and starting a view
never changes the lock. -/
theorem locked_qc_conditional_monotonicity :
    (∀ (S : Streams) (r : ReplicaSt) (m : Msg) (t : Int) (c : Ctx)
      (r1 : ReplicaSt) (c1 : Ctx) (evs : List Event),
      replica_handle_message S r m t c = .ok (r1, c1, evs) →
      (∀ qc, m.body = .commitMsg qc →
        locked_view r.locked_qc ≤ qc.view_number) →
      (∀ bh psig q col, m.body = .preCommitVote bh psig →
        r.collector.add_vote (m.toVote bh psig) = .ok (some q, col) →
        locked_view r.locked_qc ≤ q.view_number) →
      locked_view r.locked_qc ≤ locked_view r1.locked_qc) ∧
    (∀ (S : Streams) (r : ReplicaSt) (v : Nat) (t : Int) (c : Ctx)
      (r1 : ReplicaSt) (c1 : Ctx) (evs : List Event),
      replica_start_view S r v t c = .ok (r1, c1, evs) →
      r1.locked_qc = r.locked_qc) := by
  constructor
  · intro S r m t c r1 c1 evs hok hcommit hpcv
    unfold replica_handle_message at hok
    split at hok
    · simp only [Except.ok.injEq, Prod.mk.injEq] at hok
      obtain ⟨hr, -⟩ := hok
      subst hr
      exact le_refl _
    · split at hok
      · split at hok <;>
          (simp only [Except.ok.injEq, Prod.mk.injEq] at hok
           obtain ⟨hr, -⟩ := hok
           subst hr
           exact le_refl _)
      · split at hok
        · dsimp only at hok
          split at hok
          · simp only [Except.ok.injEq, Prod.mk.injEq] at hok
            obtain ⟨hr, -⟩ := hok
            subst hr
            exact le_refl _
          · exact replica_dispatch_locked_mono S r m t _ r1 c1 evs hok
              hcommit hpcv
        · exact replica_dispatch_locked_mono S r m t c r1 c1 evs hok
            hcommit hpcv
  · intro S r v t c r1 c1 evs h
    exact (replica_start_view_spec S r v t c r1 c1 evs h).2.2.2.2.1

theorem locked_qc_conditional_monotonicity_witness :
    ∃ r1 c1 evs r2 c2 evs2,
      replica_handle_message streams_lo replica_c7 commit_msg_c7b 10 ctx_fix =
        .ok (r1, c1, evs) ∧
      locked_view replica_c7.locked_qc ≤ locked_view r1.locked_qc ∧
      replica_start_view streams_lo replica_c7 2 10 ctx_fix =
        .ok (r2, c2, evs2) ∧
      r2.locked_qc = replica_c7.locked_qc := by
  obtain ⟨r1, c1, evs, hok⟩ : ∃ x y z,
      replica_handle_message streams_lo replica_c7 commit_msg_c7b 10 ctx_fix =
        .ok (x, y, z) := ⟨_, _, _, rfl⟩
  obtain ⟨r2, c2, evs2, hok2⟩ : ∃ x y z,
      replica_start_view streams_lo replica_c7 2 10 ctx_fix =
        .ok (x, y, z) := ⟨_, _, _, rfl⟩
  refine ⟨r1, c1, evs, r2, c2, evs2, hok, ?_, hok2, ?_⟩
  · refine locked_qc_conditional_monotonicity.1 streams_lo replica_c7
      commit_msg_c7b 10 ctx_fix r1 c1 evs hok ?_ ?_
    · intro qc hqc
      injection hqc with hq
      rw [← hq]
      decide
    · intro bh psig q col hbody hadd
      simp [commit_msg_c7b] at hbody
  · exact locked_qc_conditional_monotonicity.2 streams_lo replica_c7 2 10
      ctx_fix r2 c2 evs2 hok2

/-- C7 counterexample: a replica locked at view 5 that handles an
in-view COMMIT message carrying a precommit QC of view 0 overwrites its
lock unconditionally, so `locked_qc.view` drops from 5 to 0 across one
handled message. -/
theorem locked_qc_decrease_counterexample :
    locked_view replica_c7.locked_qc = 5 ∧
    (match replica_handle_message streams_lo replica_c7 commit_msg_c7 10
        ctx_fix with
     | .ok (r1, _, _) => locked_view r1.locked_qc
     | .error _ => 99) = 0 := by
  constructor
  · decide
  · rfl


/-- Reading the empty association list. -/
theorem alist_get_nil {α β : Type} [DecidableEq α] (k : α) :
    alist_get ([] : List (α × β)) k = none := rfl

/-- Unfolding `alist_get` over a cons cell. -/
theorem alist_get_cons {α β : Type} [DecidableEq α] (a : α × β)
    (t : List (α × β)) (k : α) :
    alist_get (a :: t) k = if a.1 = k then some a.2 else alist_get t k := by
  by_cases h : a.1 = k
  · simp [alist_get, List.find?_cons, h]
  · simp [alist_get, List.find?_cons, h]

/-- A successful association-list lookup is a membership. -/
theorem alist_get_mem {α β : Type} [DecidableEq α] (l : List (α × β)) (k : α)
    (x : β) (h : alist_get l k = some x) : (k, x) ∈ l := by
  unfold alist_get at h
  cases hf : l.find? (fun kv => kv.1 = k) with
  | none =>
      simp only [hf] at h
      exact absurd h (by simp)
  | some kv =>
      simp only [hf, Option.some.injEq] at h
      have hm := List.mem_of_find?_eq_some hf
      have hp := List.find?_some hf
      simp only [decide_eq_true_eq] at hp
      have hkv : (k, x) = kv := by rw [← hp, ← h]
      rw [hkv]
      exact hm

/-- Reading an association list right after writing the same key. -/
theorem alist_get_set_self {α β : Type} [DecidableEq α] (l : List (α × β))
    (k : α) (x : β) : alist_get (alist_set l k x) k = some x := by
  induction l with
  | nil => simp [alist_set, alist_get_cons]
  | cons a t ih =>
      by_cases h : a.1 = k
      · simp [alist_set, h, alist_get_cons]
      · simp [alist_set, h, alist_get_cons, ih]

/-- Writing one key of an association list leaves the other keys alone. -/
theorem alist_get_set_ne {α β : Type} [DecidableEq α] (l : List (α × β))
    (k k' : α) (x : β) (h : k' ≠ k) :
    alist_get (alist_set l k x) k' = alist_get l k' := by
  induction l with
  | nil => simp [alist_set, alist_get_cons, alist_get_nil, Ne.symm h]
  | cons a t ih =>
      by_cases ha : a.1 = k
      · simp [alist_set, ha, alist_get_cons, Ne.symm h]
      · simp [alist_set, ha, alist_get_cons, ih]

/-- Writing back the value a key already holds is the identity. -/
theorem alist_set_get_self {α β : Type} [DecidableEq α] (l : List (α × β))
    (k : α) (x : β) (h : alist_get l k = some x) : alist_set l k x = l := by
  induction l with
  | nil => rw [alist_get_nil] at h; exact absurd h (by simp)
  | cons a t ih =>
      rw [alist_get_cons] at h
      simp only [alist_set]
      by_cases ha : a.1 = k
      · rw [if_pos ha] at h
        rw [if_pos ha]
        have hx := Option.some.inj h
        have : (k, x) = a := by rw [← ha, ← hx]
        rw [this]
      · rw [if_neg ha] at h
        rw [if_neg ha, ih h]

/-- Every entry of an updated association list is the written pair or an
entry of the original list. -/
theorem mem_alist_set {α β : Type} [DecidableEq α] (l : List (α × β))
    (k : α) (x : β) : ∀ kv ∈ alist_set l k x, kv = (k, x) ∨ kv ∈ l := by
  induction l with
  | nil =>
      intro kv hm
      simp only [alist_set, List.mem_singleton] at hm
      exact Or.inl hm
  | cons a t ih =>
      intro kv hm
      simp only [alist_set] at hm
      by_cases ha : a.1 = k
      · rw [if_pos ha] at hm
        rcases List.mem_cons.mp hm with h1 | h2
        · exact Or.inl h1
        · exact Or.inr (List.mem_cons_of_mem _ h2)
      · rw [if_neg ha] at hm
        rcases List.mem_cons.mp hm with h1 | h2
        · rw [h1]; exact Or.inr (List.mem_cons_self _ _)
        · rcases ih kv h2 with h3 | h4
          · exact Or.inl h3
          · exact Or.inr (List.mem_cons_of_mem _ h4)

/-- Componentwise reading of an equality of vote keys. -/
theorem vote_key_components {u w : VoteMsg} (h : VoteMsg.key u = VoteMsg.key w) :
    u.view_number = w.view_number ∧ u.block_hash = w.block_hash ∧
      u.message_type = w.message_type := by
  unfold VoteMsg.key at h
  simp only [Prod.mk.injEq] at h
  exact h

/-- `create_qc` on a nonempty list of votes sharing one key succeeds and
aggregates exactly the votes' partial signatures under that key. -/
theorem create_qc_of_key (votes : List VoteMsg) (v0 : VoteMsg)
    (hne : votes ≠ [])
    (hk : ∀ u ∈ votes, VoteMsg.key u = VoteMsg.key v0) :
    create_qc votes v0.message_type =
      .ok { qc_type := v0.message_type, view_number := v0.view_number
            block_hash := v0.block_hash
            signatures := votes.map VoteMsg.partial_signature } := by
  cases votes with
  | nil => exact absurd rfl hne
  | cons first rest =>
      have hf := vote_key_components (hk first (List.mem_cons_self _ _))
      have hall1 : ((first :: rest).all
          (fun u => u.block_hash = first.block_hash)) = true := by
        simp only [List.all_eq_true, decide_eq_true_eq]
        intro u hu
        rw [(vote_key_components (hk u hu)).2.1, hf.2.1]
      have hall2 : ((first :: rest).all
          (fun u => u.view_number = first.view_number)) = true := by
        simp only [List.all_eq_true, decide_eq_true_eq]
        intro u hu
        rw [(vote_key_components (hk u hu)).1, hf.1]
      unfold create_qc
      dsimp only
      rw [if_pos hall1, if_pos hall2, hf.1, hf.2.1]

/-- `add_vote` when a QC was already formed for the vote's key: return
nothing and leave the collector unchanged. -/
theorem add_vote_formed_none (s : CollectorSt) (v : VoteMsg)
    (qc0 : QuorumCertificate)
    (h : alist_get s.formed_qcs (VoteMsg.key v) = some qc0) :
    s.add_vote v = .ok (none, s) := by
  unfold CollectorSt.add_vote
  dsimp only
  rw [h]

/-- `add_vote` when the signer already voted for the key: return nothing
and leave the collector unchanged. -/
theorem add_vote_dup (s : CollectorSt) (v : VoteMsg)
    (h1 : alist_get s.formed_qcs (VoteMsg.key v) = none)
    (h2 : v.sender_id ∈ ((alist_get s.votes (VoteMsg.key v)).getD []).map
      VoteMsg.sender_id) :
    s.add_vote v = .ok (none, s) := by
  unfold CollectorSt.add_vote
  dsimp only
  rw [h1]
  dsimp only
  rw [if_pos h2]
  cases hv : alist_get s.votes (VoteMsg.key v) with
  | none => rw [hv] at h2; simp at h2
  | some ex =>
      simp only [Option.getD_some]
      rw [alist_set_get_self _ _ _ hv]

/-- `add_vote` inserting a fresh signer below the quorum: file the vote
and return nothing. -/
theorem add_vote_below_eq (s : CollectorSt) (v : VoteMsg) (ex0 : List VoteMsg)
    (h1 : alist_get s.formed_qcs (VoteMsg.key v) = none)
    (hgd : (alist_get s.votes (VoteMsg.key v)).getD [] = ex0)
    (h2 : v.sender_id ∉ ex0.map VoteMsg.sender_id)
    (hq : ¬ s.quorum_size ≤ (ex0 ++ [v]).length) :
    s.add_vote v = .ok (none, { s with
      votes := alist_set s.votes (VoteMsg.key v) (ex0 ++ [v]) }) := by
  unfold CollectorSt.add_vote
  dsimp only
  rw [h1]
  dsimp only
  rw [hgd, if_neg h2, if_neg hq]

/-- `add_vote` inserting a fresh signer that reaches the quorum: file the
vote, form the QC over all collected signatures, record and return it. -/
theorem add_vote_quorum_eq (s : CollectorSt) (v : VoteMsg) (ex0 : List VoteMsg)
    (h1 : alist_get s.formed_qcs (VoteMsg.key v) = none)
    (hgd : (alist_get s.votes (VoteMsg.key v)).getD [] = ex0)
    (h2 : v.sender_id ∉ ex0.map VoteMsg.sender_id)
    (hall : ∀ u ∈ ex0, VoteMsg.key u = VoteMsg.key v)
    (hq : s.quorum_size ≤ (ex0 ++ [v]).length) :
    s.add_vote v = .ok (some
      { qc_type := v.message_type, view_number := v.view_number
        block_hash := v.block_hash
        signatures := (ex0 ++ [v]).map VoteMsg.partial_signature },
      { s with
          votes := alist_set s.votes (VoteMsg.key v) (ex0 ++ [v])
          formed_qcs := alist_set s.formed_qcs (VoteMsg.key v)
            { qc_type := v.message_type, view_number := v.view_number
              block_hash := v.block_hash
              signatures := (ex0 ++ [v]).map VoteMsg.partial_signature } }) := by
  have hcq := create_qc_of_key (ex0 ++ [v]) v (by simp)
    (by intro u hu
        rcases List.mem_append.mp hu with hu1 | hu2
        · exact hall u hu1
        · rw [List.mem_singleton.mp hu2])
  unfold CollectorSt.add_vote
  dsimp only
  rw [h1]
  dsimp only
  rw [hgd, if_neg h2, if_pos hq, hcq]

/-- The collected entry for a key without a formed QC, together with the
invariant facts about it. -/
theorem collector_entry (s : CollectorSt) (v : VoteMsg)
    (hinv : collector_inv s)
    (h1 : alist_get s.formed_qcs (VoteMsg.key v) = none) :
    ∃ ex0, (alist_get s.votes (VoteMsg.key v)).getD [] = ex0 ∧
      (∀ u ∈ ex0, VoteMsg.key u = VoteMsg.key v ∧ wf_vote u) ∧
      (ex0.map VoteMsg.sender_id).Nodup ∧
      ex0.length < s.quorum_size := by
  cases hv : alist_get s.votes (VoteMsg.key v) with
  | none =>
      exact ⟨[], rfl, by simp, by simp,
        lt_of_lt_of_le Nat.zero_lt_one hinv.1⟩
  | some ex1 =>
      have hmem := alist_get_mem _ _ _ hv
      exact ⟨ex1, rfl,
        fun u hu => hinv.2.1 _ hmem u hu,
        hinv.2.2.1 _ hmem,
        hinv.2.2.2 _ hmem h1⟩

/-- Signer list of the extended entry stays duplicate-free. -/
theorem extended_senders_nodup (ex0 : List VoteMsg) (v : VoteMsg)
    (hnodup : (ex0.map VoteMsg.sender_id).Nodup)
    (h2 : v.sender_id ∉ ex0.map VoteMsg.sender_id) :
    ((ex0 ++ [v]).map VoteMsg.sender_id).Nodup := by
  rw [List.map_append]
  refine List.Nodup.append hnodup (List.nodup_singleton _) ?_
  intro a ha hb
  simp only [List.map_cons, List.map_nil, List.mem_singleton] at hb
  rw [hb] at ha
  exact h2 ha

/-- `add_vote` preserves the collector invariant. -/
theorem add_vote_inv (s : CollectorSt) (v : VoteMsg)
    (o : Option QuorumCertificate) (s1 : CollectorSt)
    (hinv : collector_inv s) (hwf : wf_vote v)
    (hadd : s.add_vote v = .ok (o, s1)) : collector_inv s1 := by
  cases hf : alist_get s.formed_qcs (VoteMsg.key v) with
  | some qc0 =>
      rw [add_vote_formed_none s v qc0 hf] at hadd
      simp only [Except.ok.injEq, Prod.mk.injEq] at hadd
      rw [← hadd.2]
      exact hinv
  | none =>
      obtain ⟨ex0, hgd, hall, hnodup, hlt⟩ := collector_entry s v hinv hf
      by_cases hdup : v.sender_id ∈ ex0.map VoteMsg.sender_id
      · rw [add_vote_dup s v hf (by rw [hgd]; exact hdup)] at hadd
        simp only [Except.ok.injEq, Prod.mk.injEq] at hadd
        rw [← hadd.2]
        exact hinv
      · have hwfall : ∀ u ∈ ex0 ++ [v],
            VoteMsg.key u = VoteMsg.key v ∧ wf_vote u := by
          intro u hu
          rcases List.mem_append.mp hu with h | h
          · exact hall u h
          · rw [List.mem_singleton.mp h]; exact ⟨rfl, hwf⟩
        have hnodup2 := extended_senders_nodup ex0 v hnodup hdup
        by_cases hq : s.quorum_size ≤ (ex0 ++ [v]).length
        · rw [add_vote_quorum_eq s v ex0 hf hgd hdup
            (fun u hu => (hall u hu).1) hq] at hadd
          simp only [Except.ok.injEq, Prod.mk.injEq] at hadd
          rw [← hadd.2]
          refine ⟨hinv.1, ?_, ?_, ?_⟩
          · intro kv hm u hu
            rcases mem_alist_set _ _ _ kv hm with hkv | hkv
            · rw [hkv] at hu ⊢
              exact hwfall u hu
            · exact hinv.2.1 kv hkv u hu
          · intro kv hm
            rcases mem_alist_set _ _ _ kv hm with hkv | hkv
            · rw [hkv]
              exact hnodup2
            · exact hinv.2.2.1 kv hkv
          · intro kv hm hforme
            rcases mem_alist_set _ _ _ kv hm with hkv | hkv
            · rw [hkv] at hforme
              rw [alist_get_set_self] at hforme
              exact absurd hforme (by simp)
            · by_cases hk1 : kv.1 = VoteMsg.key v
              · rw [hk1, alist_get_set_self] at hforme
                exact absurd hforme (by simp)
              · rw [alist_get_set_ne _ _ _ _ hk1] at hforme
                exact hinv.2.2.2 kv hkv hforme
        · rw [add_vote_below_eq s v ex0 hf hgd hdup hq] at hadd
          simp only [Except.ok.injEq, Prod.mk.injEq] at hadd
          rw [← hadd.2]
          refine ⟨hinv.1, ?_, ?_, ?_⟩
          · intro kv hm u hu
            rcases mem_alist_set _ _ _ kv hm with hkv | hkv
            · rw [hkv] at hu ⊢
              exact hwfall u hu
            · exact hinv.2.1 kv hkv u hu
          · intro kv hm
            rcases mem_alist_set _ _ _ kv hm with hkv | hkv
            · rw [hkv]
              exact hnodup2
            · exact hinv.2.2.1 kv hkv
          · intro kv hm hforme
            rcases mem_alist_set _ _ _ kv hm with hkv | hkv
            · rw [hkv]
              exact not_le.mp hq
            · exact hinv.2.2.2 kv hkv hforme

/-- A fresh collector with a positive quorum satisfies the invariant. -/
theorem collector_init_inv (q : Nat) (h : 1 ≤ q) :
    collector_inv (CollectorSt.init q) :=
  ⟨h, fun kv hm => absurd hm (by simp [CollectorSt.init]),
    fun kv hm => absurd hm (by simp [CollectorSt.init]),
    fun kv hm => absurd hm (by simp [CollectorSt.init])⟩

/-- `add_vote` never erases a formed QC. -/
theorem add_vote_formed_mono (s : CollectorSt) (v : VoteMsg) (k : VoteKey)
    (qc0 : QuorumCertificate) (o : Option QuorumCertificate) (s1 : CollectorSt)
    (hk : alist_get s.formed_qcs k = some qc0)
    (hadd : s.add_vote v = .ok (o, s1)) :
    ∃ qc1, alist_get s1.formed_qcs k = some qc1 := by
  unfold CollectorSt.add_vote at hadd
  dsimp only at hadd
  split at hadd
  · simp only [Except.ok.injEq, Prod.mk.injEq] at hadd
    rw [← hadd.2]
    exact ⟨qc0, hk⟩
  · split at hadd
    · simp only [Except.ok.injEq, Prod.mk.injEq] at hadd
      rw [← hadd.2]
      exact ⟨qc0, hk⟩
    · split at hadd
      · split at hadd
        · simp only [Except.ok.injEq, Prod.mk.injEq] at hadd
          rw [← hadd.2]
          by_cases hkk : k = VoteMsg.key v
          · rw [hkk]
            exact ⟨_, alist_get_set_self _ _ _⟩
          · rw [alist_get_set_ne _ _ _ _ hkk]
            exact ⟨qc0, hk⟩
        · exact absurd hadd (by simp)
      · simp only [Except.ok.injEq, Prod.mk.injEq] at hadd
        rw [← hadd.2]
        exact ⟨qc0, hk⟩

/-- Once a QC is formed for a key, no later `add_vote` emits one for it. -/
theorem emit_count_zero_of_formed (k : VoteKey) (vs : List VoteMsg) :
    ∀ (s : CollectorSt) (qc0 : QuorumCertificate),
      alist_get s.formed_qcs k = some qc0 → emit_count k s vs = 0 := by
  induction vs with
  | nil => intro s qc0 h; rfl
  | cons v rest ih =>
      intro s qc0 h
      unfold emit_count
      cases hadd : s.add_vote v with
      | error e => rfl
      | ok p =>
          obtain ⟨o, s1⟩ := p
          cases o with
          | none =>
              obtain ⟨qc1, h1⟩ := add_vote_formed_mono s v k qc0 none s1 h hadd
              exact ih s1 qc1 h1
          | some qc =>
              by_cases hk : VoteMsg.key v = k
              · exfalso
                rw [← hk] at h
                rw [add_vote_formed_none s v qc0 h] at hadd
                simp at hadd
              · obtain ⟨qc1, h1⟩ :=
                  add_vote_formed_mono s v k qc0 (some qc) s1 h hadd
                show (if VoteMsg.key v = k then 1 else 0) +
                  emit_count k s1 rest = 0
                rw [if_neg hk, Nat.zero_add]
                exact ih s1 qc1 h1

/-- The QC returned by a successful emitting `add_vote` is recorded under
the vote's key. -/
theorem add_vote_some_formed (s : CollectorSt) (v : VoteMsg)
    (qc : QuorumCertificate) (s1 : CollectorSt)
    (hadd : s.add_vote v = .ok (some qc, s1)) :
    alist_get s1.formed_qcs (VoteMsg.key v) = some qc := by
  unfold CollectorSt.add_vote at hadd
  dsimp only at hadd
  split at hadd
  · exact absurd hadd (by simp)
  · split at hadd
    · exact absurd hadd (by simp)
    · split at hadd
      · split at hadd
        · rename_i qc2 hcq
          simp only [Except.ok.injEq, Prod.mk.injEq, Option.some.injEq] at hadd
          rw [← hadd.2, ← hadd.1]
          exact alist_get_set_self _ _ _
        · exact absurd hadd (by simp)
      · exact absurd hadd (by simp)

/-- Along any sequence of `add_vote` calls the collector emits at most
one QC per key. -/
theorem emit_count_le_one (k : VoteKey) (vs : List VoteMsg) :
    ∀ s : CollectorSt, emit_count k s vs ≤ 1 := by
  induction vs with
  | nil => intro s; exact Nat.zero_le 1
  | cons v rest ih =>
      intro s
      unfold emit_count
      cases hadd : s.add_vote v with
      | error e => exact Nat.zero_le 1
      | ok p =>
          obtain ⟨o, s1⟩ := p
          cases o with
          | none => exact ih s1
          | some qc =>
              by_cases hk : VoteMsg.key v = k
              · show (if VoteMsg.key v = k then 1 else 0) +
                  emit_count k s1 rest ≤ 1
                rw [if_pos hk]
                have hform := add_vote_some_formed s v qc s1 hadd
                rw [hk] at hform
                rw [emit_count_zero_of_formed k rest s1 qc hform]
              · show (if VoteMsg.key v = k then 1 else 0) +
                  emit_count k s1 rest ≤ 1
                rw [if_neg hk, Nat.zero_add]
                exact ih s1

/-- `add_vote` reaching the quorum, with the emitted QC's validity
facts. -/
theorem add_vote_quorum_spec (s : CollectorSt) (v : VoteMsg)
    (hinv : collector_inv s) (hwf : wf_vote v)
    (h1 : alist_get s.formed_qcs (VoteMsg.key v) = none)
    (h2 : v.sender_id ∉ ((alist_get s.votes (VoteMsg.key v)).getD []).map
      VoteMsg.sender_id)
    (h3 : s.quorum_size ≤
      ((alist_get s.votes (VoteMsg.key v)).getD []).length + 1) :
    ∃ qc s1, s.add_vote v = .ok (some qc, s1) ∧
      qc.qc_type = v.message_type ∧
      qc.view_number = v.view_number ∧
      qc.block_hash = v.block_hash ∧
      qc.signatures = (((alist_get s.votes (VoteMsg.key v)).getD []) ++
        [v]).map VoteMsg.partial_signature ∧
      qc.signatures.length = s.quorum_size ∧
      (qc.signatures.map PartialSignature.replica_id).Nodup ∧
      (∀ ps ∈ qc.signatures, ps.message_type = v.message_type ∧
        ps.view_number = v.view_number ∧ ps.block_hash = v.block_hash) ∧
      alist_get s1.formed_qcs (VoteMsg.key v) = some qc := by
  obtain ⟨ex0, hgd, hall, hnodup, hlt⟩ := collector_entry s v hinv h1
  rw [hgd] at h2 h3
  have hwfall : ∀ u ∈ ex0 ++ [v],
      VoteMsg.key u = VoteMsg.key v ∧ wf_vote u := by
    intro u hu
    rcases List.mem_append.mp hu with h | h
    · exact hall u h
    · rw [List.mem_singleton.mp h]; exact ⟨rfl, hwf⟩
  have hqlen : s.quorum_size ≤ (ex0 ++ [v]).length := by
    rw [List.length_append, List.length_singleton]
    exact h3
  have hlen : (ex0 ++ [v]).length = s.quorum_size := by
    rw [List.length_append, List.length_singleton]
    omega
  refine ⟨_, _, add_vote_quorum_eq s v ex0 h1 hgd h2
    (fun u hu => (hall u hu).1) hqlen, rfl, rfl, rfl, by rw [hgd], ?_, ?_, ?_,
    alist_get_set_self _ _ _⟩
  · rw [List.length_map]
    exact hlen
  · rw [List.map_map]
    have hmaps : ((ex0 ++ [v]).map
        (fun u => (VoteMsg.partial_signature u).replica_id)) =
        (ex0 ++ [v]).map VoteMsg.sender_id := by
      refine List.map_congr_left ?_
      intro u hu
      rw [(hwfall u hu).2]
    rw [show (PartialSignature.replica_id ∘ VoteMsg.partial_signature) =
      (fun u => (VoteMsg.partial_signature u).replica_id) from rfl]
    rw [hmaps]
    exact extended_senders_nodup ex0 v hnodup h2
  · intro ps hps
    rw [List.mem_map] at hps
    obtain ⟨u, hu, hpe⟩ := hps
    have hcomp := vote_key_components (hwfall u hu).1
    rw [← hpe, (hwfall u hu).2]
    exact ⟨hcomp.2.2, hcomp.1, hcomp.2.1⟩

/-- C4: `add_vote` returns nothing once a QC was emitted for the vote's
key; returns nothing and leaves the collector unchanged on a duplicate
signer; otherwise inserts the vote, staying silent below the quorum and,
exactly on reaching it, emitting a QC of the vote's phase, view and block
hash whose signatures are the collected quorum of distinct signers, each
carrying that same key; the invariant is preserved from a fresh
collector, and at most one QC is ever emitted per key. -/
theorem vote_collector_add_vote_spec :
    (∀ (s : CollectorSt) (v : VoteMsg) (qc0 : QuorumCertificate),
      alist_get s.formed_qcs (VoteMsg.key v) = some qc0 →
      s.add_vote v = .ok (none, s)) ∧
    (∀ (s : CollectorSt) (v : VoteMsg),
      alist_get s.formed_qcs (VoteMsg.key v) = none →
      v.sender_id ∈ ((alist_get s.votes (VoteMsg.key v)).getD []).map
        VoteMsg.sender_id →
      s.add_vote v = .ok (none, s)) ∧
    (∀ (s : CollectorSt) (v : VoteMsg),
      alist_get s.formed_qcs (VoteMsg.key v) = none →
      v.sender_id ∉ ((alist_get s.votes (VoteMsg.key v)).getD []).map
        VoteMsg.sender_id →
      ((alist_get s.votes (VoteMsg.key v)).getD []).length + 1 <
        s.quorum_size →
      s.add_vote v = .ok (none, { s with
        votes := alist_set s.votes (VoteMsg.key v)
          (((alist_get s.votes (VoteMsg.key v)).getD []) ++ [v]) })) ∧
    (∀ (s : CollectorSt) (v : VoteMsg), collector_inv s → wf_vote v →
      alist_get s.formed_qcs (VoteMsg.key v) = none →
      v.sender_id ∉ ((alist_get s.votes (VoteMsg.key v)).getD []).map
        VoteMsg.sender_id →
      s.quorum_size ≤
        ((alist_get s.votes (VoteMsg.key v)).getD []).length + 1 →
      ∃ qc s1, s.add_vote v = .ok (some qc, s1) ∧
        qc.qc_type = v.message_type ∧
        qc.view_number = v.view_number ∧
        qc.block_hash = v.block_hash ∧
        qc.signatures = (((alist_get s.votes (VoteMsg.key v)).getD []) ++
          [v]).map VoteMsg.partial_signature ∧
        qc.signatures.length = s.quorum_size ∧
        (qc.signatures.map PartialSignature.replica_id).Nodup ∧
        (∀ ps ∈ qc.signatures, ps.message_type = v.message_type ∧
          ps.view_number = v.view_number ∧ ps.block_hash = v.block_hash) ∧
        alist_get s1.formed_qcs (VoteMsg.key v) = some qc) ∧
    (∀ (s : CollectorSt) (v : VoteMsg) (o : Option QuorumCertificate)
      (s1 : CollectorSt), collector_inv s → wf_vote v →
      s.add_vote v = .ok (o, s1) → collector_inv s1) ∧
    (∀ q : Nat, 1 ≤ q → collector_inv (CollectorSt.init q)) ∧
    (∀ (k : VoteKey) (s : CollectorSt) (vs : List VoteMsg),
      emit_count k s vs ≤ 1) := by
  refine ⟨add_vote_formed_none, add_vote_dup, ?_, add_vote_quorum_spec,
    fun s v o s1 hinv hwf hadd => add_vote_inv s v o s1 hinv hwf hadd,
    collector_init_inv, fun k s vs => emit_count_le_one k vs s⟩
  intro s v h1 h2 h3
  exact add_vote_below_eq s v _ h1 rfl h2
    (by rw [List.length_append, List.length_singleton]; exact not_le.mpr h3)

theorem vote_collector_add_vote_spec_witness :
    ∃ qc s1, colw.add_vote vote_w2 = .ok (some qc, s1) ∧
      qc.signatures.length = colw.quorum_size ∧
      alist_get s1.formed_qcs (VoteMsg.key vote_w2) = some qc ∧
      emit_count (VoteMsg.key vote_w2) (CollectorSt.init 2)
        [vote_w1, vote_w2, vote_w1] ≤ 1 ∧
      collector_inv (CollectorSt.init 2) := by
  have hinvw : collector_inv colw := by
    refine ⟨by decide, ?_, ?_, ?_⟩ <;> intro kv hm <;>
      simp only [colw, List.mem_singleton] at hm <;> subst hm
    · intro u hu
      simp only [List.mem_singleton] at hu
      subst hu
      exact ⟨rfl, rfl⟩
    · decide
    · intro h4
      decide
  obtain ⟨qc, s1, hadd, -, -, -, -, hlen, -, -, hformed⟩ :=
    vote_collector_add_vote_spec.2.2.2.1 colw vote_w2 hinvw rfl
      (by decide) (by decide) (by decide)
  exact ⟨qc, s1, hadd, hlen, hformed,
    vote_collector_add_vote_spec.2.2.2.2.2.2 _ _ _,
    vote_collector_add_vote_spec.2.2.2.2.2.1 2 (by decide)⟩


/-- Transport of the no-RANDOM_DROP property across a single replica
update that preserves the fault marking. -/
theorem no_drop_set (s s1 : EngineSt) (rid : Nat) (r1 : ReplicaSt)
    (hr : s1.replicas = s.replicas.set rid r1)
    (hif : r1.is_faulty = (s.replica rid).is_faulty)
    (hft : r1.fault_type = (s.replica rid).fault_type)
    (hP : no_random_drop s) : no_random_drop s1 := by
  intro i
  show ¬((s1.replicas.getD i (ReplicaSt.init 0 0 0)).is_faulty = true ∧
    (s1.replicas.getD i (ReplicaSt.init 0 0 0)).fault_type =
      FaultType.RANDOM_DROP)
  rw [hr]
  have hp := getD_set_proj (fun (r : ReplicaSt) => (r.is_faulty, r.fault_type))
    s.replicas rid r1 (ReplicaSt.init 0 0 0)
    (by dsimp only; rw [hif, hft]; rfl) i
  simp only [Prod.mk.injEq] at hp
  rw [hp.1, hp.2]
  exact hP i

/-- Membership-aware invariant preservation through a plain fold. -/
theorem foldl_inv_mem {σ α : Type} (f : σ → α → σ) (Q : σ → Prop) :
    ∀ (l : List α), (∀ s a, a ∈ l → Q s → Q (f s a)) →
    ∀ s, Q s → Q (l.foldl f s) := by
  intro l
  induction l with
  | nil => intro _ s hs; exact hs
  | cons a rest ih =>
      intro hf s hs
      exact ih (fun s2 b hb hq => hf s2 b (List.mem_cons_of_mem _ hb) hq)
        (f s a) (hf s a (List.mem_cons_self _ _) hs)

/-- An initial engine has no RANDOM_DROP replica when the fault-marking
loop is empty (`num_faulty = 0`) or the configured kind is not
RANDOM_DROP. -/
theorem engine_init_no_drop (cfg : EngineConfig)
    (h : cfg.num_faulty = 0 ∨ cfg.fault_type ≠ FaultType.RANDOM_DROP) :
    no_random_drop (engine_init cfg) := by
  have h1 : ∀ r ∈ (engine_init_replicas cfg
      (NetworkSt.init cfg.network_delay_min_ms cfg.network_delay_max_ms)).2.2,
      ¬(r.is_faulty = true ∧ r.fault_type = FaultType.RANDOM_DROP) := by
    unfold engine_init_replicas
    refine foldl_inv _
      (fun (acc : NetworkSt × List Pacemaker × List ReplicaSt) =>
        ∀ r ∈ acc.2.2,
          ¬(r.is_faulty = true ∧ r.fault_type = FaultType.RANDOM_DROP))
      ?_ _ _ ?_
    · intro acc a hacc r hm
      simp only [List.mem_append, List.mem_singleton] at hm
      rcases hm with hm | hm
      · exact hacc r hm
      · rw [hm]
        intro hc
        simp [ReplicaSt.init] at hc
    · intro r hm; simp at hm
  have h2 : ∀ r ∈ (engine_mark_faulty cfg
      (engine_init_replicas cfg
        (NetworkSt.init cfg.network_delay_min_ms cfg.network_delay_max_ms)).1
      (engine_init_replicas cfg
        (NetworkSt.init cfg.network_delay_min_ms cfg.network_delay_max_ms)).2.2).2,
      ¬(r.is_faulty = true ∧ r.fault_type = FaultType.RANDOM_DROP) := by
    unfold engine_mark_faulty
    refine foldl_inv_mem _
      (fun (acc : NetworkSt × List ReplicaSt) =>
        ∀ r ∈ acc.2,
          ¬(r.is_faulty = true ∧ r.fault_type = FaultType.RANDOM_DROP))
      (List.range cfg.num_replicas) ?_ _ ?_
    · intro acc a ha hacc r hm
      by_cases hc : cfg.num_replicas - cfg.num_faulty ≤ a
      · rcases h with h0 | hft
        · exfalso
          rw [h0, Nat.sub_zero] at hc
          exact absurd (List.mem_range.mp ha) (not_lt.mpr hc)
        · simp only [if_pos hc] at hm
          have hm2 := List.mem_or_eq_of_mem_set hm
          rcases hm2 with hm2 | hm2
          · exact hacc r hm2
          · rw [hm2]
            intro hcc
            exact hft hcc.2
      · simp only [if_neg hc] at hm
        exact hacc r hm
    · exact h1
  intro i
  show ¬((((engine_init cfg).replicas).getD i
      (ReplicaSt.init 0 0 0)).is_faulty = true ∧
    (((engine_init cfg).replicas).getD i
      (ReplicaSt.init 0 0 0)).fault_type = FaultType.RANDOM_DROP)
  exact getD_prop
    (fun (x : ReplicaSt) =>
      ¬(x.is_faulty = true ∧ x.fault_type = FaultType.RANDOM_DROP))
    ((engine_init cfg).replicas) i (ReplicaSt.init 0 0 0) h2 (by decide)

/-- Per-replica view start preserves the no-RANDOM_DROP property. -/
theorem engine_start_view_one_nd (S : Streams) (v rid : Nat)
    (acc acc1 : EngineSt × List Event)
    (h : engine_start_view_one S v rid acc = .ok acc1)
    (hP : no_random_drop acc.1) : no_random_drop acc1.1 := by
  unfold engine_start_view_one at h
  dsimp only at h
  split at h
  · exact absurd h (by simp)
  · rename_i r1 c1 evs heq
    simp only [Except.ok.injEq] at h
    have hf := replica_start_view_spec S _ v _ _ _ _ _ heq
    rw [← h]
    intro i
    exact no_drop_set acc.1 _ rid r1 rfl hf.2.2.1 hf.2.2.2.1 hP i

/-- Engine-wide view start preserves the no-RANDOM_DROP property. -/
theorem engine_start_view_nd (S : Streams) (s : EngineSt) (v : Nat)
    (evs : List Event) (s1 : EngineSt)
    (h : engine_start_view S s v = .ok (evs, s1))
    (hP : no_random_drop s) : no_random_drop s1 := by
  unfold engine_start_view at h
  dsimp only at h
  split at h
  · exact absurd h (by simp)
  · rename_i s2 events heq
    simp only [Except.ok.injEq, Prod.mk.injEq] at h
    have hfold : no_random_drop s2 := by
      refine foldlM_except_inv
        (Q := fun (a : EngineSt × List Event) => no_random_drop a.1)
        ?_ _ _ _ ?_ heq
      · intro b a b1 hq hf
        exact engine_start_view_one_nd S v a b b1 hf hq
      · intro i; exact hP i
    rw [← h.2]
    intro i
    exact hfold i

/-- Simulation start preserves the no-RANDOM_DROP property. -/
theorem engine_start_nd (S : Streams) (s : EngineSt) (evs : List Event)
    (s1 : EngineSt) (h : engine_start S s = .ok (evs, s1))
    (hP : no_random_drop s) : no_random_drop s1 := by
  unfold engine_start at h
  exact engine_start_view_nd S _ 1 evs s1 h (fun i => hP i)

/-- Post-commit advance preserves the no-RANDOM_DROP property. -/
theorem engine_on_block_committed_nd (S : Streams) (s : EngineSt) (rid : Nat)
    (s4 : EngineSt) (h : engine_on_block_committed S s rid = .ok s4)
    (hP : no_random_drop s) : no_random_drop s4 := by
  unfold engine_on_block_committed at h
  dsimp only at h
  split at h
  · simp only [Except.ok.injEq] at h
    rw [← h]
    exact hP
  · cases halist : alist_get s.view_start_times (s.replica rid).current_view with
    | none =>
        rw [halist] at h
        dsimp only at h
        by_cases hv : s.current_view < (s.replica rid).current_view + 1
        · simp only [if_pos hv] at h
          split at h
          · exact absurd h (by simp)
          · rename_i r1 c1 evs heq
            simp only [Except.ok.injEq] at h
            have hf := replica_start_view_spec S _ _ _ _ _ _ _ heq
            rw [← h]
            exact no_drop_set s _ rid r1 rfl hf.2.2.1 hf.2.2.2.1 hP
        · simp only [if_neg hv] at h
          split at h
          · exact absurd h (by simp)
          · rename_i r1 c1 evs heq
            simp only [Except.ok.injEq] at h
            have hf := replica_start_view_spec S _ _ _ _ _ _ _ heq
            rw [← h]
            exact no_drop_set s _ rid r1 rfl hf.2.2.1 hf.2.2.2.1 hP
    | some started =>
        rw [halist] at h
        dsimp only at h
        by_cases hv : s.current_view < (s.replica rid).current_view + 1
        · simp only [if_pos hv] at h
          split at h
          · exact absurd h (by simp)
          · rename_i r1 c1 evs heq
            simp only [Except.ok.injEq] at h
            have hf := replica_start_view_spec S _ _ _ _ _ _ _ heq
            rw [← h]
            exact no_drop_set s _ rid r1 rfl hf.2.2.1 hf.2.2.2.1 hP
        · simp only [if_neg hv] at h
          split at h
          · exact absurd h (by simp)
          · rename_i r1 c1 evs heq
            simp only [Except.ok.injEq] at h
            have hf := replica_start_view_spec S _ _ _ _ _ _ _ heq
            rw [← h]
            exact no_drop_set s _ rid r1 rfl hf.2.2.1 hf.2.2.2.1 hP

/-- The per-event commit step preserves the no-RANDOM_DROP property. -/
theorem engine_commit_step_nd (S : Streams) (rid : Nat) (st : EngineSt)
    (ev : Event) (st2 : EngineSt)
    (h : engine_commit_step S rid st ev = .ok st2)
    (hP : no_random_drop st) : no_random_drop st2 := by
  unfold engine_commit_step at h
  dsimp only at h
  split at h
  · exact engine_on_block_committed_nd S _ rid st2 h (fun j => hP j)
  · simp only [Except.ok.injEq] at h
    rw [← h]
    exact hP

/-- Delivery of a single message preserves the no-RANDOM_DROP
property. -/
theorem engine_deliver_one_nd (S : Streams) (rid : Nat) (m : Msg)
    (acc acc1 : EngineSt × Option Event)
    (h : engine_deliver_one S rid m acc = .ok acc1)
    (hP : no_random_drop acc.1) : no_random_drop acc1.1 := by
  unfold engine_deliver_one at h
  dsimp only at h
  split at h
  · exact absurd h (by simp)
  · rename_i r1 c1 mevs heq
    have hf := replica_handle_message_frame S _ m _ _ _ _ _ heq
    split at h
    · exact absurd h (by simp)
    · rename_i s2 heq2
      simp only [Except.ok.injEq] at h
      have h1 : no_random_drop
          { (acc.1.with_ctx c1) with
            replicas := acc.1.replicas.set rid r1
            event_history := acc.1.event_history ++
              [Event.MESSAGE_RECEIVE acc.1.clock rid m.sender_id
                m.message_type m.message_id] } :=
        no_drop_set acc.1 _ rid r1 rfl hf.2.2.1 hf.2.2.2 hP
      have h2 : no_random_drop s2 := by
        refine foldlM_except_inv
          (Q := fun (st : EngineSt) => no_random_drop st) ?_ _ _ _
          h1 heq2
        intro b a b1 hq hfa
        exact engine_commit_step_nd S rid b a b1 hfa hq
      rw [← h]
      exact h2

/-- Per-replica drain preserves the no-RANDOM_DROP property. -/
theorem engine_deliver_replica_nd (S : Streams) (rid : Nat)
    (acc acc1 : EngineSt × Option Event)
    (h : engine_deliver_replica S rid acc = .ok acc1)
    (hP : no_random_drop acc.1) : no_random_drop acc1.1 := by
  unfold engine_deliver_replica at h
  dsimp only at h
  refine foldlM_except_inv
    (Q := fun (a : EngineSt × Option Event) => no_random_drop a.1)
    ?_ _ _ _ ?_ h
  · intro b a b1 hq hf
    exact engine_deliver_one_nd S rid a b b1 hf hq
  · intro i
    exact hP i

/-- The message-delivery step preserves the no-RANDOM_DROP property. -/
theorem engine_process_message_delivery_nd (S : Streams) (s : EngineSt)
    (t : Int) (ev : Option Event) (s1 : EngineSt)
    (h : engine_process_message_delivery S s t = .ok (ev, s1))
    (hP : no_random_drop s) : no_random_drop s1 := by
  unfold engine_process_message_delivery at h
  dsimp only at h
  split at h
  · exact absurd h (by simp)
  · split at h
    · exact absurd h (by simp)
    · rename_i s2 ev2 heq
      simp only [Except.ok.injEq, Prod.mk.injEq] at h
      have hfold : no_random_drop s2 := by
        refine foldlM_except_inv
          (Q := fun (a : EngineSt × Option Event) =>
            no_random_drop a.1) ?_ _ _ _ ?_ heq
        · intro b a b1 hq hf
          exact engine_deliver_replica_nd S a b b1 hf hq
        · intro i
          exact hP i
      rw [← h.2]
      exact hfold

/-- Timeout handling preserves the no-RANDOM_DROP property. -/
theorem engine_handle_timeout_nd (S : Streams) (s : EngineSt) (ev : SchedEv)
    (oe : Option Event) (s1 : EngineSt)
    (h : engine_handle_timeout S s ev = .ok (oe, s1))
    (hP : no_random_drop s) : no_random_drop s1 := by
  unfold engine_handle_timeout at h
  dsimp only at h
  split at h
  · simp only [Except.ok.injEq, Prod.mk.injEq] at h
    rw [← h.2]
    exact hP
  · split at h
    · exact absurd h (by simp)
    · rename_i r1 c1 evs heq
      simp only [Except.ok.injEq, Prod.mk.injEq] at h
      have hf := replica_start_view_spec S _ _ _ _ _ _ _ heq
      rw [← h.2]
      exact no_drop_set _ _ ev.replica_id r1 rfl hf.2.2.1 hf.2.2.2.1
        (fun j => hP j)

/-- The scheduled-event step preserves the no-RANDOM_DROP property. -/
theorem engine_process_scheduled_nd (S : Streams) (s : EngineSt)
    (oe : Option Event) (s1 : EngineSt)
    (h : engine_process_scheduled S s = .ok (oe, s1))
    (hP : no_random_drop s) : no_random_drop s1 := by
  unfold engine_process_scheduled at h
  split at h
  · simp only [Except.ok.injEq, Prod.mk.injEq] at h
    rw [← h.2]
    exact hP
  · split at h
    · exact absurd h (by simp)
    · exact engine_handle_timeout_nd S _ _ oe s1 h (fun i => hP i)

/-- The step loop preserves the no-RANDOM_DROP property. -/
theorem engine_step_loop_nd (S : Streams) :
    ∀ (fuel : Nat) (s : EngineSt) (oe : Option Event) (s1 : EngineSt),
    engine_step_loop S fuel s = .ok (oe, s1) →
    no_random_drop s → no_random_drop s1 := by
  intro fuel
  induction fuel with
  | zero =>
      intro s oe s1 h hP
      simp only [engine_step_loop, Except.ok.injEq, Prod.mk.injEq] at h
      rw [← h.2]
      exact hP
  | succ n ih =>
      intro s oe s1 h hP
      unfold engine_step_loop at h
      by_cases h1 : s.network.next_delivery_time < 0 ∧ s.peek_time = none
      · rw [if_pos h1] at h
        simp only [Except.ok.injEq, Prod.mk.injEq] at h
        rw [← h.2]
        exact hP
      · rw [if_neg h1] at h
        by_cases h2 : 0 ≤ s.network.next_delivery_time ∧
            (s.peek_time = none ∨
              ∃ t, s.peek_time = some t ∧ s.network.next_delivery_time ≤ t)
        · rw [if_pos h2] at h
          cases hm : engine_process_message_delivery S s
              s.network.next_delivery_time with
          | error e => rw [hm] at h; exact absurd h (by simp)
          | ok p =>
              obtain ⟨pe, ps⟩ := p
              rw [hm] at h
              cases pe with
              | some ev0 =>
                  simp only [Except.ok.injEq, Prod.mk.injEq] at h
                  have hps := engine_process_message_delivery_nd S s _ _ _ hm hP
                  rw [← h.2]
                  exact hps
              | none =>
                  have hps := engine_process_message_delivery_nd S s _ _ _ hm hP
                  exact ih ps oe s1 h hps
        · rw [if_neg h2] at h
          cases hp : s.peek_time with
          | none =>
              rw [hp] at h
              simp only [Except.ok.injEq, Prod.mk.injEq] at h
              rw [← h.2]
              exact hP
          | some tv =>
              rw [hp] at h
              cases hs : engine_process_scheduled S s with
              | error e => rw [hs] at h; exact absurd h (by simp)
              | ok p =>
                  obtain ⟨pe, ps⟩ := p
                  rw [hs] at h
                  cases pe with
                  | some ev0 =>
                      simp only [Except.ok.injEq, Prod.mk.injEq] at h
                      have hps := engine_process_scheduled_nd S s _ _ hs hP
                      rw [← h.2]
                      exact hps
                  | none =>
                      have hps := engine_process_scheduled_nd S s _ _ hs hP
                      exact ih ps oe s1 h hps

/-- A successful `step` preserves the no-RANDOM_DROP property. -/
theorem engine_step_nd (S : Streams) (s : EngineSt) (oe : Option Event)
    (s1 : EngineSt) (h : engine_step S s = .ok (oe, s1))
    (hP : no_random_drop s) : no_random_drop s1 := by
  unfold engine_step at h
  split at h
  · simp only [Except.ok.injEq, Prod.mk.injEq] at h
    rw [← h.2]
    exact hP
  · exact engine_step_loop_nd S 100 s oe s1 h hP

/-- Pointwise congruence of monadic folds under an invariant. -/
theorem foldlM_congr {β α : Type} (f h : β → α → Except PyErr β)
    (Q : β → Prop)
    (hc : ∀ b a, Q b → f b a = h b a)
    (hp : ∀ b a b1, Q b → h b a = .ok b1 → Q b1) :
    ∀ (l : List α) (b : β), Q b → l.foldlM f b = l.foldlM h b := by
  intro l
  induction l with
  | nil => intro b hq; rfl
  | cons a rest ih =>
      intro b hq
      rw [List.foldlM_cons, List.foldlM_cons, hc b a hq]
      cases hh : h b a with
      | error e => rfl
      | ok b1 =>
          show rest.foldlM f b1 = rest.foldlM h b1
          exact ih b1 (hp b a b1 hq hh)

/-- A view start on a non-RANDOM_DROP replica never reads the global
drop coin. -/
theorem replica_start_view_ng (S : Streams) (g : Nat → Bool) (r : ReplicaSt)
    (v : Nat) (t : Int) (c : Ctx)
    (h : ¬(r.is_faulty = true ∧ r.fault_type = FaultType.RANDOM_DROP)) :
    replica_start_view { S with gRand := g } r v t c =
      replica_start_view S r v t c := by
  unfold replica_start_view
  by_cases h1 : r.is_faulty = true ∧ r.fault_type = FaultType.CRASH
  · simp only [if_pos h1]
  · simp only [if_neg h1]
    by_cases h2 : r.is_faulty = true ∧ r.fault_type = FaultType.SILENT
    · simp only [if_pos h2]
    · simp only [if_neg h2, if_neg h]
      rfl

/-- Message handling on a non-RANDOM_DROP replica never reads the global
drop coin. -/
theorem replica_handle_message_ng (S : Streams) (g : Nat → Bool)
    (r : ReplicaSt) (m : Msg) (t : Int) (c : Ctx)
    (h : ¬(r.is_faulty = true ∧ r.fault_type = FaultType.RANDOM_DROP)) :
    replica_handle_message { S with gRand := g } r m t c =
      replica_handle_message S r m t c := by
  unfold replica_handle_message
  by_cases h1 : r.is_faulty = true ∧ r.fault_type = FaultType.CRASH
  · simp only [if_pos h1]
  · simp only [if_neg h1]
    by_cases h2 : r.is_faulty = true ∧ r.fault_type = FaultType.SILENT
    · simp only [if_pos h2]
    · simp only [if_neg h2, if_neg h]
      rfl

/-- Per-replica view start reads no global drop coin on a
no-RANDOM_DROP state. -/
theorem engine_start_view_one_ng (S : Streams) (g : Nat → Bool) (v rid : Nat)
    (acc : EngineSt × List Event) (hP : no_random_drop acc.1) :
    engine_start_view_one { S with gRand := g } v rid acc =
      engine_start_view_one S v rid acc := by
  unfold engine_start_view_one
  dsimp only [EngineSt.replica]
  have hPr := hP rid
  dsimp only [EngineSt.replica] at hPr
  rw [replica_start_view_ng S g _ _ _ _ hPr]

/-- Engine-wide view start reads no global drop coin on a
no-RANDOM_DROP state. -/
theorem engine_start_view_ng (S : Streams) (g : Nat → Bool) (s : EngineSt)
    (v : Nat) (hP : no_random_drop s) :
    engine_start_view { S with gRand := g } s v =
      engine_start_view S s v := by
  unfold engine_start_view
  dsimp only
  congr 1
  refine foldlM_congr _ _
    (fun (a : EngineSt × List Event) => no_random_drop a.1) ?_ ?_ _ _ ?_
  · intro b a hq
    exact engine_start_view_one_ng S g v a b hq
  · intro b a b1 hq hf
    exact engine_start_view_one_nd S v a b b1 hf hq
  · intro i
    exact hP i

/-- `start` reads no global drop coin on a no-RANDOM_DROP state. -/
theorem engine_start_ng (S : Streams) (g : Nat → Bool) (s : EngineSt)
    (hP : no_random_drop s) :
    engine_start { S with gRand := g } s = engine_start S s := by
  unfold engine_start
  exact engine_start_view_ng S g _ 1 (fun i => hP i)

/-- The post-commit advance reads no global drop coin on a
no-RANDOM_DROP state. -/
theorem engine_on_block_committed_ng (S : Streams) (g : Nat → Bool)
    (s : EngineSt) (rid : Nat) (hP : no_random_drop s) :
    engine_on_block_committed { S with gRand := g } s rid =
      engine_on_block_committed S s rid := by
  unfold engine_on_block_committed
  dsimp only [EngineSt.replica]
  have hPr := hP rid
  dsimp only [EngineSt.replica] at hPr
  by_cases hlt : (s.replicas.getD rid (ReplicaSt.init 0 0 0)).current_view <
      s.current_view
  · simp only [if_pos hlt]
  · simp only [if_neg hlt]
    cases halist : alist_get s.view_start_times
        (s.replicas.getD rid (ReplicaSt.init 0 0 0)).current_view with
    | none =>
        dsimp only
        by_cases hv : s.current_view <
            (s.replicas.getD rid (ReplicaSt.init 0 0 0)).current_view + 1
        · simp only [if_pos hv]
          rw [replica_start_view_ng S g _ _ _ _ hPr]
        · simp only [if_neg hv]
          rw [replica_start_view_ng S g _ _ _ _ hPr]
    | some started =>
        dsimp only
        by_cases hv : s.current_view <
            (s.replicas.getD rid (ReplicaSt.init 0 0 0)).current_view + 1
        · simp only [if_pos hv]
          rw [replica_start_view_ng S g _ _ _ _ hPr]
        · simp only [if_neg hv]
          rw [replica_start_view_ng S g _ _ _ _ hPr]

/-- The per-event commit step reads no global drop coin on a
no-RANDOM_DROP state. -/
theorem engine_commit_step_ng (S : Streams) (g : Nat → Bool) (rid : Nat)
    (st : EngineSt) (ev : Event) (hP : no_random_drop st) :
    engine_commit_step { S with gRand := g } rid st ev =
      engine_commit_step S rid st ev := by
  unfold engine_commit_step
  dsimp only
  cases ev <;> try rfl
  exact engine_on_block_committed_ng S g _ rid (fun i => hP i)

/-- Delivery of one message reads no global drop coin on a
no-RANDOM_DROP state. -/
theorem engine_deliver_one_ng (S : Streams) (g : Nat → Bool) (rid : Nat)
    (m : Msg) (acc : EngineSt × Option Event) (hP : no_random_drop acc.1) :
    engine_deliver_one { S with gRand := g } rid m acc =
      engine_deliver_one S rid m acc := by
  unfold engine_deliver_one
  dsimp only [EngineSt.replica]
  have hPr := hP rid
  dsimp only [EngineSt.replica] at hPr
  rw [replica_handle_message_ng S g _ m _ _ hPr]
  cases hX : replica_handle_message S
      (acc.1.replicas.getD rid (ReplicaSt.init 0 0 0)) m acc.1.clock
      acc.1.ctx with
  | error e => rfl
  | ok trip =>
      obtain ⟨r1, c1, mevs⟩ := trip
      dsimp only
      have hf := replica_handle_message_frame S _ m _ _ _ _ _ hX
      have hbase : no_random_drop { (acc.1.with_ctx c1) with
          replicas := acc.1.replicas.set rid r1
          event_history := acc.1.event_history ++
            [Event.MESSAGE_RECEIVE acc.1.clock rid m.sender_id
              m.message_type m.message_id] } :=
        no_drop_set acc.1 _ rid r1 rfl hf.2.2.1 hf.2.2.2 hP
      rw [foldlM_congr _ _ (fun (st : EngineSt) => no_random_drop st)
        (fun b a hq => engine_commit_step_ng S g rid b a hq)
        (fun b a b1 hq hfa => engine_commit_step_nd S rid b a b1 hfa hq)
        mevs _ hbase]

/-- The per-replica drain reads no global drop coin on a
no-RANDOM_DROP state. -/
theorem engine_deliver_replica_ng (S : Streams) (g : Nat → Bool) (rid : Nat)
    (acc : EngineSt × Option Event) (hP : no_random_drop acc.1) :
    engine_deliver_replica { S with gRand := g } rid acc =
      engine_deliver_replica S rid acc := by
  unfold engine_deliver_replica
  dsimp only
  refine foldlM_congr _ _
    (fun (a : EngineSt × Option Event) => no_random_drop a.1) ?_ ?_ _ _ ?_
  · intro b a hq
    exact engine_deliver_one_ng S g rid a b hq
  · intro b a b1 hq hf
    exact engine_deliver_one_nd S rid a b b1 hf hq
  · intro i
    exact hP i

/-- The message-delivery step reads no global drop coin on a
no-RANDOM_DROP state. -/
theorem engine_process_message_delivery_ng (S : Streams) (g : Nat → Bool)
    (s : EngineSt) (t : Int) (hP : no_random_drop s) :
    engine_process_message_delivery { S with gRand := g } s t =
      engine_process_message_delivery S s t := by
  unfold engine_process_message_delivery
  dsimp only
  by_cases ht : t < s.clock
  · simp only [if_pos ht]
  · simp only [if_neg ht]
    congr 1
    refine foldlM_congr _ _
      (fun (a : EngineSt × Option Event) => no_random_drop a.1) ?_ ?_ _ _ ?_
    · intro b a hq
      exact engine_deliver_replica_ng S g a b hq
    · intro b a b1 hq hf
      exact engine_deliver_replica_nd S a b b1 hf hq
    · intro i
      exact hP i

/-- Timeout handling reads no global drop coin on a no-RANDOM_DROP
state. -/
theorem engine_handle_timeout_ng (S : Streams) (g : Nat → Bool)
    (s : EngineSt) (ev : SchedEv) (hP : no_random_drop s) :
    engine_handle_timeout { S with gRand := g } s ev =
      engine_handle_timeout S s ev := by
  unfold engine_handle_timeout
  dsimp only [EngineSt.replica]
  have hPr := hP ev.replica_id
  dsimp only [EngineSt.replica] at hPr
  by_cases hne : (s.replicas.getD ev.replica_id
      (ReplicaSt.init 0 0 0)).current_view ≠ ev.view
  · simp only [if_pos hne]
  · simp only [if_neg hne]
    rw [replica_start_view_ng S g _ _ _ _ hPr]

/-- The scheduled-event step reads no global drop coin on a
no-RANDOM_DROP state. -/
theorem engine_process_scheduled_ng (S : Streams) (g : Nat → Bool)
    (s : EngineSt) (hP : no_random_drop s) :
    engine_process_scheduled { S with gRand := g } s =
      engine_process_scheduled S s := by
  unfold engine_process_scheduled
  cases hq : s.sched_queue with
  | nil => rfl
  | cons e rest =>
      obtain ⟨timestamp, seq, ev⟩ := e
      dsimp only
      by_cases ht : timestamp < s.clock
      · simp only [if_pos ht]
      · simp only [if_neg ht]
        exact engine_handle_timeout_ng S g _ ev (fun i => hP i)

/-- The step loop reads no global drop coin on a no-RANDOM_DROP
state. -/
theorem engine_step_loop_ng (S : Streams) (g : Nat → Bool) :
    ∀ (fuel : Nat) (s : EngineSt), no_random_drop s →
    engine_step_loop { S with gRand := g } fuel s =
      engine_step_loop S fuel s := by
  intro fuel
  induction fuel with
  | zero => intro s hP; rfl
  | succ n ih =>
      intro s hP
      unfold engine_step_loop
      dsimp only
      by_cases h1 : s.network.next_delivery_time < 0 ∧ s.peek_time = none
      · simp only [if_pos h1]
      · simp only [if_neg h1]
        by_cases h2 : 0 ≤ s.network.next_delivery_time ∧
            (s.peek_time = none ∨
              ∃ t, s.peek_time = some t ∧ s.network.next_delivery_time ≤ t)
        · simp only [if_pos h2]
          rw [engine_process_message_delivery_ng S g s
            s.network.next_delivery_time hP]
          cases hm : engine_process_message_delivery S s
              s.network.next_delivery_time with
          | error e => rfl
          | ok p =>
              obtain ⟨pe, ps⟩ := p
              cases pe with
              | some ev0 => rfl
              | none =>
                  exact ih ps
                    (engine_process_message_delivery_nd S s _ _ _ hm hP)
        · simp only [if_neg h2]
          cases hp : s.peek_time with
          | none => rfl
          | some tv =>
              dsimp only
              rw [engine_process_scheduled_ng S g s hP]
              cases hs : engine_process_scheduled S s with
              | error e => rfl
              | ok p =>
                  obtain ⟨pe, ps⟩ := p
                  cases pe with
                  | some ev0 => rfl
                  | none =>
                      exact ih ps (engine_process_scheduled_nd S s _ _ hs hP)

/-- `step` reads no global drop coin on a no-RANDOM_DROP state. -/
theorem engine_step_ng (S : Streams) (g : Nat → Bool) (s : EngineSt)
    (hP : no_random_drop s) :
    engine_step { S with gRand := g } s = engine_step S s := by
  unfold engine_step
  by_cases hr : ¬s.is_running = true
  · simp only [if_pos hr]
  · simp only [if_neg hr]
    exact engine_step_loop_ng S g 100 s hP

/-- Iterated `step` reads no global drop coin on a no-RANDOM_DROP
state. -/
theorem engine_step_n_ng (S : Streams) (g : Nat → Bool) :
    ∀ (k : Nat) (s : EngineSt), no_random_drop s →
    engine_step_n { S with gRand := g } k s = engine_step_n S k s := by
  intro k
  induction k with
  | zero => intro s hP; rfl
  | succ n ih =>
      intro s hP
      unfold engine_step_n
      rw [engine_step_ng S g s hP]
      cases hm : engine_step S s with
      | error e => rfl
      | ok p =>
          obtain ⟨oe, s1⟩ := p
          exact ih s1 (engine_step_nd S s oe s1 hm hP)

/-- C5 as amended: for every configuration with no configured-faulty
replica — the only ones whose real construction succeeds — and more
generally whenever the configured fault kind is not RANDOM_DROP, a
complete run never consults the process-global `random.random()`
stream, so its outcome and event history are functions of the seeded
network draws, the message-id draws and the configuration alone.  (With
an injected RANDOM_DROP replica, and for the message ids themselves,
the history depends on process-global entropy: see the
counterexample.) -/
theorem determinism_without_random_drop (S : Streams) (g : Nat → Bool)
    (cfg : EngineConfig) (k : Nat)
    (h : cfg.num_faulty = 0 ∨ cfg.fault_type ≠ FaultType.RANDOM_DROP) :
    engine_run { S with gRand := g } cfg k = engine_run S cfg k ∧
    engine_run_history { S with gRand := g } cfg k =
      engine_run_history S cfg k := by
  have h0 : no_random_drop (engine_init cfg) := engine_init_no_drop cfg h
  have hrun : engine_run { S with gRand := g } cfg k = engine_run S cfg k := by
    unfold engine_run
    rw [engine_start_ng S g _ h0]
    cases hs : engine_start S (engine_init cfg) with
    | error e => rfl
    | ok p =>
        obtain ⟨evs, s⟩ := p
        exact engine_step_n_ng S g k s (engine_start_nd S _ evs s hs h0)
  refine ⟨hrun, ?_⟩
  unfold engine_run_history
  rw [hrun]

theorem determinism_without_random_drop_witness :
    engine_run { streams_lo with gRand := fun _ => true } cfg_nf0 1 =
      engine_run streams_lo cfg_nf0 1 :=
  (determinism_without_random_drop streams_lo (fun _ => true) cfg_nf0 1
    (by decide)).1

set_option maxHeartbeats 4000000 in
/-- C5 counterexample: two engine instances given equal configuration,
seed and external commands can produce different event histories.
First conjunct: with the default four-replica configuration and
`num_faulty = 0` (the only kind whose real construction succeeds: with
`num_faulty ≥ 1` the constructor's fault loop reads the `fault_type`
attribute that the pydantic `Settings` never carries and raises), the
history embeds the `uuid.uuid4()` message ids — process entropy — in
MESSAGE_RECEIVE events, so instances whose uuid draws differ diverge.
Second conjunct: after `inject_fault` makes replica 3 RANDOM_DROP, the
history depends on the process-global `random.random()` draws, which no
run seed controls (here the draw happens in replica 3's `start_view`
fault branch when the simulation is started). -/
theorem determinism_global_prng_counterexample :
    (match engine_run_history streams_uu cfg_nf0 1 with
     | .ok evs => evs
     | .error _ => []) ≠
    (match engine_run_history streams_lo cfg_nf0 1 with
     | .ok evs => evs
     | .error _ => []) ∧
    (match engine_start streams_hi
        (engine_inject_fault (engine_init cfg_nf0) 3 .RANDOM_DROP) with
     | .error _ => []
     | .ok (_, s1) => s1.event_history) ≠
    (match engine_start streams_lo
        (engine_inject_fault (engine_init cfg_nf0) 3 .RANDOM_DROP) with
     | .error _ => []
     | .ok (_, s1) => s1.event_history) := by
  constructor
  · decide
  · decide

end HotStuff
